import Mathlib

/-! # OctoClock firmware image loader

A shallow embedding of `host/lib/usrp_clock/octoclock/octoclock_image_loader.cpp`.

* Machine integers are natural numbers, reduced modulo `2 ^ w` wherever the
  source stores them in a `w`-bit field.
* Side effects (file system, datagram exchanges, `std::rand`) are threaded
  through an explicit `World`; everything the loader gets from outside this
  file (the device, discovery, the headers `common.h` and `octoclock_impl.hpp`,
  indeterminate stack contents) is a field of `Env`.
* A C++ function that can throw returns an `outcome`: the world it leaves
  behind together with either the exception or the value.
-/

namespace OctoClock

/-! ## Constants and plain data -/

/-- Size of the firmware region, `#define OCTOCLOCK_FIRMWARE_MAX_SIZE_BYTES (1024*120)`. -/
def OCTOCLOCK_FIRMWARE_MAX_SIZE_BYTES : Nat := 1024 * 120

/-- Size of one transferred block, `#define OCTOCLOCK_BLOCK_SIZE 256`. -/
def OCTOCLOCK_BLOCK_SIZE : Nat := 256

/-- One byte (`boost::uint8_t`). -/
abbrev uint8_t := Fin 256

/-- The type `uhd::device_addr_t`, a `uhd::dict<std::string, std::string>`: an ordered
list of key/value pairs. -/
abbrev device_addr_t := List (String × String)

/-- The type `uhd::device_addrs_t`, a vector of device addresses. -/
abbrev device_addrs_t := List device_addr_t

/-- Exceptions that leave the loader. -/
inductive exception where
  /-- The exception `uhd::runtime_error` with its message. -/
  | runtime_error (what : String)
  /-- The exception `uhd::key_error`, thrown by a `const` lookup of a missing key. -/
  | key_error (key : String)
  /-- The exception `boost::io::too_few_args`, thrown by `str` on a format with unfed
  directives. -/
  | too_few_args
  /-- The exception `boost::filesystem::filesystem_error`. -/
  | filesystem_error (path : String)
  /-- Whatever `find_image_path` throws when it finds no image. -/
  | io_error (what : String)
  deriving DecidableEq, Repr

/-- Modelled from the spec: the command codes of `common.h` (not part of the sources at
hand). Section 6 lists five commands with one acknowledgment each; a device may also
answer with any other code. -/
inductive packet_code where
  | RESET_CMD
  | RESET_ACK
  | PREPARE_FW_BURN_CMD
  | FW_BURN_READY_ACK
  | FILE_TRANSFER_CMD
  | FILE_TRANSFER_ACK
  | READ_FW_CMD
  | READ_FW_ACK
  | FINALIZE_BURNING_CMD
  | FINALIZE_BURNING_ACK
  | OTHER_CODE (raw : Nat)
  deriving DecidableEq, Repr

/-- Modelled from the spec: the packet record `octoclock_packet_t` of `common.h` (not
part of the sources at hand), with the fields of the wire layout in section 6. Each
integer field holds the value the host stores in it (`sequence`, `addr`: 32 bits,
`len`, `crc`: 16 bits); `data` is the 256-byte payload. -/
structure octoclock_packet_t where
  sequence : Nat
  code : packet_code
  len : Nat
  crc : Nat
  addr : Nat
  data : List uint8_t
  deriving DecidableEq, Repr

/-- The two command channels of a session: `ctrl_xport` and `fw_xport`. -/
inductive xport_id where
  | ctrl
  | fw
  deriving DecidableEq, Repr

/-- The record `octoclock_session_t`. `ctrl_xport` and `fw_xport` hold the address the
channel was connected to (`none` while the pointer is unset); `data_in` is the receive
buffer seen through `pkt_in`. -/
structure octoclock_session_t where
  found : Bool
  dev_addr : device_addr_t
  given_filepath : String
  actual_filepath : String
  from_hex : Bool
  size : Nat
  crc : Nat
  num_blocks : Nat
  ctrl_xport : Option String
  fw_xport : Option String
  data_in : octoclock_packet_t
  deriving DecidableEq, Repr

/-- The four functions that declare a local `octoclock_packet_t pkt_out;` and use it
without initialising every field. -/
inductive pkt_owner where
  | reset
  | burn
  | verify
  | finalize
  deriving DecidableEq, Repr

/-- The argument record `image_loader::image_loader_args_t`, restricted to the fields
the loader reads. -/
structure image_loader_args_t where
  args : device_addr_t
  firmware_path : String
  load_firmware : Bool
  deriving DecidableEq, Repr

/-! ## The world and the environment -/

/-- The mutable state outside the session record. -/
structure World where
  /-- The file system: the content of the file at a path, if it exists. -/
  files : String → Option (List uint8_t)
  /-- The paths `fs::remove` was called on, oldest first. -/
  removed : List String
  /-- The packets sent so far with the channel each went out on, oldest first. -/
  sent : List (xport_id × octoclock_packet_t)
  /-- The connected channels opened so far: channel and remote address. -/
  opened : List (xport_id × String)
  /-- The number of calls of `std::rand` so far. -/
  rand_calls : Nat

/-- Everything the loader takes from outside this translation unit. -/
structure Env where
  /-- Byte order of the host: `htonx` swaps bytes exactly on a little-endian host. -/
  little_endian : Bool
  /-- The value of the k-th call of `std::rand`. -/
  rand : Nat → Nat
  /-- The indeterminate initial content of the local `session` of the loader. -/
  uninit_session : octoclock_session_t
  /-- The indeterminate initial content of each local `pkt_out`. -/
  uninit_pkt_out : pkt_owner → octoclock_packet_t
  /-- The indeterminate initial content of `temp_image`. -/
  uninit_temp_image : Nat → uint8_t
  /-- Modelled from the spec: the macro `UHD_OCTOCLOCK_PACKET_MATCHES` of
  `octoclock_impl.hpp` (not part of the sources at hand), the rule that matches a
  response to an expected acknowledgment. It sees the expected code, the packet sent,
  the receive buffer and the received length. -/
  PACKET_MATCHES : packet_code → octoclock_packet_t → octoclock_packet_t → Nat → Bool
  /-- The device and the transport: given all packets sent so far (the last one being
  the current request), the length `recv` returns and the content of the receive
  buffer after the call. -/
  device : List (xport_id × octoclock_packet_t) → Nat × octoclock_packet_t
  /-- The discovery routine `octoclock_find`. -/
  octoclock_find : device_addr_t → device_addrs_t
  /-- The discovery routine `uhd::device::find`, given the packets sent so far and the
  text the hint is built from. -/
  device_find : List (xport_id × octoclock_packet_t) → String → device_addrs_t
  /-- The routine `uhd::find_image_path`. -/
  find_image_path : String → Except exception String
  /-- The routine `fs::extension`. -/
  fs_extension : String → String
  /-- The routine `uhd::get_tmp_path`. -/
  get_tmp_path : String
  /-- The value of `time_spec_t::get_system_time().get_full_secs()`. -/
  system_time_full_secs : Nat
  /-- Modelled from the spec: the Intel-HEX decoder `kk_ihex_read` (not part of the
  sources at hand), as the binary image it writes for a given text. -/
  ihex_decode : List uint8_t → List uint8_t

/-- The result of a call that may throw: the world it leaves and the exception or value. -/
structure outcome (α : Type) where
  world : World
  result : Except exception α

/-! ## Library routines -/

/-- The conversion `uhd::htonx<boost::uint16_t>`. -/
def htonx16 (env : Env) (x : Nat) : Nat :=
  if env.little_endian then (x % 256) * 256 + (x / 256) % 256 else x % 2 ^ 16

/-- The conversion `uhd::htonx<boost::uint32_t>`. -/
def htonx32 (env : Env) (x : Nat) : Nat :=
  if env.little_endian then
    (x % 256) * 2 ^ 24 + ((x / 2 ^ 8) % 256) * 2 ^ 16 + ((x / 2 ^ 16) % 256) * 2 ^ 8
      + (x / 2 ^ 24) % 256
  else x % 2 ^ 32

/-- The `const` lookup `dict::operator[]`: throws `key_error` on a missing key. -/
def dict_const_index (d : device_addr_t) (key : String) : Except exception String :=
  match d.lookup key with
  | some v => .ok v
  | none => .error (.key_error key)

/-- The non-`const` lookup `dict::operator[]`: a missing key is appended with an empty
value. Returns the value and the dictionary afterwards. -/
def dict_index (d : device_addr_t) (key : String) : String × device_addr_t :=
  match d.lookup key with
  | some v => (v, d)
  | none => ("", d ++ [(key, "")])

/-- The lookup `dict::get(key, other)` with a default. -/
def dict_get_or (d : device_addr_t) (key other : String) : String :=
  (d.lookup key).getD other

/-- The call `fs::exists`. -/
def fs_exists (w : World) (path : String) : Bool :=
  (w.files path).isSome

/-- The call `fs::remove`: the file is gone afterwards; the call is logged. -/
def fs_remove (w : World) (path : String) : World :=
  { w with
    files := fun p => if p = path then none else w.files p
    removed := w.removed ++ [path] }

/-- An input file stream: the content of the file, the read position, and whether the
stream is still good. -/
structure ifstream where
  content : List uint8_t
  pos : Nat
  good : Bool
  deriving DecidableEq, Repr

/-- Opening a `std::ifstream`: a missing file leaves the stream failed. -/
def ifstream_open (w : World) (path : String) : ifstream :=
  match w.files path with
  | some c => { content := c, pos := 0, good := true }
  | none => { content := [], pos := 0, good := false }

/-- The call `istream::read(buf, n)`: the stream afterwards and the bytes extracted
(their number is `gcount`). A failed stream extracts nothing; reaching the end of the
file before `n` bytes marks the stream failed. -/
def ifstream_read (f : ifstream) (n : Nat) : ifstream × List uint8_t :=
  if f.good then
    let chunk := (f.content.drop f.pos).take n
    ({ f with pos := f.pos + chunk.length, good := decide (chunk.length = n) }, chunk)
  else (f, [])

/-- Writing `chunk` to the front of a buffer, the rest of the buffer unchanged. -/
def overlay (chunk buf : List uint8_t) : List uint8_t :=
  chunk ++ buf.drop chunk.length

/-! ## `octoclock_calculate_crc` -/

/-- One pass of the inner loop body: `if(crc & 1) crc = (crc >> 1) ^ 0xA001; else
crc = (crc >> 1);` on a 16-bit `crc`. -/
def crc_bit (crc : Nat) : Nat :=
  if crc &&& 1 ≠ 0 then ((crc >>> 1) ^^^ 0xA001) % 2 ^ 16 else (crc >>> 1) % 2 ^ 16

/-- The inner loop `for(j = 0; j < 8; ++j)`, with `n` passes left. -/
def crc_inner : Nat → Nat → Nat
  | 0, crc => crc
  | n + 1, crc => crc_inner n (crc_bit crc)

/-- The outer loop `for(i = 0; i < session.size; i++)`, with `n` passes left. -/
def crc_outer (temp_image : Nat → uint8_t) : Nat → Nat → Nat → Nat
  | 0, _, crc => crc
  | n + 1, i, crc =>
      crc_outer temp_image n (i + 1) (crc_inner 8 ((crc ^^^ (temp_image i).val) % 2 ^ 16))

/-- The function `octoclock_calculate_crc`: reads `session.size` bytes of the image into
`temp_image` and leaves the checksum in `session.crc`. -/
def octoclock_calculate_crc (env : Env) (w : World) (session : octoclock_session_t) :
    octoclock_session_t :=
  let ifile := ifstream_open w session.actual_filepath
  let chunk := (ifstream_read ifile session.size).2
  let temp_image : Nat → uint8_t := fun i =>
    if h : i < chunk.length then chunk.get ⟨i, h⟩ else env.uninit_temp_image i
  { session with crc := crc_outer temp_image session.size 0 0xFFFF }

/-- The checksum in the words of the specification: start from `0xFFFF`; for each byte,
XOR it into the low 8 bits of the register, then 8 times: if the low bit is set, shift
right by one and XOR with `0xA001`, otherwise shift right by one; no final XOR. -/
def spec_crc_shift (reg : Nat) : Nat :=
  if reg % 2 = 1 then (reg / 2) ^^^ 0xA001 else reg / 2

/-- One byte of the specification's checksum. -/
def spec_crc_byte (reg : Nat) (b : uint8_t) : Nat :=
  spec_crc_shift^[8] ((reg / 256) * 256 + ((reg % 256) ^^^ b.val))

/-- The specification's checksum of a byte sequence. -/
def spec_crc (image : List uint8_t) : Nat :=
  image.foldl spec_crc_byte 0xFFFF

/-! ## Image preparation -/

/-- The double quote character, as a string. -/
def dquote : String := String.singleton (Char.ofNat 34)

/-- The function `octoclock_convert_ihex`: decodes the text at `given_filepath` into a
freshly written file at `actual_filepath`. -/
def octoclock_convert_ihex (env : Env) (w : World) (session : octoclock_session_t) : World :=
  let text := (w.files session.given_filepath).getD []
  { w with
    files := fun p =>
      if p = session.actual_filepath then some (env.ihex_decode text) else w.files p }

/-- The name of the temporary file a `.hex` image is converted into. -/
def tmp_image_path (env : Env) : String :=
  env.get_tmp_path ++ "/" ++ "octoclock_fw_" ++ toString env.system_time_full_secs ++ ".bin"

/-- The block count `(size % 256) ? (size / 256 + 1) : (size / 256)`, before it is
stored in the 16-bit field. -/
def block_count (size : Nat) : Nat :=
  if size % OCTOCLOCK_BLOCK_SIZE ≠ 0 then size / OCTOCLOCK_BLOCK_SIZE + 1
  else size / OCTOCLOCK_BLOCK_SIZE

/-- The exception of an image larger than the firmware region. -/
def image_too_large (size : Nat) : exception :=
  .runtime_error ("The specified firmware image is too large: " ++ toString size ++ " vs. "
    ++ toString OCTOCLOCK_FIRMWARE_MAX_SIZE_BYTES)

/-- The function `octoclock_validate_firmware_image`. -/
def octoclock_validate_firmware_image (env : Env) (w : World) (session : octoclock_session_t) :
    outcome octoclock_session_t :=
  if ¬ fs_exists w session.given_filepath then
    ⟨w, .error (.runtime_error
      ("Could not find image at path " ++ dquote ++ session.given_filepath ++ dquote))⟩
  else
    let extension := env.fs_extension session.given_filepath
    let prepared : Option (World × octoclock_session_t) :=
      if extension = ".bin" then
        some (w, { session with actual_filepath := session.given_filepath, from_hex := false })
      else if extension = ".hex" then
        let session := { session with actual_filepath := tmp_image_path env }
        let w := octoclock_convert_ihex env w session
        some (w, { session with from_hex := true })
      else none
    match prepared with
    | none => ⟨w, .error .too_few_args⟩
    | some (w, session) =>
      match w.files session.actual_filepath with
      | none => ⟨w, .error (.filesystem_error session.actual_filepath)⟩
      | some image =>
        let session := { session with size := image.length % 2 ^ 32 }
        if session.size > OCTOCLOCK_FIRMWARE_MAX_SIZE_BYTES then
          ⟨w, .error (image_too_large session.size)⟩
        else
          let session := { session with num_blocks := block_count session.size % 2 ^ 16 }
          ⟨w, .ok (octoclock_calculate_crc env w session)⟩

/-! ## Session setup -/

/-- One line of the list of applicable devices in the ambiguity message. -/
def applicable_device_line (dev : device_addr_t) : Except exception String :=
  match dict_const_index dev "type" with
  | .error e => .error e
  | .ok type =>
    let name :=
      if type = "octoclock" then "OctoClock r" ++ dict_get_or dev "revision" "4"
      else "OctoClock Bootloader"
    match dict_const_index dev "addr" with
    | .error e => .error e
    | .ok addr => .ok (" * " ++ name ++ " (addr=" ++ addr ++ ")\n")

/-- The loop building the ambiguity message, device by device. -/
def applicable_devices (err_msg : String) : device_addrs_t → Except exception String
  | [] => .ok err_msg
  | dev :: devs =>
    match applicable_device_line dev with
    | .error e => .error e
    | .ok line => applicable_devices (err_msg ++ line) devs

/-- The two `udp_simple::make_connected` statements at the end of
`octoclock_setup_session`: the control channel, then the firmware channel, each to
`session.dev_addr["addr"]`. -/
def make_connected_xports (w : World) (session : octoclock_session_t) :
    outcome octoclock_session_t :=
  let a := dict_index session.dev_addr "addr"
  let session := { session with dev_addr := a.2, ctrl_xport := some a.1 }
  let w := { w with opened := w.opened ++ [(xport_id.ctrl, a.1)] }
  let b := dict_index session.dev_addr "addr"
  let session := { session with dev_addr := b.2, fw_xport := some b.1 }
  let w := { w with opened := w.opened ++ [(xport_id.fw, b.1)] }
  ⟨w, .ok session⟩

/-- The function `octoclock_setup_session`. -/
def octoclock_setup_session (env : Env) (w : World) (session : octoclock_session_t)
    (args : device_addr_t) (filepath : String) : outcome octoclock_session_t :=
  let devs := env.octoclock_find args
  if devs.length = 0 then
    ⟨w, .ok { session with found := false }⟩
  else if devs.length > 1 then
    match applicable_devices
        ("Could not resolve given args to a single OctoClock device.\n" ++
          "Applicable devices:\n") devs with
    | .error e => ⟨w, .error e⟩
    | .ok err_msg =>
      ⟨w, .error (.runtime_error (err_msg ++
        "\nSpecify one of these devices with the given args to load an image onto it."))⟩
  else
    let session := { session with dev_addr := devs.headD [] }
    let given : Except exception String :=
      if filepath = "" then
        env.find_image_path
          ("octoclock_r" ++ dict_get_or session.dev_addr "revision" "4" ++ "_fw.hex")
      else .ok filepath
    match given with
    | .error e => ⟨w, .error e⟩
    | .ok given_filepath =>
      let session := { session with given_filepath := given_filepath }
      match octoclock_validate_firmware_image env w session with
      | ⟨w, .error e⟩ => ⟨w, .error e⟩
      | ⟨w, .ok session⟩ => make_connected_xports w session

/-! ## Packet exchange -/

/-- The result of one exchange: the world, the packet as sent, the received length and
the receive buffer. -/
structure exchange where
  world : World
  pkt_out : octoclock_packet_t
  len : Nat
  data_in : octoclock_packet_t

/-- Modelled from the spec: the macro `UHD_OCTOCLOCK_SEND_AND_RECV` of
`octoclock_impl.hpp` (not part of the sources at hand): stores the command code in the
outgoing packet, then performs exactly one send followed by one receive into the
receive buffer. -/
def UHD_OCTOCLOCK_SEND_AND_RECV (env : Env) (w : World) (xport : xport_id)
    (pkt_code : packet_code) (pkt_out : octoclock_packet_t) : exchange :=
  let pkt_out := { pkt_out with code := pkt_code }
  let sent := w.sent ++ [(xport, pkt_out)]
  { world := { w with sent := sent }
    pkt_out := pkt_out
    len := (env.device sent).1
    data_in := (env.device sent).2 }

/-- The initial sequence number `htonx<boost::uint32_t>(std::rand())`. -/
def fresh_sequence (env : Env) (w : World) : Nat :=
  htonx32 env (env.rand w.rand_calls % 2 ^ 32)

/-- The world after one call of `std::rand`. -/
def after_rand (w : World) : World :=
  { w with rand_calls := w.rand_calls + 1 }

/-! ## Bootloader transition -/

/-- The exception all failures of the bootloader transition throw. -/
def reset_failed : exception := .runtime_error "Failed to reset OctoClock."

/-- The function `octoclock_reset_into_bootloader`. -/
def octoclock_reset_into_bootloader (env : Env) (w : World) (session : octoclock_session_t) :
    outcome octoclock_session_t :=
  let t := dict_index session.dev_addr "type"
  let session := { session with dev_addr := t.2 }
  if t.1 = "octoclock-bootloader" then ⟨w, .ok session⟩
  else
    let pkt_out := { env.uninit_pkt_out .reset with sequence := fresh_sequence env w }
    let w := after_rand w
    let x := UHD_OCTOCLOCK_SEND_AND_RECV env w .ctrl .RESET_CMD pkt_out
    let session := { session with data_in := x.data_in }
    if env.PACKET_MATCHES .RESET_ACK x.pkt_out x.data_in x.len then
      let a := dict_index session.dev_addr "addr"
      let session := { session with dev_addr := a.2 }
      match env.device_find x.world.sent ("addr=" ++ a.1) with
      | [] => ⟨x.world, .error reset_failed⟩
      | first :: _ =>
        let ft := dict_index first "type"
        if ft.1 ≠ "octoclock-bootloader" then ⟨x.world, .error reset_failed⟩
        else ⟨x.world, .ok { session with dev_addr := ft.2 }⟩
    else ⟨x.world, .error reset_failed⟩

/-! ## Burn, verify, finalize -/

/-- The exception of a failed prepare-burn exchange. -/
def prepare_failed : exception :=
  .runtime_error "Failed to prepare OctoClock for firmware load."

/-- The exception of a failed file-transfer exchange. -/
def transfer_failed : exception := .runtime_error "Failed to load firmware."

/-- The exception of a failed verification. -/
def verify_failed : exception := .runtime_error "Failed to verify OctoClock firmware."

/-- The exception of a failed finalize exchange. -/
def finalize_failed : exception :=
  .runtime_error "Failed to finalize OctoClock firmware load."

/-- The statement `if(session.from_hex) fs::remove(session.actual_filepath);`. -/
def remove_if_from_hex (w : World) (session : octoclock_session_t) : World :=
  if session.from_hex then fs_remove w session.actual_filepath else w

/-- The transfer loop of `octoclock_burn`, `for(i = 0; i < session.num_blocks; i++)`,
with `n` passes left and the loop variable at `i`. -/
def burn_loop (env : Env) : Nat → Nat → World → octoclock_session_t → octoclock_packet_t →
    ifstream → outcome octoclock_session_t
  | 0, _, w, session, _, _ => ⟨w, .ok session⟩
  | n + 1, i, w, session, pkt_out, image =>
    let pkt_out := { pkt_out with sequence := (pkt_out.sequence + 1) % 2 ^ 32 }
    let pkt_out := { pkt_out with addr := (i * OCTOCLOCK_BLOCK_SIZE) % 2 ^ 32 }
    let zeroed : List uint8_t := List.replicate OCTOCLOCK_BLOCK_SIZE 0
    let r := ifstream_read image OCTOCLOCK_BLOCK_SIZE
    let pkt_out := { pkt_out with data := overlay r.2 zeroed }
    let x := UHD_OCTOCLOCK_SEND_AND_RECV env w .fw .FILE_TRANSFER_CMD pkt_out
    let session := { session with data_in := x.data_in }
    if ¬ env.PACKET_MATCHES .FILE_TRANSFER_ACK x.pkt_out x.data_in x.len then
      ⟨remove_if_from_hex x.world session, .error transfer_failed⟩
    else burn_loop env n (i + 1) x.world session x.pkt_out r.1

/-- The part of `octoclock_burn` after the bootloader transition: the prepare-burn
exchange and the transfer loop. -/
def burn_after_reset (env : Env) (w : World) (session : octoclock_session_t) :
    outcome octoclock_session_t :=
  let pkt_out := { env.uninit_pkt_out .burn with sequence := fresh_sequence env w }
  let w := after_rand w
  let pkt_out := { pkt_out with len := htonx16 env (session.size % 2 ^ 16) }
  let pkt_out := { pkt_out with len := session.size % 2 ^ 16 }
  let pkt_out := { pkt_out with crc := session.crc % 2 ^ 16 }
  let x := UHD_OCTOCLOCK_SEND_AND_RECV env w .fw .PREPARE_FW_BURN_CMD pkt_out
  let session := { session with data_in := x.data_in }
  if env.PACKET_MATCHES .FW_BURN_READY_ACK x.pkt_out x.data_in x.len then
    let image := ifstream_open x.world session.actual_filepath
    burn_loop env session.num_blocks 0 x.world session x.pkt_out image
  else ⟨remove_if_from_hex x.world session, .error prepare_failed⟩

/-- The function `octoclock_burn`. -/
def octoclock_burn (env : Env) (w : World) (session : octoclock_session_t) :
    outcome octoclock_session_t :=
  match octoclock_reset_into_bootloader env w session with
  | ⟨w, .error e⟩ => ⟨w, .error e⟩
  | ⟨w, .ok session⟩ => burn_after_reset env w session

/-- The call `memcmp(a, b, n) != 0` on two buffers of at least `n` bytes. -/
def memcmp_differs (a b : List uint8_t) (n : Nat) : Bool :=
  decide (a.take n ≠ b.take n)

/-- The loop of `octoclock_verify`, with `n` passes left and the loop variable at `i`. -/
def verify_loop (env : Env) : Nat → Nat → World → octoclock_session_t → octoclock_packet_t →
    ifstream → outcome octoclock_session_t
  | 0, _, w, session, _, _ => ⟨remove_if_from_hex w session, .ok session⟩
  | n + 1, i, w, session, pkt_out, image =>
    let pkt_out := { pkt_out with sequence := (pkt_out.sequence + 1) % 2 ^ 32 }
    let pkt_out := { pkt_out with addr := (i * OCTOCLOCK_BLOCK_SIZE) % 2 ^ 32 }
    let zeroed : List uint8_t := List.replicate OCTOCLOCK_BLOCK_SIZE 0
    let r := ifstream_read image OCTOCLOCK_BLOCK_SIZE
    let image_part := overlay r.2 zeroed
    let cmp_len := r.2.length % 2 ^ 16
    let x := UHD_OCTOCLOCK_SEND_AND_RECV env w .fw .READ_FW_CMD pkt_out
    let session := { session with data_in := x.data_in }
    if env.PACKET_MATCHES .READ_FW_ACK x.pkt_out x.data_in x.len then
      if memcmp_differs x.data_in.data image_part cmp_len then
        ⟨remove_if_from_hex x.world session, .error verify_failed⟩
      else verify_loop env n (i + 1) x.world session x.pkt_out r.1
    else ⟨remove_if_from_hex x.world session, .error verify_failed⟩

/-- The function `octoclock_verify`. -/
def octoclock_verify (env : Env) (w : World) (session : octoclock_session_t) :
    outcome octoclock_session_t :=
  let pkt_out := { env.uninit_pkt_out .verify with sequence := fresh_sequence env w }
  let w := after_rand w
  let image := ifstream_open w session.actual_filepath
  verify_loop env session.num_blocks 0 w session pkt_out image

/-- The function `octoclock_finalize`. -/
def octoclock_finalize (env : Env) (w : World) (session : octoclock_session_t) :
    outcome octoclock_session_t :=
  let pkt_out := { env.uninit_pkt_out .finalize with sequence := fresh_sequence env w }
  let w := after_rand w
  let x := UHD_OCTOCLOCK_SEND_AND_RECV env w .fw .FINALIZE_BURNING_CMD pkt_out
  let session := { session with data_in := x.data_in }
  if env.PACKET_MATCHES .FINALIZE_BURNING_ACK x.pkt_out x.data_in x.len then
    ⟨x.world, .ok session⟩
  else ⟨x.world, .error finalize_failed⟩

/-- The three stages the loader runs once the session is set up: burn, verify,
finalize, each only if the one before returned. -/
def run_stages (env : Env) (w : World) (session : octoclock_session_t) : outcome Bool :=
  match octoclock_burn env w session with
  | ⟨w, .error e⟩ => ⟨w, .error e⟩
  | ⟨w, .ok session⟩ =>
    match octoclock_verify env w session with
    | ⟨w, .error e⟩ => ⟨w, .error e⟩
    | ⟨w, .ok session⟩ =>
      match octoclock_finalize env w session with
      | ⟨w, .error e⟩ => ⟨w, .error e⟩
      | ⟨w, .ok _⟩ => ⟨w, .ok true⟩

/-- The function `octoclock_image_loader`. -/
def octoclock_image_loader (env : Env) (w : World) (image_loader_args : image_loader_args_t) :
    outcome Bool :=
  match octoclock_setup_session env w env.uninit_session image_loader_args.args
      image_loader_args.firmware_path with
  | ⟨w, .error e⟩ => ⟨w, .error e⟩
  | ⟨w, .ok session⟩ =>
    if !session.found || !image_loader_args.load_firmware then ⟨w, .ok false⟩
    else
      let a := dict_index session.dev_addr "addr"
      run_stages env w { session with dev_addr := a.2 }

/-! ## Vocabulary for stating the protocol properties -/

/-- The world after sending further packets. -/
def World.send (w : World) (ps : List (xport_id × octoclock_packet_t)) : World :=
  { w with sent := w.sent ++ ps }

/-- The bytes of the image that lie in block `i`: 256 of them, fewer in a last block
that is not full. -/
def block_bytes (image : List uint8_t) (i : Nat) : List uint8_t :=
  (image.drop (256 * i)).take 256

/-- The payload of block `i` of an image: up to 256 bytes of the image from offset
`256 * i`, followed by zeros up to 256 bytes. -/
def block_payload (image : List uint8_t) (i : Nat) : List uint8_t :=
  block_bytes image i ++ List.replicate (256 - (block_bytes image i).length) 0

/-- The `j`-th file-transfer request of a transfer loop entered with the loop variable
at `i` and the outgoing packet `p`. -/
def transfer_request (p : octoclock_packet_t) (image : List uint8_t) (i j : Nat) :
    octoclock_packet_t :=
  { p with
    sequence := (p.sequence + (j + 1)) % 2 ^ 32
    code := .FILE_TRANSFER_CMD
    addr := ((i + j) * 256) % 2 ^ 32
    data := block_payload image (i + j) }

/-- The first `m` file-transfer requests, as sent on the firmware channel. -/
def transfer_requests (p : octoclock_packet_t) (image : List uint8_t) (i m : Nat) :
    List (xport_id × octoclock_packet_t) :=
  (List.range m).map (fun j => (xport_id.fw, transfer_request p image i j))

/-- Whether the response to the `j`-th file-transfer request matches its acknowledgment. -/
def transfer_acked (env : Env) (w : World) (p : octoclock_packet_t) (image : List uint8_t)
    (i j : Nat) : Bool :=
  env.PACKET_MATCHES .FILE_TRANSFER_ACK (transfer_request p image i j)
    (env.device (w.sent ++ transfer_requests p image i (j + 1))).2
    (env.device (w.sent ++ transfer_requests p image i (j + 1))).1

/-- The content of the file at `path`, empty when there is no such file. -/
def image_of (w : World) (path : String) : List uint8_t :=
  (w.files path).getD []

/-- The stream `f` reads `image` and has gone through `i` reads of 256 bytes (a stream
that failed to open reads the empty image). -/
def stream_at (image : List uint8_t) (i : Nat) (f : ifstream) : Prop :=
  f.content = image ∧ (f.good = true → f.pos = 256 * i)
    ∧ (f.good = false → image.length ≤ 256 * i)

/-- The `j`-th read-firmware request of a verify loop entered with the loop variable at
`i` and the outgoing packet `p`. -/
def verify_request (p : octoclock_packet_t) (i j : Nat) : octoclock_packet_t :=
  { p with
    sequence := (p.sequence + (j + 1)) % 2 ^ 32
    code := .READ_FW_CMD
    addr := ((i + j) * 256) % 2 ^ 32 }

/-- The first `m` read-firmware requests, as sent on the firmware channel. -/
def verify_requests (p : octoclock_packet_t) (i m : Nat) :
    List (xport_id × octoclock_packet_t) :=
  (List.range m).map (fun j => (xport_id.fw, verify_request p i j))

/-- The response to the `j`-th read-firmware request: received length and buffer. -/
def verify_reply (env : Env) (w : World) (p : octoclock_packet_t) (i j : Nat) :
    Nat × octoclock_packet_t :=
  env.device (w.sent ++ verify_requests p i (j + 1))

/-- Whether the response to the `j`-th read-firmware request matches its acknowledgment
and returns the bytes of the image in that block. -/
def verify_passed (env : Env) (w : World) (p : octoclock_packet_t) (image : List uint8_t)
    (i j : Nat) : Bool :=
  env.PACKET_MATCHES .READ_FW_ACK (verify_request p i j) (verify_reply env w p i j).2
      (verify_reply env w p i j).1
    && decide ((verify_reply env w p i j).2.data.take (block_bytes image (i + j)).length
        = block_bytes image (i + j))

/-- The session of a `.bin` image once its size and block count are stored. -/
def bin_session (session : octoclock_session_t) (image : List uint8_t) : octoclock_session_t :=
  { session with
    actual_filepath := session.given_filepath, from_hex := false
    size := image.length % 2 ^ 32
    num_blocks := block_count (image.length % 2 ^ 32) % 2 ^ 16 }

/-- The session of a `.hex` image once its size and block count are stored. -/
def hex_session (env : Env) (session : octoclock_session_t) (image : List uint8_t) :
    octoclock_session_t :=
  { session with
    actual_filepath := tmp_image_path env, from_hex := true
    size := image.length % 2 ^ 32
    num_blocks := block_count (image.length % 2 ^ 32) % 2 ^ 16 }

/-- The world after a `.hex` image was converted. -/
def hex_world (env : Env) (w : World) (session : octoclock_session_t) : World :=
  octoclock_convert_ihex env w { session with actual_filepath := tmp_image_path env }

/-- The reset request of `octoclock_reset_into_bootloader`, as sent. -/
def reset_request (env : Env) (w : World) : octoclock_packet_t :=
  { env.uninit_pkt_out .reset with sequence := fresh_sequence env w, code := .RESET_CMD }

/-- The prepare-burn request of `octoclock_burn`, as sent. -/
def prepare_request (env : Env) (w : World) (session : octoclock_session_t) :
    octoclock_packet_t :=
  { env.uninit_pkt_out .burn with
    sequence := fresh_sequence env w
    len := session.size % 2 ^ 16
    crc := session.crc % 2 ^ 16
    code := .PREPARE_FW_BURN_CMD }

/-- The world once the prepare-burn request is out. -/
def prepared_world (env : Env) (w : World) (session : octoclock_session_t) : World :=
  (after_rand w).send [(xport_id.fw, prepare_request env w session)]

/-- Whether the response to the prepare-burn request matches its acknowledgment. -/
def prepare_acked (env : Env) (w : World) (session : octoclock_session_t) : Bool :=
  env.PACKET_MATCHES .FW_BURN_READY_ACK (prepare_request env w session)
    (env.device (w.sent ++ [(xport_id.fw, prepare_request env w session)])).2
    (env.device (w.sent ++ [(xport_id.fw, prepare_request env w session)])).1

/-- Whether the session descriptor says the device is in bootloader mode. -/
def in_bootloader (session : octoclock_session_t) : Bool :=
  decide ((dict_index session.dev_addr "type").1 = "octoclock-bootloader")

/-- The packets sent between the world `w` and the later world `w1`. -/
def sent_between (w w1 : World) : List (xport_id × octoclock_packet_t) :=
  w1.sent.drop w.sent.length

/-- The packets of a trace that carry the command code `code`, in order. -/
def with_code (code : packet_code) (sent : List (xport_id × octoclock_packet_t)) :
    List octoclock_packet_t :=
  (sent.filter (fun q => decide (q.2.code = code))).map (fun q => q.2)

/-- The outgoing packet of `octoclock_verify` when it enters its loop. -/
def verify_start (env : Env) (w : World) : octoclock_packet_t :=
  { env.uninit_pkt_out .verify with sequence := fresh_sequence env w }

/-- The finalize request of `octoclock_finalize`, as sent. -/
def finalize_request (env : Env) (w : World) : octoclock_packet_t :=
  { env.uninit_pkt_out .finalize with
    sequence := fresh_sequence env w, code := .FINALIZE_BURNING_CMD }

/-- Whether the response to the finalize request matches its acknowledgment. -/
def finalize_acked (env : Env) (w : World) : Bool :=
  env.PACKET_MATCHES .FINALIZE_BURNING_ACK (finalize_request env w)
    (env.device (w.sent ++ [(xport_id.fw, finalize_request env w)])).2
    (env.device (w.sent ++ [(xport_id.fw, finalize_request env w)])).1

/-- The world once the finalize request is out. -/
def finalized_world (env : Env) (w : World) : World :=
  (after_rand w).send [(xport_id.fw, finalize_request env w)]

/-- The world once the prepare-burn request and all file-transfer requests are out. -/
def transferred_world (env : Env) (w : World) (session : octoclock_session_t)
    (image : List uint8_t) : World :=
  (prepared_world env w session).send
    (transfer_requests (prepare_request env w session) image 0 session.num_blocks)

/-- The world at the end of a verification in which every block passed. -/
def verified_world (env : Env) (w : World) (session : octoclock_session_t) : World :=
  remove_if_from_hex
    ((after_rand w).send (verify_requests (verify_start env w) 0 session.num_blocks)) session

/-- The stages of the loader that follow the bootloader transition. -/
def stages_after_reset (env : Env) (w : World) (session : octoclock_session_t) :
    outcome Bool :=
  match burn_after_reset env w session with
  | ⟨w, .error e⟩ => ⟨w, .error e⟩
  | ⟨w, .ok session⟩ =>
    match octoclock_verify env w session with
    | ⟨w, .error e⟩ => ⟨w, .error e⟩
    | ⟨w, .ok session⟩ =>
      match octoclock_finalize env w session with
      | ⟨w, .error e⟩ => ⟨w, .error e⟩
      | ⟨w, .ok _⟩ => ⟨w, .ok true⟩

/-- The world in which the loader starts its stages: the one `octoclock_setup_session`
leaves. -/
def loader_world (env : Env) (w : World) (args : image_loader_args_t) : World :=
  (octoclock_setup_session env w env.uninit_session args.args args.firmware_path).world

/-- The session with which the loader starts its stages (the uninitialised record when
the setup throws). -/
def loader_session (env : Env) (w : World) (args : image_loader_args_t) :
    octoclock_session_t :=
  match (octoclock_setup_session env w env.uninit_session args.args args.firmware_path).result
  with
  | .ok session => { session with dev_addr := (dict_index session.dev_addr "addr").2 }
  | .error _ => env.uninit_session

/-- The command codes of a list of sent packets, in order. -/
def codes_of (sent : List (xport_id × octoclock_packet_t)) : List packet_code :=
  sent.map (fun q => q.2.code)

/-- The command codes of a complete run: a reset when one is needed, the prepare-burn
command, `n` file transfers, `n` read-firmware commands and the finalize command. -/
def expected_codes (needs_reset : Bool) (n : Nat) : List packet_code :=
  (if needs_reset then [packet_code.RESET_CMD] else [])
    ++ (packet_code.PREPARE_FW_BURN_CMD
      :: (List.replicate n packet_code.FILE_TRANSFER_CMD
        ++ (List.replicate n packet_code.READ_FW_CMD ++ [packet_code.FINALIZE_BURNING_CMD])))

/-- The packets of a run in which every exchange succeeds, from the prepare-burn
request on. -/
def complete_requests (env : Env) (w : World) (session : octoclock_session_t)
    (image : List uint8_t) : List (xport_id × octoclock_packet_t) :=
  (xport_id.fw, prepare_request env w session)
    :: (transfer_requests (prepare_request env w session) image 0 session.num_blocks
      ++ (verify_requests (verify_start env (transferred_world env w session image)) 0
          session.num_blocks
        ++ [(xport_id.fw, finalize_request env
              (verified_world env (transferred_world env w session image) session))]))

/-- The packets the bootloader transition sends: none when the descriptor already says
bootloader, the reset request otherwise. -/
def reset_requests (env : Env) (w : World) (session : octoclock_session_t) :
    List (xport_id × octoclock_packet_t) :=
  if in_bootloader session then [] else [(xport_id.ctrl, reset_request env w)]

/-- The check the loader applies to the response to the request `q`, sent after the
packets `hist`: the acknowledgment that belongs to the command must match and, for a
read-firmware command, the returned data must equal the bytes of `image` in the block at
the requested address. -/
def response_passes (env : Env) (image : List uint8_t)
    (hist : List (xport_id × octoclock_packet_t)) (q : xport_id × octoclock_packet_t) : Bool :=
  match q.2.code with
  | .RESET_CMD =>
      env.PACKET_MATCHES .RESET_ACK q.2 (env.device (hist ++ [q])).2 (env.device (hist ++ [q])).1
  | .PREPARE_FW_BURN_CMD =>
      env.PACKET_MATCHES .FW_BURN_READY_ACK q.2 (env.device (hist ++ [q])).2
        (env.device (hist ++ [q])).1
  | .FILE_TRANSFER_CMD =>
      env.PACKET_MATCHES .FILE_TRANSFER_ACK q.2 (env.device (hist ++ [q])).2
        (env.device (hist ++ [q])).1
  | .READ_FW_CMD =>
      env.PACKET_MATCHES .READ_FW_ACK q.2 (env.device (hist ++ [q])).2
          (env.device (hist ++ [q])).1
        && decide ((env.device (hist ++ [q])).2.data.take
            (block_bytes image (q.2.addr / 256)).length = block_bytes image (q.2.addr / 256))
  | .FINALIZE_BURNING_CMD =>
      env.PACKET_MATCHES .FINALIZE_BURNING_ACK q.2 (env.device (hist ++ [q])).2
        (env.device (hist ++ [q])).1
  | _ => false

/-- Every request of `reqs`, sent one after the other after `hist`, got a response that
passed its check. -/
def all_pass (env : Env) (image : List uint8_t)
    (hist reqs : List (xport_id × octoclock_packet_t)) : Prop :=
  ∀ (k : Nat) (q : xport_id × octoclock_packet_t), reqs[k]? = some q →
    response_passes env image (hist ++ reqs.take k) q = true

/-- A run that sent `reqs` after `hist` and ended with `result` is orderly: the command
codes are a beginning of the expected sequence, every request but the last one passed
its check, and a `true` result means that the last request was the finalize command and
passed its check. -/
def orderly (env : Env) (image : List uint8_t)
    (hist reqs : List (xport_id × octoclock_packet_t)) (needs_reset : Bool) (n : Nat)
    (result : Except exception Bool) : Prop :=
  codes_of reqs <+: expected_codes needs_reset n
    ∧ ∃ init x, reqs = init ++ [x] ∧ all_pass env image hist init
      ∧ (result = .ok true →
          x.2.code = .FINALIZE_BURNING_CMD
            ∧ response_passes env image (hist ++ init) x = true)

/-- A device that answers the file transfer of block 1 (address 256) with a wrong code. -/
def faulty_block1 : octoclock_packet_t → Bool :=
  fun p => decide (p.code = .FILE_TRANSFER_CMD ∧ p.addr = 256)

/-- A device that answers the reset command with a wrong code. -/
def faulty_reset : octoclock_packet_t → Bool :=
  fun p => decide (p.code = .RESET_CMD)

/-- The bytes of a `width`-byte integer field holding the value `v`, in the order in
which they lie in the memory of the host. The loader sends and receives the packet
record as it lies in memory (the receive buffer is read through a
`reinterpret_cast` to `octoclock_packet_t`), so this is the order on the wire. -/
def field_bytes (env : Env) (width v : Nat) : List Nat :=
  if env.little_endian then (List.range width).map (fun k => v / 256 ^ k % 256)
  else (List.range width).reverse.map (fun k => v / 256 ^ k % 256)

/-- The bytes of `v` as a `width`-byte integer in network byte order, the most
significant byte first. -/
def network_bytes (width v : Nat) : List Nat :=
  (List.range width).reverse.map (fun k => v / 256 ^ k % 256)

/-- The session record as `octoclock_validate_firmware_image` leaves it, whether it
returns or throws: the record is passed by reference, so the assignments made before a
`throw` remain. -/
def session_after_validate (env : Env) (w : World) (session : octoclock_session_t) :
    octoclock_session_t :=
  if ¬ fs_exists w session.given_filepath then session
  else
    let extension := env.fs_extension session.given_filepath
    let prepared : Option (World × octoclock_session_t) :=
      if extension = ".bin" then
        some (w, { session with actual_filepath := session.given_filepath, from_hex := false })
      else if extension = ".hex" then
        let session := { session with actual_filepath := tmp_image_path env }
        let w := octoclock_convert_ihex env w session
        some (w, { session with from_hex := true })
      else none
    match prepared with
    | none => session
    | some (w, session) =>
      match w.files session.actual_filepath with
      | none => session
      | some image =>
        let session := { session with size := image.length % 2 ^ 32 }
        if session.size > OCTOCLOCK_FIRMWARE_MAX_SIZE_BYTES then session
        else
          let session := { session with num_blocks := block_count session.size % 2 ^ 16 }
          octoclock_calculate_crc env w session

/-- The session record as `octoclock_setup_session` leaves it, whether it returns or
throws. -/
def session_after_setup (env : Env) (w : World) (session : octoclock_session_t)
    (args : device_addr_t) (filepath : String) : octoclock_session_t :=
  let devs := env.octoclock_find args
  if devs.length = 0 then { session with found := false }
  else if devs.length > 1 then session
  else
    let session := { session with dev_addr := devs.headD [] }
    let given : Except exception String :=
      if filepath = "" then
        env.find_image_path
          ("octoclock_r" ++ dict_get_or session.dev_addr "revision" "4" ++ "_fw.hex")
      else .ok filepath
    match given with
    | .error _ => session
    | .ok given_filepath =>
      let session := { session with given_filepath := given_filepath }
      match octoclock_validate_firmware_image env w session with
      | ⟨_, .error _⟩ => session_after_validate env w session
      | ⟨w, .ok validated⟩ =>
        match (make_connected_xports w validated).result with
        | .error _ => validated
        | .ok connected => connected

/-- The display name of a candidate as the specification describes it: derived from the
`type` and `revision` fields. -/
def spec_display_name (dev : device_addr_t) : String :=
  if dev.lookup "type" = some "octoclock" then
    "OctoClock r" ++ (dev.lookup "revision").getD "4"
  else "OctoClock Bootloader"

/-- The entry of one candidate in the message of the ambiguous-device error as the
specification describes it: display name and address. -/
def spec_candidate_entry (dev : device_addr_t) : String :=
  " * " ++ spec_display_name dev ++ " (addr=" ++ (dev.lookup "addr").getD "" ++ ")\n"

/-- The ambiguous-device error as the specification describes it: one entry per
candidate, between the opening lines and the advice to narrow the filter. -/
def spec_ambiguous_device (devs : device_addrs_t) : exception :=
  .runtime_error
    (("Could not resolve given args to a single OctoClock device.\n" ++
        "Applicable devices:\n")
      ++ String.join (devs.map spec_candidate_entry)
      ++ "\nSpecify one of these devices with the given args to load an image onto it.")

/-- The session record as `octoclock_reset_into_bootloader` leaves it, whether it
returns or throws. -/
def session_after_reset (env : Env) (w : World) (session : octoclock_session_t) :
    octoclock_session_t :=
  let t := dict_index session.dev_addr "type"
  let session := { session with dev_addr := t.2 }
  if t.1 = "octoclock-bootloader" then session
  else
    let pkt_out := { env.uninit_pkt_out .reset with sequence := fresh_sequence env w }
    let w := after_rand w
    let x := UHD_OCTOCLOCK_SEND_AND_RECV env w .ctrl .RESET_CMD pkt_out
    let session := { session with data_in := x.data_in }
    if env.PACKET_MATCHES .RESET_ACK x.pkt_out x.data_in x.len then
      let a := dict_index session.dev_addr "addr"
      let session := { session with dev_addr := a.2 }
      match env.device_find x.world.sent ("addr=" ++ a.1) with
      | [] => session
      | first :: _ =>
        let ft := dict_index first "type"
        if ft.1 ≠ "octoclock-bootloader" then session
        else { session with dev_addr := ft.2 }
    else session

/-- Whether the response to the reset request matches the reset acknowledgment. -/
def reset_acked (env : Env) (w : World) : Bool :=
  env.PACKET_MATCHES .RESET_ACK (reset_request env w)
    (env.device (w.sent ++ [(xport_id.ctrl, reset_request env w)])).2
    (env.device (w.sent ++ [(xport_id.ctrl, reset_request env w)])).1

/-- The devices the rediscovery after the reset request finds at the address `addr`. -/
def rediscovered (env : Env) (w : World) (addr : String) : device_addrs_t :=
  env.device_find (w.sent ++ [(xport_id.ctrl, reset_request env w)]) ("addr=" ++ addr)

/-- The world once the reset request is out. -/
def reset_world_sent (env : Env) (w : World) : World :=
  (after_rand w).send [(xport_id.ctrl, reset_request env w)]

/-! ## A simulated environment for concrete runs -/

/-- The acknowledgment section 6 pairs with each command. -/
def ack_of : packet_code → packet_code
  | .RESET_CMD => .RESET_ACK
  | .PREPARE_FW_BURN_CMD => .FW_BURN_READY_ACK
  | .FILE_TRANSFER_CMD => .FILE_TRANSFER_ACK
  | .READ_FW_CMD => .READ_FW_ACK
  | .FINALIZE_BURNING_CMD => .FINALIZE_BURNING_ACK
  | c => c

/-- A packet with every field zero. -/
def zero_packet : octoclock_packet_t :=
  { sequence := 0, code := .OTHER_CODE 0, len := 0, crc := 0, addr := 0,
    data := List.replicate 256 0 }

/-- The payload most recently written to address `addr` by a file-transfer packet. -/
def written_at (addr : Nat) : List (xport_id × octoclock_packet_t) → List uint8_t
  | [] => List.replicate 256 0
  | (_, p) :: rest =>
    if rest.any (fun q => decide (q.2.code = .FILE_TRANSFER_CMD ∧ q.2.addr = addr)) then
      written_at addr rest
    else if p.code = .FILE_TRANSFER_CMD ∧ p.addr = addr then p.data
    else written_at addr rest

/-- A simulated device: it echoes the sequence number, answers every request with the
acknowledgment of its command (a request selected by `faulty` gets an unknown code
instead), and answers a read with the payload last written to that address. -/
def sim_device (faulty : octoclock_packet_t → Bool)
    (sent : List (xport_id × octoclock_packet_t)) : Nat × octoclock_packet_t :=
  match sent.getLast? with
  | none => (0, zero_packet)
  | some (_, p) =>
    (271, { sequence := p.sequence
            code := if faulty p then .OTHER_CODE 255 else ack_of p.code
            len := 0, crc := 0, addr := p.addr
            data := if p.code = .READ_FW_CMD then written_at p.addr sent
                    else List.replicate 256 0 })

/-- A session record with every field cleared, except `found`. -/
def sim_session : octoclock_session_t :=
  { found := true, dev_addr := [], given_filepath := "", actual_filepath := ""
    from_hex := false, size := 0, crc := 0, num_blocks := 0
    ctrl_xport := none, fw_xport := none, data_in := zero_packet }

/-- The extension of a path: the text from its last dot on, empty without a dot. -/
def sim_extension (path : String) : String :=
  let r := path.data.reverse
  let e := r.takeWhile (fun c => c != '.')
  if e.length = r.length then "" else String.mk ('.' :: e.reverse)

/-- A device descriptor of a unit in bootloader mode. -/
def sim_bootloader : device_addr_t :=
  [("type", "octoclock-bootloader"), ("addr", "192.168.10.3")]

/-- A device descriptor of a unit running its application firmware. -/
def sim_application : device_addr_t :=
  [("type", "octoclock"), ("addr", "192.168.10.3"), ("revision", "4")]

/-- A simulated environment: a little-endian host, one device `dev` found by
`octoclock_find`, a device in bootloader mode found after a reset, and responses
matched on length, echoed sequence number and code. -/
def sim_env (dev : device_addr_t) (faulty : octoclock_packet_t → Bool) : Env :=
  { little_endian := true
    rand := fun k => 1000 + k
    uninit_session := sim_session
    uninit_pkt_out := fun _ => zero_packet
    uninit_temp_image := fun _ => 0
    PACKET_MATCHES := fun code pkt_out pkt_in len =>
      decide (len > 15) && decide (pkt_in.sequence = pkt_out.sequence)
        && decide (pkt_in.code = code)
    device := sim_device faulty
    octoclock_find := fun _ => [dev]
    device_find := fun _ _ => [sim_bootloader]
    find_image_path := fun name => .ok ("/usr/share/uhd/images/" ++ name)
    fs_extension := sim_extension
    get_tmp_path := "/tmp"
    system_time_full_secs := 1420070400
    ihex_decode := fun text => text }

/-- A world holding a single file, with nothing sent, removed or opened so far. -/
def sim_world (path : String) (image : List uint8_t) : World :=
  { files := fun p => if p = path then some image else none
    removed := [], sent := [], opened := [], rand_calls := 0 }

/-- A device that never deviates. -/
def never : octoclock_packet_t → Bool := fun _ => false

/-- The nine ASCII bytes `123456789`. -/
def check_input : List uint8_t := [0x31, 0x32, 0x33, 0x34, 0x35, 0x36, 0x37, 0x38, 0x39]

/-- A 300-byte image: two blocks, the second one 44 bytes long. -/
def demo_image : List uint8_t := List.replicate 300 0x5A

/-- A validated session for `demo_image` stored at `fw.bin`, the device in bootloader
mode. -/
def demo_session : octoclock_session_t :=
  { sim_session with
    dev_addr := sim_bootloader, given_filepath := "fw.bin", actual_filepath := "fw.bin"
    size := 300, num_blocks := 2 }

/-- An image file of 4 GiB, all zero. -/
def huge_image : List uint8_t := List.replicate (2 ^ 32) 0

/-- The loader arguments of the demonstration runs: image `fw.bin`, firmware load
requested. -/
def demo_args : image_loader_args_t :=
  { args := [], firmware_path := "fw.bin", load_firmware := true }

/-- A 600-byte image: three blocks, the third one 88 bytes long. -/
def demo_image3 : List uint8_t := List.replicate 600 0x5A

/-- The path of the temporary file of the simulated environment. -/
def demo_tmp : String := "/tmp/octoclock_fw_1420070400.bin"

/-- A validated session for `demo_image3` converted from `fw.hex` into the temporary
file, the device in bootloader mode. -/
def demo_hex_session : octoclock_session_t :=
  { sim_session with
    dev_addr := sim_bootloader, given_filepath := "fw.hex", actual_filepath := demo_tmp
    from_hex := true, size := 600, num_blocks := 3 }

/-- The loader arguments of a run with the image `fw.hex`. -/
def demo_hex_args : image_loader_args_t :=
  { args := [], firmware_path := "fw.hex", load_firmware := true }

/-- The simulated environment in which the uninitialised session record of the loader
reads `found = false`. -/
def sim_env_found_clear : Env :=
  { sim_env sim_bootloader never with uninit_session := { sim_session with found := false } }

/-- An image of 64 KiB, all zero. -/
def demo_image_64k : List uint8_t := List.replicate 65536 0

/-- A session for the 64 KiB image: the descriptor of a device in its bootloader and the
path of the image. -/
def demo_session_64k : octoclock_session_t :=
  { sim_session with dev_addr := sim_bootloader, given_filepath := "fw.bin" }

/-- Two devices found at once: one running its application, one in its bootloader. -/
def sim_env_two_devices : Env :=
  { sim_env sim_bootloader never with octoclock_find := fun _ => [sim_application, sim_bootloader] }

/-! ## The checksum -/

theorem xor_low_byte (c b : Nat) (hb : b < 256) :
    c ^^^ b = (c / 256) * 256 + ((c % 256) ^^^ b) := by
  have hlow : (c % 2 ^ 8) ^^^ b < 2 ^ 8 :=
    Nat.xor_lt_two_pow (Nat.mod_lt _ (by norm_num)) hb
  apply Nat.eq_of_testBit_eq
  intro i
  rw [Nat.mul_comm (c / 256) 256, show (256 : Nat) = 2 ^ 8 from rfl,
    Nat.testBit_mul_pow_two_add _ hlow, Nat.testBit_xor, Nat.testBit_xor,
    Nat.testBit_mod_two_pow]
  by_cases h : i < 8
  · simp [h]
  · have hbi : b.testBit i = false :=
      Nat.testBit_lt_two_pow (lt_of_lt_of_le hb (by
        rw [show (256 : Nat) = 2 ^ 8 from rfl]
        exact Nat.pow_le_pow_right (by norm_num) (by omega)))
    have hs : c.testBit i = (c / 2 ^ 8).testBit (i - 8) := by
      rw [← Nat.shiftRight_eq_div_pow, Nat.testBit_shiftRight]
      congr 1; omega
    simp [h, hbi, hs]

theorem crc_bit_lt (c : Nat) : crc_bit c < 2 ^ 16 := by
  unfold crc_bit
  split <;> exact Nat.mod_lt _ (by norm_num)

theorem crc_bit_eq_spec (c : Nat) (hc : c < 2 ^ 16) : crc_bit c = spec_crc_shift c := by
  have h2 : c / 2 < 2 ^ 16 := by omega
  have hx : (c / 2) ^^^ 0xA001 < 2 ^ 16 := Nat.xor_lt_two_pow h2 (by norm_num)
  unfold crc_bit spec_crc_shift
  rw [Nat.and_one_is_mod, Nat.shiftRight_eq_div_pow, pow_one,
    Nat.mod_eq_of_lt hx, Nat.mod_eq_of_lt h2]
  by_cases h : c % 2 = 1
  · simp [h]
  · have h0 : c % 2 = 0 := by omega
    simp [h0]

theorem crc_inner_lt (n c : Nat) (hc : c < 2 ^ 16) : crc_inner n c < 2 ^ 16 := by
  induction n generalizing c with
  | zero => simpa [crc_inner] using hc
  | succ n ih => simpa [crc_inner] using ih _ (crc_bit_lt c)

theorem crc_inner_eq_spec (n c : Nat) (hc : c < 2 ^ 16) :
    crc_inner n c = spec_crc_shift^[n] c := by
  induction n generalizing c with
  | zero => rfl
  | succ n ih =>
    rw [crc_inner, Function.iterate_succ_apply, ih _ (crc_bit_lt c), crc_bit_eq_spec c hc]

theorem crc_byte_eq_spec (c : Nat) (b : uint8_t) (hc : c < 2 ^ 16) :
    crc_inner 8 ((c ^^^ b.val) % 2 ^ 16) = spec_crc_byte c b := by
  have hb : b.val < 2 ^ 16 := lt_trans b.isLt (by norm_num)
  have hx : c ^^^ b.val < 2 ^ 16 := Nat.xor_lt_two_pow hc hb
  rw [Nat.mod_eq_of_lt hx, crc_inner_eq_spec _ _ hx, spec_crc_byte, ← xor_low_byte c _ b.isLt]

theorem crc_outer_lt (f : Nat → uint8_t) (n i c : Nat) (hc : c < 2 ^ 16) :
    crc_outer f n i c < 2 ^ 16 := by
  induction n generalizing i c with
  | zero => simpa [crc_outer] using hc
  | succ n ih =>
    rw [crc_outer]
    exact ih _ _ (crc_inner_lt _ _ (Nat.mod_lt _ (by norm_num)))

theorem crc_outer_eq_foldl (f : Nat → uint8_t) (image : List uint8_t)
    (hf : ∀ j (h : j < image.length), f j = image.get ⟨j, h⟩) (n i c : Nat)
    (hc : c < 2 ^ 16) (hn : i + n = image.length) :
    crc_outer f n i c = (image.drop i).foldl spec_crc_byte c := by
  induction n generalizing i c with
  | zero =>
    have : image.length ≤ i := by omega
    simp [crc_outer, List.drop_of_length_le this]
  | succ n ih =>
    have hi : i < image.length := by omega
    rw [crc_outer, List.drop_eq_getElem_cons hi, List.foldl_cons, hf i hi,
      crc_byte_eq_spec _ _ hc]
    have hlt : spec_crc_byte c (image.get ⟨i, hi⟩) < 2 ^ 16 := by
      rw [← crc_byte_eq_spec _ _ hc]
      exact crc_inner_lt _ _ (Nat.mod_lt _ (by norm_num))
    exact ih (i + 1) _ hlt (by omega)

theorem ifstream_read_open (w : World) (path : String) (image : List uint8_t)
    (h : w.files path = some image) (n : Nat) :
    (ifstream_read (ifstream_open w path) n).2 = image.take n := by
  simp [ifstream_open, h, ifstream_read]

/-- The checksum the code leaves in the session is the specification's checksum of the
image, whenever `session.size` is the length of the image file. -/
theorem calculate_crc_eq_spec_crc (env : Env) (w : World) (session : octoclock_session_t)
    (image : List uint8_t) (hfile : w.files session.actual_filepath = some image)
    (hsize : session.size = image.length) :
    (octoclock_calculate_crc env w session).crc = spec_crc image := by
  unfold octoclock_calculate_crc
  simp only
  rw [ifstream_read_open w _ image hfile, hsize, List.take_length]
  rw [crc_outer_eq_foldl _ image _ image.length 0 0xFFFF (by norm_num) (by simp)]
  · simp [spec_crc]
  · intro j h
    simp [h]

theorem calculate_crc_lt (env : Env) (w : World) (session : octoclock_session_t) :
    (octoclock_calculate_crc env w session).crc < 2 ^ 16 := by
  unfold octoclock_calculate_crc
  exact crc_outer_lt _ _ _ _ (by norm_num)

theorem stream_at_open (w : World) (path : String) (image : List uint8_t)
    (h : w.files path = some image) : stream_at image 0 (ifstream_open w path) := by
  simp [stream_at, ifstream_open, h]

theorem image_of_eq {w : World} {path : String} {image : List uint8_t}
    (h : w.files path = some image) : image_of w path = image := by
  simp [image_of, h]

theorem stream_at_image_of (w : World) (path : String) :
    stream_at (image_of w path) 0 (ifstream_open w path) := by
  unfold image_of ifstream_open
  cases h : w.files path with
  | none => simp [stream_at]
  | some image => simp [stream_at]

theorem stream_at_read (image : List uint8_t) (i : Nat) (f : ifstream)
    (h : stream_at image i f) :
    (ifstream_read f 256).2 = (image.drop (256 * i)).take 256
      ∧ stream_at image (i + 1) (ifstream_read f 256).1 := by
  obtain ⟨hc, hg, hb⟩ := h
  unfold ifstream_read
  cases hgood : f.good with
  | true =>
    have hp := hg hgood
    simp only [if_true, hc, hp]
    refine ⟨trivial, rfl, ?_, ?_⟩
    · intro h2
      simp only [decide_eq_true_eq] at h2
      simp only [h2]; ring
    · intro h2
      simp only [decide_eq_false_iff_not] at h2
      simp only [List.length_take, List.length_drop] at h2
      omega
  | false =>
    have hl := hb hgood
    simp only [Bool.false_eq_true, if_false]
    refine ⟨?_, hc, ?_, ?_⟩
    · rw [List.drop_of_length_le (by omega)]; rfl
    · intro h2; rw [hgood] at h2; cases h2
    · intro _; omega

theorem overlay_replicate (chunk : List uint8_t) (n : Nat) :
    overlay chunk (List.replicate n 0) = chunk ++ List.replicate (n - chunk.length) 0 := by
  rw [overlay, List.drop_replicate]

theorem transfer_request_shift (p : octoclock_packet_t) (image : List uint8_t) (i j : Nat) :
    transfer_request (transfer_request p image i 0) image (i + 1) j
      = transfer_request p image i (j + 1) := by
  simp only [transfer_request, octoclock_packet_t.mk.injEq, true_and]
  refine ⟨by omega, ?_, ?_⟩
  · rw [show i + 1 + j = i + (j + 1) by omega]
  · rw [show i + 1 + j = i + (j + 1) by omega]

theorem transfer_requests_succ (p : octoclock_packet_t) (image : List uint8_t) (i m : Nat) :
    transfer_requests p image i (m + 1)
      = (xport_id.fw, transfer_request p image i 0)
        :: transfer_requests (transfer_request p image i 0) image (i + 1) m := by
  unfold transfer_requests
  rw [List.range_succ_eq_map, List.map_cons, List.map_map]
  congr 1
  apply List.map_congr_left
  intro j _
  simp only [Function.comp, transfer_request_shift, Nat.succ_eq_add_one]

theorem send_send (w : World) (a b : List (xport_id × octoclock_packet_t)) :
    (w.send a).send b = w.send (a ++ b) := by
  simp [World.send, List.append_assoc]

theorem send_nil (w : World) : w.send [] = w := by
  simp [World.send]

theorem transfer_acked_shift (env : Env) (w : World) (p : octoclock_packet_t)
    (image : List uint8_t) (i j : Nat) :
    transfer_acked env (w.send [(xport_id.fw, transfer_request p image i 0)])
        (transfer_request p image i 0) image (i + 1) j
      = transfer_acked env w p image i (j + 1) := by
  unfold transfer_acked
  rw [transfer_request_shift, transfer_requests_succ p image i (j + 1)]
  simp [World.send, List.append_assoc]

theorem transfer_acked_zero (env : Env) (w : World) (p : octoclock_packet_t)
    (image : List uint8_t) (i : Nat) :
    transfer_acked env w p image i 0
      = env.PACKET_MATCHES .FILE_TRANSFER_ACK (transfer_request p image i 0)
          (env.device (w.sent ++ [(xport_id.fw, transfer_request p image i 0)])).2
          (env.device (w.sent ++ [(xport_id.fw, transfer_request p image i 0)])).1 := rfl

theorem burn_loop_step (env : Env) (image : List uint8_t) (n i : Nat) (w : World)
    (session : octoclock_session_t) (p : octoclock_packet_t) (f : ifstream)
    (hs : stream_at image i f) :
    burn_loop env (n + 1) i w session p f =
      if transfer_acked env w p image i 0 then
        burn_loop env n (i + 1) (w.send [(xport_id.fw, transfer_request p image i 0)])
          { session with
            data_in := (env.device (w.sent ++ [(xport_id.fw, transfer_request p image i 0)])).2 }
          (transfer_request p image i 0) (ifstream_read f 256).1
      else
        ⟨remove_if_from_hex (w.send [(xport_id.fw, transfer_request p image i 0)]) session,
          .error transfer_failed⟩ := by
  have hreq : ({ p with
      sequence := (p.sequence + 1) % 2 ^ 32
      addr := (i * OCTOCLOCK_BLOCK_SIZE) % 2 ^ 32
      data := overlay (ifstream_read f OCTOCLOCK_BLOCK_SIZE).2
        (List.replicate OCTOCLOCK_BLOCK_SIZE 0)
      code := packet_code.FILE_TRANSFER_CMD } : octoclock_packet_t)
      = transfer_request p image i 0 := by
    rw [overlay_replicate]
    show _ = transfer_request p image i 0
    simp only [transfer_request, block_payload, block_bytes, Nat.add_zero, OCTOCLOCK_BLOCK_SIZE,
      (stream_at_read image i f hs).1]
  rw [burn_loop]
  simp only [UHD_OCTOCLOCK_SEND_AND_RECV, hreq, transfer_acked_zero]
  by_cases h : env.PACKET_MATCHES .FILE_TRANSFER_ACK (transfer_request p image i 0)
          (env.device (w.sent ++ [(xport_id.fw, transfer_request p image i 0)])).2
          (env.device (w.sent ++ [(xport_id.fw, transfer_request p image i 0)])).1 = true
  · simp only [h, if_true, not_true_eq_false, if_false]
    rfl
  · simp only [h, if_false, not_false_eq_true, if_true]
    rfl

theorem burn_loop_all_acked (env : Env) (image : List uint8_t) (n : Nat) :
    ∀ (i : Nat) (w : World) (session : octoclock_session_t) (p : octoclock_packet_t)
      (f : ifstream), stream_at image i f →
      (∀ j < n, transfer_acked env w p image i j = true) →
      ∃ d, burn_loop env n i w session p f
        = ⟨w.send (transfer_requests p image i n), .ok { session with data_in := d }⟩ := by
  induction n with
  | zero =>
    intro i w session p f _ _
    exact ⟨session.data_in, by simp [burn_loop, transfer_requests, send_nil]⟩
  | succ n ih =>
    intro i w session p f hs hack
    rw [burn_loop_step env image n i w session p f hs, hack 0 (Nat.succ_pos n), if_pos rfl]
    obtain ⟨d, hd⟩ := ih (i + 1) (w.send [(xport_id.fw, transfer_request p image i 0)])
      { session with
        data_in := (env.device (w.sent ++ [(xport_id.fw, transfer_request p image i 0)])).2 }
      (transfer_request p image i 0) (ifstream_read f 256).1 (stream_at_read image i f hs).2
      (fun j hj => by
        rw [transfer_acked_shift]
        exact hack (j + 1) (Nat.succ_lt_succ hj))
    refine ⟨d, ?_⟩
    rw [hd, send_send, transfer_requests_succ]
    rfl

theorem burn_loop_first_nack (env : Env) (image : List uint8_t) (n : Nat) :
    ∀ (i : Nat) (w : World) (session : octoclock_session_t) (p : octoclock_packet_t)
      (f : ifstream) (k : Nat), stream_at image i f → k < n →
      (∀ j < k, transfer_acked env w p image i j = true) →
      transfer_acked env w p image i k = false →
      burn_loop env n i w session p f
        = ⟨remove_if_from_hex (w.send (transfer_requests p image i (k + 1))) session,
            .error transfer_failed⟩ := by
  induction n with
  | zero => intro i w session p f k _ hk; omega
  | succ n ih =>
    intro i w session p f k hs hk hack hnack
    rw [burn_loop_step env image n i w session p f hs]
    cases k with
    | zero =>
      rw [hnack, if_neg (by simp)]
      rfl
    | succ k =>
      rw [hack 0 (Nat.succ_pos k), if_pos rfl]
      rw [ih (i + 1) (w.send [(xport_id.fw, transfer_request p image i 0)])
        { session with
          data_in := (env.device (w.sent ++ [(xport_id.fw, transfer_request p image i 0)])).2 }
        (transfer_request p image i 0) (ifstream_read f 256).1 k
        (stream_at_read image i f hs).2 (by omega)
        (fun j hj => by
          rw [transfer_acked_shift]
          exact hack (j + 1) (Nat.succ_lt_succ hj))
        (by rw [transfer_acked_shift]; exact hnack)]
      rw [send_send, transfer_requests_succ p image i (k + 1)]
      rfl

theorem verify_request_shift (p : octoclock_packet_t) (i j : Nat) :
    verify_request (verify_request p i 0) (i + 1) j = verify_request p i (j + 1) := by
  simp only [verify_request, octoclock_packet_t.mk.injEq, true_and, and_true]
  refine ⟨by omega, ?_⟩
  rw [show i + 1 + j = i + (j + 1) by omega]

theorem verify_requests_succ (p : octoclock_packet_t) (i m : Nat) :
    verify_requests p i (m + 1)
      = (xport_id.fw, verify_request p i 0)
        :: verify_requests (verify_request p i 0) (i + 1) m := by
  unfold verify_requests
  rw [List.range_succ_eq_map, List.map_cons, List.map_map]
  congr 1
  apply List.map_congr_left
  intro j _
  simp only [Function.comp, verify_request_shift, Nat.succ_eq_add_one]

theorem verify_passed_shift (env : Env) (w : World) (p : octoclock_packet_t)
    (image : List uint8_t) (i j : Nat) :
    verify_passed env (w.send [(xport_id.fw, verify_request p i 0)])
        (verify_request p i 0) image (i + 1) j
      = verify_passed env w p image i (j + 1) := by
  unfold verify_passed verify_reply
  rw [verify_request_shift, verify_requests_succ p i (j + 1),
    show i + 1 + j = i + (j + 1) by omega]
  simp [World.send, List.append_assoc]

theorem block_bytes_length_le (image : List uint8_t) (i : Nat) :
    (block_bytes image i).length ≤ 256 := by
  simp [block_bytes, List.length_take]

theorem memcmp_differs_block (data chunk : List uint8_t) (h : chunk.length ≤ 256) :
    memcmp_differs data (overlay chunk (List.replicate OCTOCLOCK_BLOCK_SIZE 0))
        (chunk.length % 2 ^ 16)
      = !decide (data.take chunk.length = chunk) := by
  have hlt : chunk.length % 2 ^ 16 = chunk.length := Nat.mod_eq_of_lt (by omega)
  rw [memcmp_differs, hlt, overlay_replicate, List.take_left']
  · simp
  · rfl

theorem verify_loop_step (env : Env) (image : List uint8_t) (n i : Nat) (w : World)
    (session : octoclock_session_t) (p : octoclock_packet_t) (f : ifstream)
    (hs : stream_at image i f) :
    verify_loop env (n + 1) i w session p f =
      if verify_passed env w p image i 0 then
        verify_loop env n (i + 1) (w.send [(xport_id.fw, verify_request p i 0)])
          { session with
            data_in := (env.device (w.sent ++ [(xport_id.fw, verify_request p i 0)])).2 }
          (verify_request p i 0) (ifstream_read f 256).1
      else
        ⟨remove_if_from_hex (w.send [(xport_id.fw, verify_request p i 0)]) session,
          .error verify_failed⟩ := by
  have hreq : ({ p with
      sequence := (p.sequence + 1) % 2 ^ 32
      addr := (i * OCTOCLOCK_BLOCK_SIZE) % 2 ^ 32
      code := packet_code.READ_FW_CMD } : octoclock_packet_t) = verify_request p i 0 := by
    simp only [verify_request, Nat.add_zero, OCTOCLOCK_BLOCK_SIZE]
  have hchunk : (ifstream_read f OCTOCLOCK_BLOCK_SIZE).2 = block_bytes image i :=
    (stream_at_read image i f hs).1
  have hpass : verify_passed env w p image i 0
      = (env.PACKET_MATCHES .READ_FW_ACK (verify_request p i 0)
          (env.device (w.sent ++ [(xport_id.fw, verify_request p i 0)])).2
          (env.device (w.sent ++ [(xport_id.fw, verify_request p i 0)])).1
        && decide ((env.device (w.sent ++ [(xport_id.fw, verify_request p i 0)])).2.data.take
            (block_bytes image i).length = block_bytes image i)) := rfl
  rw [verify_loop]
  simp only [UHD_OCTOCLOCK_SEND_AND_RECV, hreq, hchunk, hpass,
    memcmp_differs_block _ _ (block_bytes_length_le image i)]
  by_cases h : env.PACKET_MATCHES .READ_FW_ACK (verify_request p i 0)
          (env.device (w.sent ++ [(xport_id.fw, verify_request p i 0)])).2
          (env.device (w.sent ++ [(xport_id.fw, verify_request p i 0)])).1 = true
  · by_cases h2 : (env.device (w.sent ++ [(xport_id.fw, verify_request p i 0)])).2.data.take
            (block_bytes image i).length = block_bytes image i
    · simp only [h, h2, if_true, decide_True, Bool.not_true, Bool.and_self, Bool.false_eq_true,
        if_false]
      rfl
    · simp only [h, h2, if_true, decide_False, Bool.not_false, Bool.and_false,
        Bool.false_eq_true, if_false]
      rfl
  · simp only [h, if_false, Bool.false_and, Bool.false_eq_true]
    rfl

theorem remove_if_from_hex_data_in (w : World) (session : octoclock_session_t)
    (d : octoclock_packet_t) :
    remove_if_from_hex w { session with data_in := d } = remove_if_from_hex w session := rfl

theorem verify_loop_all_passed (env : Env) (image : List uint8_t) (n : Nat) :
    ∀ (i : Nat) (w : World) (session : octoclock_session_t) (p : octoclock_packet_t)
      (f : ifstream), stream_at image i f →
      (∀ j < n, verify_passed env w p image i j = true) →
      ∃ d, verify_loop env n i w session p f
        = ⟨remove_if_from_hex (w.send (verify_requests p i n)) session,
            .ok { session with data_in := d }⟩ := by
  induction n with
  | zero =>
    intro i w session p f _ _
    exact ⟨session.data_in, by simp [verify_loop, verify_requests, send_nil]⟩
  | succ n ih =>
    intro i w session p f hs hpass
    rw [verify_loop_step env image n i w session p f hs, hpass 0 (Nat.succ_pos n), if_pos rfl]
    obtain ⟨d, hd⟩ := ih (i + 1) (w.send [(xport_id.fw, verify_request p i 0)])
      { session with
        data_in := (env.device (w.sent ++ [(xport_id.fw, verify_request p i 0)])).2 }
      (verify_request p i 0) (ifstream_read f 256).1 (stream_at_read image i f hs).2
      (fun j hj => by
        rw [verify_passed_shift]
        exact hpass (j + 1) (Nat.succ_lt_succ hj))
    refine ⟨d, ?_⟩
    rw [hd, send_send, verify_requests_succ, remove_if_from_hex_data_in]
    rfl

theorem verify_loop_first_failure (env : Env) (image : List uint8_t) (n : Nat) :
    ∀ (i : Nat) (w : World) (session : octoclock_session_t) (p : octoclock_packet_t)
      (f : ifstream) (k : Nat), stream_at image i f → k < n →
      (∀ j < k, verify_passed env w p image i j = true) →
      verify_passed env w p image i k = false →
      verify_loop env n i w session p f
        = ⟨remove_if_from_hex (w.send (verify_requests p i (k + 1))) session,
            .error verify_failed⟩ := by
  induction n with
  | zero => intro i w session p f k _ hk; omega
  | succ n ih =>
    intro i w session p f k hs hk hpass hfail
    rw [verify_loop_step env image n i w session p f hs]
    cases k with
    | zero =>
      rw [hfail, if_neg (by simp)]
      rfl
    | succ k =>
      rw [hpass 0 (Nat.succ_pos k), if_pos rfl]
      rw [ih (i + 1) (w.send [(xport_id.fw, verify_request p i 0)])
        { session with
          data_in := (env.device (w.sent ++ [(xport_id.fw, verify_request p i 0)])).2 }
        (verify_request p i 0) (ifstream_read f 256).1 k
        (stream_at_read image i f hs).2 (by omega)
        (fun j hj => by
          rw [verify_passed_shift]
          exact hpass (j + 1) (Nat.succ_lt_succ hj))
        (by rw [verify_passed_shift]; exact hfail)]
      rw [send_send, verify_requests_succ p i (k + 1), remove_if_from_hex_data_in]
      rfl

/-- Either a check passes at every index below `n`, or there is a first index where it
fails. -/
theorem all_or_first_failure (P : Nat → Bool) (n : Nat) :
    (∀ j < n, P j = true) ∨ ∃ k < n, (∀ j < k, P j = true) ∧ P k = false := by
  induction n with
  | zero => exact Or.inl (fun j hj => absurd hj (Nat.not_lt_zero j))
  | succ n ih =>
    rcases ih with hall | ⟨k, hk, hpre, hfail⟩
    · cases hn : P n with
      | true =>
        refine Or.inl (fun j hj => ?_)
        rcases Nat.lt_succ_iff_lt_or_eq.mp hj with h | h
        · exact hall j h
        · rw [h]; exact hn
      | false => exact Or.inr ⟨n, Nat.lt_succ_self n, hall, hn⟩
    · exact Or.inr ⟨k, Nat.lt_succ_of_lt hk, hpre, hfail⟩

/-! ## Image validation -/

set_option maxRecDepth 100000 in
theorem spec_crc_check_input : spec_crc check_input = 0x4B37 := by
  decide

theorem validate_bin (env : Env) (w : World) (session : octoclock_session_t)
    (image : List uint8_t) (hfile : w.files session.given_filepath = some image)
    (hext : env.fs_extension session.given_filepath = ".bin") :
    octoclock_validate_firmware_image env w session =
      if image.length % 2 ^ 32 > OCTOCLOCK_FIRMWARE_MAX_SIZE_BYTES then
        ⟨w, .error (image_too_large (image.length % 2 ^ 32))⟩
      else ⟨w, .ok (octoclock_calculate_crc env w (bin_session session image))⟩ := by
  unfold octoclock_validate_firmware_image
  simp only [fs_exists, hfile, hext, Option.isSome_some, not_true_eq_false, if_false, if_true]
  rfl

theorem convert_ihex_files (env : Env) (w : World) (session : octoclock_session_t)
    (text : List uint8_t) (hfile : w.files session.given_filepath = some text) :
    (octoclock_convert_ihex env w session).files session.actual_filepath
      = some (env.ihex_decode text) := by
  simp [octoclock_convert_ihex, hfile]

theorem validate_hex (env : Env) (w : World) (session : octoclock_session_t)
    (text : List uint8_t) (hfile : w.files session.given_filepath = some text)
    (hext : env.fs_extension session.given_filepath = ".hex") :
    octoclock_validate_firmware_image env w session =
      if (env.ihex_decode text).length % 2 ^ 32 > OCTOCLOCK_FIRMWARE_MAX_SIZE_BYTES then
        ⟨hex_world env w session,
          .error (image_too_large ((env.ihex_decode text).length % 2 ^ 32))⟩
      else
        ⟨hex_world env w session,
          .ok (octoclock_calculate_crc env (hex_world env w session)
            (hex_session env session (env.ihex_decode text)))⟩ := by
  unfold octoclock_validate_firmware_image
  have hne : ¬ ((".hex" : String) = ".bin") := by decide
  simp only [fs_exists, hfile, hext, Option.isSome_some, not_true_eq_false, if_false, if_true,
    hne]
  rw [convert_ihex_files env w { session with actual_filepath := tmp_image_path env } text hfile]
  rfl

theorem block_count_eq_ceil (s : Nat) : block_count s = ⌈(s : ℚ) / 256⌉₊ := by
  symm
  have h256 : (0 : ℚ) < 256 := by norm_num
  have hs : (s : ℚ) = ((s / 256 : ℕ) : ℚ) * 256 + ((s % 256 : ℕ) : ℚ) := by
    exact_mod_cast (by omega : s = s / 256 * 256 + s % 256)
  unfold block_count OCTOCLOCK_BLOCK_SIZE
  by_cases h : s % 256 = 0
  · simp only [h, ne_eq, not_true_eq_false, if_false]
    rw [hs, h]
    simp
  · simp only [h, ne_eq, not_false_eq_true, if_true]
    rw [Nat.ceil_eq_iff (by omega)]
    have hm : (0 : ℚ) < ((s % 256 : ℕ) : ℚ) := by exact_mod_cast Nat.pos_of_ne_zero h
    have hm2 : ((s % 256 : ℕ) : ℚ) < 256 := by exact_mod_cast Nat.mod_lt s (by norm_num)
    constructor
    · rw [lt_div_iff₀ h256]
      push_cast
      linarith
    · rw [div_le_iff₀ h256]
      push_cast
      linarith

theorem block_count_le (s : Nat) : block_count s ≤ s / 256 + 1 := by
  unfold block_count OCTOCLOCK_BLOCK_SIZE
  split <;> omega

theorem calculate_crc_fields (env : Env) (w : World) (session : octoclock_session_t) :
    (octoclock_calculate_crc env w session).size = session.size
      ∧ (octoclock_calculate_crc env w session).num_blocks = session.num_blocks
      ∧ (octoclock_calculate_crc env w session).from_hex = session.from_hex
      ∧ (octoclock_calculate_crc env w session).actual_filepath = session.actual_filepath
      ∧ (octoclock_calculate_crc env w session).found = session.found
      ∧ (octoclock_calculate_crc env w session).dev_addr = session.dev_addr :=
  ⟨rfl, rfl, rfl, rfl, rfl, rfl⟩

/-- C3: for every image of at most 122880 bytes, given as a `.bin` file or decoded from
a `.hex` file, `octoclock_validate_firmware_image` returns with `num_blocks` equal to
the ceiling of `size / 256`; that value is below `2 ^ 16`, so the 16-bit field holds it
without truncation; the sizes 0, 1, 256, 257, 512 give 0, 1, 1, 2, 2 blocks. -/
theorem C3_num_blocks_is_ceil (env : Env) (w : World) (session : octoclock_session_t)
    (image : List uint8_t)
    (hsrc : (env.fs_extension session.given_filepath = ".bin"
          ∧ w.files session.given_filepath = some image)
        ∨ (env.fs_extension session.given_filepath = ".hex"
          ∧ ∃ text, w.files session.given_filepath = some text ∧ env.ihex_decode text = image))
    (hmax : image.length ≤ OCTOCLOCK_FIRMWARE_MAX_SIZE_BYTES) :
    ∃ validated, (octoclock_validate_firmware_image env w session).result = .ok validated
      ∧ validated.size = image.length
      ∧ validated.num_blocks = ⌈(image.length : ℚ) / 256⌉₊
      ∧ ⌈(image.length : ℚ) / 256⌉₊ < 2 ^ 16
      ∧ (image.length = 0 → validated.num_blocks = 0)
      ∧ (image.length = 1 → validated.num_blocks = 1)
      ∧ (image.length = 256 → validated.num_blocks = 1)
      ∧ (image.length = 257 → validated.num_blocks = 2)
      ∧ (image.length = 512 → validated.num_blocks = 2) := by
  have hM : OCTOCLOCK_FIRMWARE_MAX_SIZE_BYTES = 122880 := rfl
  have hlen : image.length % 2 ^ 32 = image.length := Nat.mod_eq_of_lt (by omega)
  have hbc : block_count image.length < 2 ^ 16 := by
    have := block_count_le image.length
    omega
  have hnb : block_count image.length % 2 ^ 16 = block_count image.length :=
    Nat.mod_eq_of_lt hbc
  have hgt : ¬ image.length > OCTOCLOCK_FIRMWARE_MAX_SIZE_BYTES := by omega
  have hres : ∃ validated,
      (octoclock_validate_firmware_image env w session).result = .ok validated
        ∧ validated.size = image.length
        ∧ validated.num_blocks = block_count image.length := by
    rcases hsrc with ⟨hext, hfile⟩ | ⟨hext, text, hfile, hdec⟩
    · rw [validate_bin env w session image hfile hext, hlen, if_neg hgt]
      exact ⟨_, rfl, by simp only [calculate_crc_fields, bin_session, hlen],
        by simp only [calculate_crc_fields, bin_session, hlen, hnb]⟩
    · rw [validate_hex env w session text hfile hext, hdec, hlen, if_neg hgt]
      exact ⟨_, rfl, by simp only [calculate_crc_fields, hex_session, hlen],
        by simp only [calculate_crc_fields, hex_session, hlen, hnb]⟩
  obtain ⟨validated, hok, hsz, hblocks⟩ := hres
  refine ⟨validated, hok, hsz, ?_, ?_, ?_, ?_, ?_, ?_, ?_⟩
  · rw [hblocks, block_count_eq_ceil]
  · rw [← block_count_eq_ceil]; exact hbc
  all_goals
    intro h
    rw [hblocks, h]
    rfl

/-! ## The burn stage -/

theorem reset_world (env : Env) (w : World) (session : octoclock_session_t) :
    (octoclock_reset_into_bootloader env w session).world =
      if in_bootloader session then w
      else (after_rand w).send [(xport_id.ctrl, reset_request env w)] := by
  unfold octoclock_reset_into_bootloader in_bootloader
  by_cases h : (dict_index session.dev_addr "type").1 = "octoclock-bootloader"
  · simp only [h, if_true, decide_True]
  · simp only [h, if_false, decide_False, Bool.false_eq_true]
    split
    · split
      · rfl
      · split <;> rfl
    · rfl

theorem reset_session (env : Env) (w : World) (session validated : octoclock_session_t)
    (h : (octoclock_reset_into_bootloader env w session).result = .ok validated) :
    ∃ dev d, validated = { session with dev_addr := dev, data_in := d } := by
  unfold octoclock_reset_into_bootloader at h
  by_cases hb : (dict_index session.dev_addr "type").1 = "octoclock-bootloader"
  · simp only [hb, if_true, Except.ok.injEq] at h
    exact ⟨_, session.data_in, h.symm⟩
  · simp only [hb, if_false] at h
    split at h
    · split at h
      · cases h
      · split at h
        · cases h
        · simp only [Except.ok.injEq] at h
          exact ⟨_, _, h.symm⟩
    · cases h

theorem burn_after_reset_nack (env : Env) (w : World) (session : octoclock_session_t)
    (h : prepare_acked env w session = false) :
    burn_after_reset env w session
      = ⟨remove_if_from_hex (prepared_world env w session) session, .error prepare_failed⟩ := by
  unfold burn_after_reset
  simp only [UHD_OCTOCLOCK_SEND_AND_RECV]
  rw [if_neg]
  · rfl
  · intro hc
    rw [prepare_acked] at h
    exact absurd (hc.symm.trans h) (by simp)

theorem burn_after_reset_acked (env : Env) (w : World) (session : octoclock_session_t)
    (h : prepare_acked env w session = true) :
    burn_after_reset env w session
      = burn_loop env session.num_blocks 0 (prepared_world env w session)
          { session with
            data_in := (env.device (w.sent ++ [(xport_id.fw, prepare_request env w session)])).2 }
          (prepare_request env w session)
          (ifstream_open (prepared_world env w session) session.actual_filepath) := by
  unfold burn_after_reset
  simp only [UHD_OCTOCLOCK_SEND_AND_RECV]
  rw [if_pos]
  · rfl
  · exact h

theorem burn_of_reset_error (env : Env) (w : World) (session : octoclock_session_t)
    (e : exception) (h : (octoclock_reset_into_bootloader env w session).result = .error e) :
    octoclock_burn env w session
      = ⟨(octoclock_reset_into_bootloader env w session).world, .error e⟩ := by
  unfold octoclock_burn
  rcases hr : octoclock_reset_into_bootloader env w session with ⟨w1, r⟩
  rw [hr] at h
  simp only at h
  subst h
  rfl

theorem burn_of_reset_ok (env : Env) (w : World) (session s1 : octoclock_session_t)
    (h : (octoclock_reset_into_bootloader env w session).result = .ok s1) :
    octoclock_burn env w session
      = burn_after_reset env (octoclock_reset_into_bootloader env w session).world s1 := by
  unfold octoclock_burn
  rcases hr : octoclock_reset_into_bootloader env w session with ⟨w1, r⟩
  rw [hr] at h
  simp only at h
  subst h
  rfl

theorem remove_if_from_hex_sent (w : World) (session : octoclock_session_t) :
    (remove_if_from_hex w session).sent = w.sent := by
  unfold remove_if_from_hex
  split <;> rfl

theorem burn_after_reset_all_acked (env : Env) (w : World) (session : octoclock_session_t)
    (image : List uint8_t) (himg : image_of w session.actual_filepath = image)
    (hprep : prepare_acked env w session = true)
    (hack : ∀ j < session.num_blocks, transfer_acked env (prepared_world env w session)
      (prepare_request env w session) image 0 j = true) :
    ∃ d, burn_after_reset env w session
      = ⟨(prepared_world env w session).send
          (transfer_requests (prepare_request env w session) image 0 session.num_blocks),
          .ok { session with data_in := d }⟩ := by
  rw [burn_after_reset_acked env w session hprep]
  obtain ⟨d, hd⟩ := burn_loop_all_acked env image session.num_blocks 0
    (prepared_world env w session)
    { session with
      data_in := (env.device (w.sent ++ [(xport_id.fw, prepare_request env w session)])).2 }
    (prepare_request env w session)
    (ifstream_open (prepared_world env w session) session.actual_filepath)
    (by rw [← himg]; exact stream_at_image_of _ _) hack
  exact ⟨d, hd⟩

theorem burn_after_reset_first_nack (env : Env) (w : World) (session : octoclock_session_t)
    (image : List uint8_t) (k : Nat) (himg : image_of w session.actual_filepath = image)
    (hprep : prepare_acked env w session = true) (hk : k < session.num_blocks)
    (hack : ∀ j < k, transfer_acked env (prepared_world env w session)
      (prepare_request env w session) image 0 j = true)
    (hnack : transfer_acked env (prepared_world env w session)
      (prepare_request env w session) image 0 k = false) :
    burn_after_reset env w session
      = ⟨remove_if_from_hex ((prepared_world env w session).send
          (transfer_requests (prepare_request env w session) image 0 (k + 1))) session,
          .error transfer_failed⟩ := by
  rw [burn_after_reset_acked env w session hprep]
  exact burn_loop_first_nack env image session.num_blocks 0
    (prepared_world env w session)
    { session with
      data_in := (env.device (w.sent ++ [(xport_id.fw, prepare_request env w session)])).2 }
    (prepare_request env w session)
    (ifstream_open (prepared_world env w session) session.actual_filepath) k
    (by rw [← himg]; exact stream_at_image_of _ _) hk hack hnack

/-- The packets `octoclock_burn` sends: some packets that are not file transfers (the
reset and prepare-burn requests), then the file-transfer requests of the first `m`
blocks, `m` being the block count when the function returns. -/
theorem burn_sent (env : Env) (w : World) (session : octoclock_session_t)
    (image : List uint8_t) (himg : image_of w session.actual_filepath = image) :
    ∃ pre p m, m ≤ session.num_blocks
      ∧ (octoclock_burn env w session).world.sent
          = w.sent ++ (pre ++ transfer_requests p image 0 m)
      ∧ (∀ q ∈ pre, q.2.code ≠ packet_code.FILE_TRANSFER_CMD)
      ∧ ((octoclock_burn env w session).result.isOk = true → m = session.num_blocks) := by
  have hrw := reset_world env w session
  have hpre : ∃ pre, (octoclock_reset_into_bootloader env w session).world.sent = w.sent ++ pre
      ∧ (octoclock_reset_into_bootloader env w session).world.files = w.files
      ∧ ∀ q ∈ pre, q.2.code ≠ packet_code.FILE_TRANSFER_CMD := by
    rw [hrw]
    split
    · exact ⟨[], by simp, rfl, by simp⟩
    · exact ⟨[(xport_id.ctrl, reset_request env w)], rfl, rfl, by simp [reset_request]⟩
  obtain ⟨pre, hsent, hfiles, hcodes⟩ := hpre
  cases hr : (octoclock_reset_into_bootloader env w session).result with
  | error e =>
    rw [burn_of_reset_error env w session e hr]
    exact ⟨pre, zero_packet, 0, Nat.zero_le _, by simp [hsent, transfer_requests], hcodes,
      by simp [Except.isOk, Except.toBool]⟩
  | ok s1 =>
    obtain ⟨dev, d, hs1⟩ := reset_session env w session s1 hr
    rw [burn_of_reset_ok env w session s1 hr]
    generalize (octoclock_reset_into_bootloader env w session).world = w1 at hsent hfiles
    have hfile1 : image_of w1 s1.actual_filepath = image := by
      rw [image_of, hfiles, hs1]; exact himg
    have hn : s1.num_blocks = session.num_blocks := by rw [hs1]
    cases hprep : prepare_acked env w1 s1 with
    | false =>
      rw [burn_after_reset_nack env w1 s1 hprep]
      refine ⟨pre ++ [(xport_id.fw, prepare_request env w1 s1)], zero_packet, 0,
        Nat.zero_le _, ?_, ?_, by simp [Except.isOk, Except.toBool]⟩
      · simp [remove_if_from_hex_sent, prepared_world, World.send, after_rand, hsent,
          transfer_requests]
      · intro q hq
        rcases List.mem_append.mp hq with h | h
        · exact hcodes q h
        · simp only [List.mem_singleton] at h
          simp [h, prepare_request]
    | true =>
      have hcodes2 : ∀ q ∈ pre ++ [(xport_id.fw, prepare_request env w1 s1)],
          q.2.code ≠ packet_code.FILE_TRANSFER_CMD := by
        intro q hq
        rcases List.mem_append.mp hq with h | h
        · exact hcodes q h
        · simp only [List.mem_singleton] at h
          simp [h, prepare_request]
      rcases all_or_first_failure (fun j => transfer_acked env (prepared_world env w1 s1)
        (prepare_request env w1 s1) image 0 j) s1.num_blocks with hall | ⟨k, hk, hpre2, hfail⟩
      · obtain ⟨d2, hd2⟩ := burn_after_reset_all_acked env w1 s1 image hfile1 hprep hall
        rw [hd2]
        refine ⟨pre ++ [(xport_id.fw, prepare_request env w1 s1)], prepare_request env w1 s1,
          s1.num_blocks, le_of_eq hn, ?_, hcodes2, fun _ => hn⟩
        simp [prepared_world, World.send, after_rand, hsent]
      · rw [burn_after_reset_first_nack env w1 s1 image k hfile1 hprep hk hpre2 hfail]
        refine ⟨pre ++ [(xport_id.fw, prepare_request env w1 s1)], prepare_request env w1 s1,
          k + 1, by omega, ?_, hcodes2, by simp [Except.isOk, Except.toBool]⟩
        simp [remove_if_from_hex_sent, prepared_world, World.send, after_rand, hsent]

theorem with_code_transfer_requests (p : octoclock_packet_t) (image : List uint8_t)
    (i m : Nat) (pre : List (xport_id × octoclock_packet_t))
    (hpre : ∀ q ∈ pre, q.2.code ≠ packet_code.FILE_TRANSFER_CMD) :
    with_code .FILE_TRANSFER_CMD (pre ++ transfer_requests p image i m)
      = (List.range m).map (fun j => transfer_request p image i j) := by
  unfold with_code
  rw [List.filter_append]
  have h1 : pre.filter (fun q => decide (q.2.code = packet_code.FILE_TRANSFER_CMD)) = [] := by
    rw [List.filter_eq_nil_iff]
    intro q hq
    simpa using hpre q hq
  have h2 : (transfer_requests p image i m).filter
      (fun q => decide (q.2.code = packet_code.FILE_TRANSFER_CMD))
      = transfer_requests p image i m := by
    rw [List.filter_eq_self]
    intro q hq
    simp only [transfer_requests, List.mem_map] at hq
    obtain ⟨j, _, rfl⟩ := hq
    simp [transfer_request]
  rw [h1, h2, List.nil_append, transfer_requests, List.map_map]
  rfl

theorem block_bytes_length (image : List uint8_t) (i : Nat) :
    (block_bytes image i).length = min 256 (image.length - 256 * i) := by
  simp [block_bytes, List.length_take, List.length_drop]

theorem block_payload_length (image : List uint8_t) (i : Nat) :
    (block_payload image i).length = 256 := by
  have := block_bytes_length_le image i
  simp only [block_payload, List.length_append, List.length_replicate]
  omega

theorem block_payload_take (image : List uint8_t) (i : Nat) :
    (block_payload image i).take (min 256 (image.length - 256 * i))
      = (image.drop (256 * i)).take (min 256 (image.length - 256 * i)) := by
  rw [← block_bytes_length, block_payload, List.take_left']
  · rw [block_bytes_length, block_bytes, List.take_eq_take]
    simp only [List.length_drop]
    omega
  · rfl

theorem block_payload_drop (image : List uint8_t) (i : Nat) :
    (block_payload image i).drop (min 256 (image.length - 256 * i))
      = List.replicate (256 - min 256 (image.length - 256 * i)) 0 := by
  rw [← block_bytes_length, block_payload, List.drop_left']
  rfl

/-! ## Concrete runs: checksum, block count, transfer -/

theorem sim_extension_bin : sim_extension "fw.bin" = ".bin" := by decide

theorem demo_image_length : demo_image.length = 300 :=
  List.length_replicate 300 _

/-- C2, counterexample: for the nine ASCII bytes `123456789` the checksum that
`octoclock_calculate_crc` leaves in the session is not the CRC-16/ARC check value
`0xBB3D`. -/
theorem C2_check_value_is_not_arc :
    ¬ ((octoclock_calculate_crc (sim_env sim_bootloader never) (sim_world "fw.bin" check_input)
        { sim_session with actual_filepath := "fw.bin", size := 9 }).crc = 0xBB3D) := by
  rw [calculate_crc_eq_spec_crc _ _ _ check_input (by simp [sim_world]) rfl,
    spec_crc_check_input]
  decide

/-- C2, amended: for the nine ASCII bytes `123456789` the checksum that
`octoclock_calculate_crc` leaves in the session is `0x4B37`, the check value of the
variant that starts from `0xFFFF` (CRC-16/MODBUS). -/
theorem C2_crc_of_check_input (env : Env) (w : World) (session : octoclock_session_t)
    (hfile : w.files session.actual_filepath = some check_input)
    (hsize : session.size = 9) :
    (octoclock_calculate_crc env w session).crc = 0x4B37 := by
  rw [calculate_crc_eq_spec_crc env w session check_input hfile hsize, spec_crc_check_input]

/-- Witness of C2: the image `123456789` stored at `fw.bin`. -/
theorem C2_crc_of_check_input_witness :
    (octoclock_calculate_crc (sim_env sim_bootloader never) (sim_world "fw.bin" check_input)
        { sim_session with actual_filepath := "fw.bin", size := 9 }).crc = 0x4B37 :=
  C2_crc_of_check_input _ _ _ (by simp [sim_world]) rfl

/-- Witness of C3: the 300-byte image at `fw.bin` is validated with two blocks. -/
theorem C3_num_blocks_is_ceil_witness :
    ∃ validated,
      (octoclock_validate_firmware_image (sim_env sim_bootloader never)
        (sim_world "fw.bin" demo_image)
        { sim_session with given_filepath := "fw.bin" }).result = .ok validated
      ∧ validated.size = 300 ∧ validated.num_blocks = 2 := by
  obtain ⟨validated, hok, hsize, hblocks, _⟩ :=
    C3_num_blocks_is_ceil (sim_env sim_bootloader never) (sim_world "fw.bin" demo_image)
      { sim_session with given_filepath := "fw.bin" } demo_image
      (Or.inl ⟨sim_extension_bin, by simp [sim_world]⟩)
      (by rw [demo_image_length]; decide)
  refine ⟨validated, hok, by rw [hsize, demo_image_length], ?_⟩
  rw [hblocks, demo_image_length, ← block_count_eq_ceil]
  rfl

theorem huge_image_length : huge_image.length = 2 ^ 32 :=
  List.length_replicate _ _

/-- C10, the code at a failing input: for a `.bin` file of `2 ^ 32` bytes, which exceeds
the maximum of 122880 bytes, `octoclock_validate_firmware_image` returns normally, with
`session.size = 0`. -/
theorem C10_size_wraps_at_4GiB :
    huge_image.length > OCTOCLOCK_FIRMWARE_MAX_SIZE_BYTES
      ∧ ∃ validated,
        (octoclock_validate_firmware_image (sim_env sim_bootloader never)
          (sim_world "fw.bin" huge_image)
          { sim_session with given_filepath := "fw.bin" }).result = .ok validated
        ∧ validated.size = 0 ∧ validated.num_blocks = 0 := by
  have hfile : (sim_world "fw.bin" huge_image).files
      ({ sim_session with given_filepath := "fw.bin" } : octoclock_session_t).given_filepath
      = some huge_image := by
    show (if "fw.bin" = "fw.bin" then some huge_image else none) = some huge_image
    rw [if_pos rfl]
  refine ⟨by rw [huge_image_length]; decide, ?_⟩
  rw [validate_bin (sim_env sim_bootloader never) _ _ huge_image hfile sim_extension_bin,
    huge_image_length, if_neg (by decide)]
  refine ⟨_, rfl, ?_, ?_⟩
  · simp only [calculate_crc_fields, bin_session, huge_image_length]
    decide
  · simp only [calculate_crc_fields, bin_session, huge_image_length]
    decide

/-! ## The verify stage -/

theorem verify_eq_loop (env : Env) (w : World) (session : octoclock_session_t) :
    octoclock_verify env w session
      = verify_loop env session.num_blocks 0 (after_rand w) session (verify_start env w)
          (ifstream_open (after_rand w) session.actual_filepath) := rfl

theorem verify_passed_iff (env : Env) (w : World) (p : octoclock_packet_t)
    (image : List uint8_t) (i : Nat) :
    verify_passed env w p image 0 i = true ↔
      env.PACKET_MATCHES .READ_FW_ACK (verify_request p 0 i) (verify_reply env w p 0 i).2
          (verify_reply env w p 0 i).1 = true
        ∧ (verify_reply env w p 0 i).2.data.take (min 256 (image.length - 256 * i))
            = (image.drop (256 * i)).take (min 256 (image.length - 256 * i)) := by
  have hb : block_bytes image i
      = (image.drop (256 * i)).take (min 256 (image.length - 256 * i)) := by
    rw [block_bytes, List.take_eq_take]
    simp only [List.length_drop]
    omega
  unfold verify_passed
  rw [Nat.zero_add, block_bytes_length, Bool.and_eq_true, decide_eq_true_eq, hb]

theorem verify_all_passed (env : Env) (w : World) (session : octoclock_session_t)
    (image : List uint8_t) (himg : image_of w session.actual_filepath = image)
    (hall : ∀ j < session.num_blocks,
      verify_passed env (after_rand w) (verify_start env w) image 0 j = true) :
    ∃ d, octoclock_verify env w session
      = ⟨remove_if_from_hex ((after_rand w).send
          (verify_requests (verify_start env w) 0 session.num_blocks)) session,
          .ok { session with data_in := d }⟩ := by
  rw [verify_eq_loop]
  exact verify_loop_all_passed env image session.num_blocks 0 (after_rand w) session
    (verify_start env w) _ (by rw [← himg]; exact stream_at_image_of _ _) hall

theorem verify_first_failure (env : Env) (w : World) (session : octoclock_session_t)
    (image : List uint8_t) (k : Nat) (himg : image_of w session.actual_filepath = image)
    (hk : k < session.num_blocks)
    (hpre : ∀ j < k, verify_passed env (after_rand w) (verify_start env w) image 0 j = true)
    (hfail : verify_passed env (after_rand w) (verify_start env w) image 0 k = false) :
    octoclock_verify env w session
      = ⟨remove_if_from_hex ((after_rand w).send
          (verify_requests (verify_start env w) 0 (k + 1))) session,
          .error verify_failed⟩ := by
  rw [verify_eq_loop]
  exact verify_loop_first_failure env image session.num_blocks 0 (after_rand w) session
    (verify_start env w) _ k (by rw [← himg]; exact stream_at_image_of _ _) hk hpre hfail

/-- C5: `octoclock_verify` returns normally if and only if, for every block index
`i < num_blocks`, the response to the read-firmware request for address `256 * i`
matches the read-firmware acknowledgment and its first `min 256 (size - 256 * i)` data
bytes equal the image bytes from offset `256 * i` (no other response byte enters the
condition); when it does not return normally it throws the verify error. -/
theorem C5_verify_succeeds_iff (env : Env) (w : World) (session : octoclock_session_t)
    (image : List uint8_t)
    (hfile : w.files session.actual_filepath = some image)
    (hsize : session.size = image.length)
    (hnb : session.num_blocks < 2 ^ 16) :
    ((octoclock_verify env w session).result.isOk = true ↔
        ∀ i < session.num_blocks,
          env.PACKET_MATCHES .READ_FW_ACK (verify_request (verify_start env w) 0 i)
              (verify_reply env w (verify_start env w) 0 i).2
              (verify_reply env w (verify_start env w) 0 i).1 = true
            ∧ (verify_reply env w (verify_start env w) 0 i).2.data.take
                  (min 256 (session.size - 256 * i))
                = (image.drop (256 * i)).take (min 256 (session.size - 256 * i)))
      ∧ ((octoclock_verify env w session).result.isOk = false →
          (octoclock_verify env w session).result = .error verify_failed)
      ∧ ∀ i < session.num_blocks,
          (verify_request (verify_start env w) 0 i).code = .READ_FW_CMD
            ∧ (verify_request (verify_start env w) 0 i).addr = 256 * i := by
  have hiff : ∀ i, verify_passed env (after_rand w) (verify_start env w) image 0 i = true ↔
      env.PACKET_MATCHES .READ_FW_ACK (verify_request (verify_start env w) 0 i)
          (verify_reply env w (verify_start env w) 0 i).2
          (verify_reply env w (verify_start env w) 0 i).1 = true
        ∧ (verify_reply env w (verify_start env w) 0 i).2.data.take
              (min 256 (session.size - 256 * i))
            = (image.drop (256 * i)).take (min 256 (session.size - 256 * i)) := by
    intro i
    rw [hsize]
    exact verify_passed_iff env (after_rand w) (verify_start env w) image i
  refine ⟨?_, ?_, ?_⟩
  · rcases all_or_first_failure
      (fun j => verify_passed env (after_rand w) (verify_start env w) image 0 j)
      session.num_blocks with hall | ⟨k, hk, hpre, hfail⟩
    · obtain ⟨d, hd⟩ := verify_all_passed env w session image (image_of_eq hfile) hall
      rw [hd]
      exact ⟨fun _ i hi => (hiff i).mp (hall i hi), fun _ => rfl⟩
    · rw [verify_first_failure env w session image k (image_of_eq hfile) hk hpre hfail]
      constructor
      · intro h
        simp [Except.isOk, Except.toBool] at h
      · intro h
        have := (hiff k).mpr (h k hk)
        rw [hfail] at this
        cases this
  · rcases all_or_first_failure
      (fun j => verify_passed env (after_rand w) (verify_start env w) image 0 j)
      session.num_blocks with hall | ⟨k, hk, hpre, hfail⟩
    · obtain ⟨d, hd⟩ := verify_all_passed env w session image (image_of_eq hfile) hall
      rw [hd]
      intro h
      simp [Except.isOk, Except.toBool] at h
    · rw [verify_first_failure env w session image k (image_of_eq hfile) hk hpre hfail]
      intro _
      rfl
  · intro i hi
    refine ⟨rfl, ?_⟩
    simp only [verify_request]
    omega

/-! ## Composition of the stages -/

theorem run_stages_of_reset_error (env : Env) (w : World) (session : octoclock_session_t)
    (e : exception) (h : (octoclock_reset_into_bootloader env w session).result = .error e) :
    run_stages env w session
      = ⟨(octoclock_reset_into_bootloader env w session).world, .error e⟩ := by
  unfold run_stages
  rw [burn_of_reset_error env w session e h]

theorem run_stages_of_reset_ok (env : Env) (w : World) (session s1 : octoclock_session_t)
    (h : (octoclock_reset_into_bootloader env w session).result = .ok s1) :
    run_stages env w session
      = stages_after_reset env (octoclock_reset_into_bootloader env w session).world s1 := by
  unfold run_stages
  rw [burn_of_reset_ok env w session s1 h]
  rfl

theorem finalize_of_acked (env : Env) (w : World) (session : octoclock_session_t)
    (h : finalize_acked env w = true) :
    octoclock_finalize env w session
      = ⟨finalized_world env w, .ok { session with
          data_in := (env.device (w.sent ++ [(xport_id.fw, finalize_request env w)])).2 }⟩ :=
  if_pos h

theorem finalize_of_nack (env : Env) (w : World) (session : octoclock_session_t)
    (h : finalize_acked env w = false) :
    octoclock_finalize env w session = ⟨finalized_world env w, .error finalize_failed⟩ :=
  if_neg (fun hc => Bool.noConfusion ((show finalize_acked env w = true from hc).symm.trans h))

theorem stages_of_burn_error (env : Env) (w w2 : World) (session : octoclock_session_t)
    (e : exception) (hb : burn_after_reset env w session = ⟨w2, .error e⟩) :
    stages_after_reset env w session = ⟨w2, .error e⟩ := by
  unfold stages_after_reset
  rw [hb]

theorem stages_of_verify_error (env : Env) (w w2 w3 : World)
    (session s2 : octoclock_session_t) (e : exception)
    (hb : burn_after_reset env w session = ⟨w2, .ok s2⟩)
    (hv : octoclock_verify env w2 s2 = ⟨w3, .error e⟩) :
    stages_after_reset env w session = ⟨w3, .error e⟩ := by
  unfold stages_after_reset
  rw [hb]
  simp only
  rw [hv]

theorem stages_of_finalize_error (env : Env) (w w2 w3 w4 : World)
    (session s2 s3 : octoclock_session_t) (e : exception)
    (hb : burn_after_reset env w session = ⟨w2, .ok s2⟩)
    (hv : octoclock_verify env w2 s2 = ⟨w3, .ok s3⟩)
    (hf : octoclock_finalize env w3 s3 = ⟨w4, .error e⟩) :
    stages_after_reset env w session = ⟨w4, .error e⟩ := by
  unfold stages_after_reset
  rw [hb]
  simp only
  rw [hv]
  simp only
  rw [hf]

theorem stages_of_finalize_ok (env : Env) (w w2 w3 w4 : World)
    (session s2 s3 s4 : octoclock_session_t)
    (hb : burn_after_reset env w session = ⟨w2, .ok s2⟩)
    (hv : octoclock_verify env w2 s2 = ⟨w3, .ok s3⟩)
    (hf : octoclock_finalize env w3 s3 = ⟨w4, .ok s4⟩) :
    stages_after_reset env w session = ⟨w4, .ok true⟩ := by
  unfold stages_after_reset
  rw [hb]
  simp only
  rw [hv]
  simp only
  rw [hf]

theorem stages_prepare_nack (env : Env) (w : World) (session : octoclock_session_t)
    (h : prepare_acked env w session = false) :
    stages_after_reset env w session
      = ⟨remove_if_from_hex (prepared_world env w session) session, .error prepare_failed⟩ :=
  stages_of_burn_error env w _ session _ (burn_after_reset_nack env w session h)

theorem stages_transfer_nack (env : Env) (w : World) (session : octoclock_session_t)
    (image : List uint8_t) (k : Nat) (himg : image_of w session.actual_filepath = image)
    (hprep : prepare_acked env w session = true) (hk : k < session.num_blocks)
    (hack : ∀ j < k, transfer_acked env (prepared_world env w session)
      (prepare_request env w session) image 0 j = true)
    (hnack : transfer_acked env (prepared_world env w session)
      (prepare_request env w session) image 0 k = false) :
    stages_after_reset env w session
      = ⟨remove_if_from_hex ((prepared_world env w session).send
          (transfer_requests (prepare_request env w session) image 0 (k + 1))) session,
          .error transfer_failed⟩ :=
  stages_of_burn_error env w _ session _
    (burn_after_reset_first_nack env w session image k himg hprep hk hack hnack)

theorem stages_verify_failure (env : Env) (w : World) (session : octoclock_session_t)
    (image : List uint8_t) (k : Nat) (himg : image_of w session.actual_filepath = image)
    (hprep : prepare_acked env w session = true)
    (hack : ∀ j < session.num_blocks, transfer_acked env (prepared_world env w session)
      (prepare_request env w session) image 0 j = true)
    (hk : k < session.num_blocks)
    (hpre : ∀ j < k, verify_passed env (after_rand (transferred_world env w session image))
      (verify_start env (transferred_world env w session image)) image 0 j = true)
    (hfail : verify_passed env (after_rand (transferred_world env w session image))
      (verify_start env (transferred_world env w session image)) image 0 k = false) :
    stages_after_reset env w session
      = ⟨remove_if_from_hex ((after_rand (transferred_world env w session image)).send
          (verify_requests (verify_start env (transferred_world env w session image)) 0
            (k + 1))) session,
          .error verify_failed⟩ := by
  obtain ⟨d, hd⟩ := burn_after_reset_all_acked env w session image himg hprep hack
  exact stages_of_verify_error env w _ _ session _ _ hd
    (verify_first_failure env (transferred_world env w session image)
      { session with data_in := d } image k himg hk hpre hfail)

theorem stages_all_verified (env : Env) (w : World) (session : octoclock_session_t)
    (image : List uint8_t) (himg : image_of w session.actual_filepath = image)
    (hprep : prepare_acked env w session = true)
    (hack : ∀ j < session.num_blocks, transfer_acked env (prepared_world env w session)
      (prepare_request env w session) image 0 j = true)
    (hall : ∀ j < session.num_blocks,
      verify_passed env (after_rand (transferred_world env w session image))
        (verify_start env (transferred_world env w session image)) image 0 j = true) :
    stages_after_reset env w session
      = ⟨finalized_world env (verified_world env (transferred_world env w session image) session),
          if finalize_acked env (verified_world env (transferred_world env w session image)
            session) then .ok true else .error finalize_failed⟩ := by
  obtain ⟨d, hd⟩ := burn_after_reset_all_acked env w session image himg hprep hack
  obtain ⟨d2, hd2⟩ := verify_all_passed env (transferred_world env w session image)
    { session with data_in := d } image himg hall
  cases hfa : finalize_acked env (verified_world env (transferred_world env w session image)
      session) with
  | true =>
    rw [if_pos rfl]
    exact stages_of_finalize_ok env w _ _ _ session _ _ _ hd hd2
      (finalize_of_acked env _ _ hfa)
  | false =>
    rw [if_neg (by simp)]
    exact stages_of_finalize_error env w _ _ _ session _ _ _ hd hd2
      (finalize_of_nack env _ _ hfa)

/-! ## Session setup and the loader -/

theorem loader_of_setup_error (env : Env) (w : World) (args : image_loader_args_t)
    (e : exception)
    (h : (octoclock_setup_session env w env.uninit_session args.args
      args.firmware_path).result = .error e) :
    octoclock_image_loader env w args = ⟨loader_world env w args, .error e⟩ := by
  unfold octoclock_image_loader loader_world
  rcases hr : octoclock_setup_session env w env.uninit_session args.args args.firmware_path
    with ⟨w1, r⟩
  rw [hr] at h
  simp only at h
  subst h
  rfl

theorem loader_of_setup_ok (env : Env) (w : World) (args : image_loader_args_t)
    (s : octoclock_session_t)
    (h : (octoclock_setup_session env w env.uninit_session args.args
      args.firmware_path).result = .ok s) :
    octoclock_image_loader env w args =
      if (!s.found || !args.load_firmware) = true then ⟨loader_world env w args, .ok false⟩
      else run_stages env (loader_world env w args) (loader_session env w args) := by
  unfold octoclock_image_loader loader_world loader_session
  rcases hr : octoclock_setup_session env w env.uninit_session args.args args.firmware_path
    with ⟨w1, r⟩
  rw [hr] at h
  simp only at h
  subst h
  rfl

theorem validate_world (env : Env) (w : World) (session : octoclock_session_t) :
    (octoclock_validate_firmware_image env w session).world.sent = w.sent
      ∧ (octoclock_validate_firmware_image env w session).world.removed = w.removed
      ∧ (octoclock_validate_firmware_image env w session).world.rand_calls = w.rand_calls := by
  unfold octoclock_validate_firmware_image
  split
  · exact ⟨rfl, rfl, rfl⟩
  · simp only
    split
    · exact ⟨rfl, rfl, rfl⟩
    · rename_i w1 s1 hprep
      have hw1 : w1.sent = w.sent ∧ w1.removed = w.removed ∧ w1.rand_calls = w.rand_calls := by
        split at hprep
        · simp only [Option.some.injEq, Prod.mk.injEq] at hprep
          rw [← hprep.1]
          exact ⟨rfl, rfl, rfl⟩
        · split at hprep
          · simp only [Option.some.injEq, Prod.mk.injEq] at hprep
            rw [← hprep.1]
            exact ⟨rfl, rfl, rfl⟩
          · cases hprep
      split
      · exact hw1
      · split
        · exact hw1
        · exact hw1

theorem validate_num_blocks (env : Env) (w : World) (session s : octoclock_session_t)
    (h : (octoclock_validate_firmware_image env w session).result = .ok s) :
    s.num_blocks < 2 ^ 16 := by
  unfold octoclock_validate_firmware_image at h
  split at h
  · cases h
  · simp only at h
    split at h
    · cases h
    · split at h
      · cases h
      · split at h
        · cases h
        · simp only [Except.ok.injEq] at h
          rw [← h]
          exact Nat.mod_lt _ (by norm_num)

theorem setup_world (env : Env) (w : World) (session : octoclock_session_t)
    (args : device_addr_t) (filepath : String) :
    (octoclock_setup_session env w session args filepath).world.sent = w.sent
      ∧ (octoclock_setup_session env w session args filepath).world.removed = w.removed
      ∧ (octoclock_setup_session env w session args filepath).world.rand_calls
          = w.rand_calls := by
  unfold octoclock_setup_session
  simp only
  split
  · exact ⟨rfl, rfl, rfl⟩
  · split
    · split <;> exact ⟨rfl, rfl, rfl⟩
    · split
      · exact ⟨rfl, rfl, rfl⟩
      · rename_i given hgiven
        split
        · rename_i w1 e hv
          have := validate_world env w
            { session with dev_addr := (env.octoclock_find args).headD [],
                           given_filepath := given }
          rw [hv] at this
          exact this
        · rename_i w1 s1 hv
          have := validate_world env w
            { session with dev_addr := (env.octoclock_find args).headD [],
                           given_filepath := given }
          rw [hv] at this
          exact this

theorem setup_found (env : Env) (w : World) (session s : octoclock_session_t)
    (args : device_addr_t) (filepath : String)
    (h : (octoclock_setup_session env w session args filepath).result = .ok s)
    (hfound : s.found = true) : s.num_blocks < 2 ^ 16 := by
  unfold octoclock_setup_session at h
  simp only at h
  split at h
  · simp only [Except.ok.injEq] at h
    rw [← h] at hfound
    cases hfound
  · split at h
    · split at h <;> cases h
    · split at h
      · cases h
      · rename_i given hgiven
        split at h
        · cases h
        · rename_i w1 s1 hv
          have h2 : s = { s1 with
              dev_addr := (dict_index (dict_index s1.dev_addr "addr").2 "addr").2
              ctrl_xport := some (dict_index s1.dev_addr "addr").1
              fw_xport := some (dict_index (dict_index s1.dev_addr "addr").2 "addr").1 } :=
            (Except.ok.inj h).symm
          rw [h2]
          exact validate_num_blocks env w _ s1 (by rw [hv])

theorem setup_one_error (env : Env) (w w1 : World) (session : octoclock_session_t)
    (args dev : device_addr_t) (filepath : String) (e : exception)
    (hone : env.octoclock_find args = [dev]) (hpath : filepath ≠ "")
    (hv : octoclock_validate_firmware_image env w
      { session with dev_addr := dev, given_filepath := filepath } = ⟨w1, .error e⟩) :
    octoclock_setup_session env w session args filepath = ⟨w1, .error e⟩ := by
  unfold octoclock_setup_session
  simp only [hone, List.length_singleton, one_ne_zero, if_false, gt_iff_lt, lt_self_iff_false,
    List.headD_cons, hpath]
  rw [hv]

theorem setup_one_ok (env : Env) (w w1 : World) (session s1 : octoclock_session_t)
    (args dev : device_addr_t) (filepath : String)
    (hone : env.octoclock_find args = [dev]) (hpath : filepath ≠ "")
    (hv : octoclock_validate_firmware_image env w
      { session with dev_addr := dev, given_filepath := filepath } = ⟨w1, .ok s1⟩) :
    octoclock_setup_session env w session args filepath = make_connected_xports w1 s1 := by
  unfold octoclock_setup_session
  simp only [hone, List.length_singleton, one_ne_zero, if_false, gt_iff_lt, lt_self_iff_false,
    List.headD_cons, hpath]
  rw [hv]

/-! ## Traces -/

theorem lookup_dict_index (d : device_addr_t) (k k2 v : String) (h : d.lookup k2 = some v) :
    (dict_index d k).2.lookup k2 = some v := by
  unfold dict_index
  split
  · exact h
  · simp [List.lookup_append, h]

theorem dict_index_of_lookup (d : device_addr_t) (k v : String) (h : d.lookup k = some v) :
    dict_index d k = (v, d) := by
  simp [dict_index, h]

theorem reset_in_bootloader (env : Env) (w : World) (session : octoclock_session_t)
    (h : session.dev_addr.lookup "type" = some "octoclock-bootloader") :
    octoclock_reset_into_bootloader env w session = ⟨w, .ok session⟩ := by
  unfold octoclock_reset_into_bootloader
  simp [dict_index_of_lookup _ _ _ h]

theorem with_code_append (c : packet_code) (a b : List (xport_id × octoclock_packet_t)) :
    with_code c (a ++ b) = with_code c a ++ with_code c b := by
  simp [with_code, List.filter_append]

theorem with_code_none (c : packet_code) (l : List (xport_id × octoclock_packet_t))
    (h : ∀ q ∈ l, q.2.code ≠ c) : with_code c l = [] := by
  unfold with_code
  rw [List.map_eq_nil_iff, List.filter_eq_nil_iff]
  intro q hq
  simpa using h q hq

theorem with_code_all (c : packet_code) (l : List (xport_id × octoclock_packet_t))
    (h : ∀ q ∈ l, q.2.code = c) : with_code c l = l.map (fun q => q.2) := by
  unfold with_code
  rw [List.filter_eq_self.mpr]
  intro q hq
  simpa using h q hq

theorem transfer_requests_code (p : octoclock_packet_t) (image : List uint8_t) (i m : Nat) :
    ∀ q ∈ transfer_requests p image i m, q.2.code = packet_code.FILE_TRANSFER_CMD := by
  intro q hq
  simp only [transfer_requests, List.mem_map] at hq
  obtain ⟨j, _, rfl⟩ := hq
  rfl

theorem verify_requests_code (p : octoclock_packet_t) (i m : Nat) :
    ∀ q ∈ verify_requests p i m, q.2.code = packet_code.READ_FW_CMD := by
  intro q hq
  simp only [verify_requests, List.mem_map] at hq
  obtain ⟨j, _, rfl⟩ := hq
  rfl

theorem codes_of_transfer_requests (p : octoclock_packet_t) (image : List uint8_t)
    (i m : Nat) :
    codes_of (transfer_requests p image i m) = List.replicate m packet_code.FILE_TRANSFER_CMD := by
  rw [List.eq_replicate_iff]
  refine ⟨by simp [codes_of, transfer_requests], ?_⟩
  intro c hc
  simp only [codes_of, List.mem_map] at hc
  obtain ⟨q, hq, rfl⟩ := hc
  exact transfer_requests_code p image i m q hq

theorem codes_of_verify_requests (p : octoclock_packet_t) (i m : Nat) :
    codes_of (verify_requests p i m) = List.replicate m packet_code.READ_FW_CMD := by
  rw [List.eq_replicate_iff]
  refine ⟨by simp [codes_of, verify_requests], ?_⟩
  intro c hc
  simp only [codes_of, List.mem_map] at hc
  obtain ⟨q, hq, rfl⟩ := hc
  exact verify_requests_code p i m q hq

theorem codes_of_append (a b : List (xport_id × octoclock_packet_t)) :
    codes_of (a ++ b) = codes_of a ++ codes_of b := by
  simp [codes_of]

theorem transfer_requests_addr (p : octoclock_packet_t) (image : List uint8_t) (m : Nat)
    (hm : m ≤ 2 ^ 16) :
    (transfer_requests p image 0 m).map (fun q => q.2.addr)
      = (List.range m).map (fun i => i * 256) := by
  unfold transfer_requests
  rw [List.map_map]
  apply List.map_congr_left
  intro j hj
  have := List.mem_range.mp hj
  simp only [Function.comp, transfer_request]
  omega

theorem verify_requests_addr (p : octoclock_packet_t) (m : Nat) (hm : m ≤ 2 ^ 16) :
    (verify_requests p 0 m).map (fun q => q.2.addr)
      = (List.range m).map (fun i => i * 256) := by
  unfold verify_requests
  rw [List.map_map]
  apply List.map_congr_left
  intro j hj
  have := List.mem_range.mp hj
  simp only [Function.comp, verify_request]
  omega

theorem finalized_sent (env : Env) (w : World) :
    (finalized_world env w).sent = w.sent ++ [(xport_id.fw, finalize_request env w)] := rfl

theorem verified_sent (env : Env) (w : World) (session : octoclock_session_t) :
    (verified_world env w session).sent
      = w.sent ++ verify_requests (verify_start env w) 0 session.num_blocks := by
  rw [verified_world, remove_if_from_hex_sent]
  rfl

theorem prepared_sent (env : Env) (w : World) (session : octoclock_session_t) :
    (prepared_world env w session).sent
      = w.sent ++ [(xport_id.fw, prepare_request env w session)] := rfl

theorem transferred_sent (env : Env) (w : World) (session : octoclock_session_t)
    (image : List uint8_t) :
    (transferred_world env w session image).sent
      = w.sent ++ ((xport_id.fw, prepare_request env w session)
          :: transfer_requests (prepare_request env w session) image 0 session.num_blocks) := by
  show (w.sent ++ [_]) ++ _ = _
  rw [List.append_assoc, List.singleton_append]

theorem complete_sent (env : Env) (w : World) (session : octoclock_session_t)
    (image : List uint8_t) :
    (finalized_world env
        (verified_world env (transferred_world env w session image) session)).sent
      = w.sent ++ complete_requests env w session image := by
  rw [finalized_sent, verified_sent, transferred_sent, complete_requests]
  simp only [List.append_assoc, List.cons_append]

theorem codes_of_complete (env : Env) (w : World) (session : octoclock_session_t)
    (image : List uint8_t) :
    codes_of (complete_requests env w session image)
      = expected_codes false session.num_blocks := by
  unfold complete_requests expected_codes
  rw [show ∀ (q : xport_id × octoclock_packet_t) l, codes_of (q :: l) = q.2.code :: codes_of l
    from fun _ _ => rfl, codes_of_append, codes_of_append, codes_of_transfer_requests,
    codes_of_verify_requests]
  rfl

theorem with_code_transfer_complete (env : Env) (w : World) (session : octoclock_session_t)
    (image : List uint8_t) :
    with_code .FILE_TRANSFER_CMD (complete_requests env w session image)
      = (transfer_requests (prepare_request env w session) image 0 session.num_blocks).map
          (fun q => q.2) := by
  unfold complete_requests
  rw [← List.singleton_append, with_code_append, with_code_append, with_code_append,
    with_code_none _ [_] (by simp [prepare_request]),
    with_code_all _ _ (transfer_requests_code _ _ _ _),
    with_code_none _ (verify_requests _ _ _)
      (fun q hq => by rw [verify_requests_code _ _ _ q hq]; decide),
    with_code_none _ [_] (by simp [finalize_request])]
  simp

theorem with_code_verify_complete (env : Env) (w : World) (session : octoclock_session_t)
    (image : List uint8_t) :
    with_code .READ_FW_CMD (complete_requests env w session image)
      = (verify_requests (verify_start env (transferred_world env w session image)) 0
          session.num_blocks).map (fun q => q.2) := by
  unfold complete_requests
  rw [← List.singleton_append, with_code_append, with_code_append, with_code_append,
    with_code_none _ [_] (by simp [prepare_request]),
    with_code_none _ (transfer_requests _ _ _ _)
      (fun q hq => by rw [transfer_requests_code _ _ _ _ q hq]; decide),
    with_code_all _ _ (verify_requests_code _ _ _),
    with_code_none _ [_] (by simp [finalize_request])]
  simp

theorem make_connected_fields (w : World) (s : octoclock_session_t) :
    (make_connected_xports w s).world.files = w.files
      ∧ (make_connected_xports w s).world.sent = w.sent
      ∧ ∃ s2, (make_connected_xports w s).result = .ok s2
        ∧ s2.found = s.found ∧ s2.size = s.size ∧ s2.crc = s.crc
        ∧ s2.num_blocks = s.num_blocks ∧ s2.from_hex = s.from_hex
        ∧ s2.actual_filepath = s.actual_filepath
        ∧ s2.dev_addr = (dict_index (dict_index s.dev_addr "addr").2 "addr").2 :=
  ⟨rfl, rfl, _, rfl, rfl, rfl, rfl, rfl, rfl, rfl, rfl⟩

/-! ## The complete run -/

/-- What `octoclock_setup_session` leaves for a `.bin` image given by an explicit path
when exactly one device `dev` is found. -/
theorem setup_bin (env : Env) (w : World) (args : image_loader_args_t) (dev : device_addr_t)
    (image : List uint8_t)
    (hone : env.octoclock_find args.args = [dev])
    (hpath : args.firmware_path ≠ "")
    (hext : env.fs_extension args.firmware_path = ".bin")
    (hfile : w.files args.firmware_path = some image)
    (hmax : image.length ≤ OCTOCLOCK_FIRMWARE_MAX_SIZE_BYTES) :
    octoclock_setup_session env w env.uninit_session args.args args.firmware_path
      = make_connected_xports w (octoclock_calculate_crc env w
          (bin_session { env.uninit_session with
            dev_addr := dev, given_filepath := args.firmware_path } image)) := by
  have hM : OCTOCLOCK_FIRMWARE_MAX_SIZE_BYTES = 122880 := rfl
  have hlen : image.length % 2 ^ 32 = image.length := Nat.mod_eq_of_lt (by omega)
  apply setup_one_ok env w w env.uninit_session _ args.args dev args.firmware_path hone hpath
  rw [validate_bin env w _ image hfile hext, hlen, if_neg (by omega)]

theorem loader_bin (env : Env) (w : World) (args : image_loader_args_t) (dev : device_addr_t)
    (image : List uint8_t)
    (hone : env.octoclock_find args.args = [dev])
    (hpath : args.firmware_path ≠ "")
    (hext : env.fs_extension args.firmware_path = ".bin")
    (hfile : w.files args.firmware_path = some image)
    (hmax : image.length ≤ OCTOCLOCK_FIRMWARE_MAX_SIZE_BYTES) :
    (loader_world env w args).files = w.files
      ∧ (loader_world env w args).sent = w.sent
      ∧ (loader_session env w args).found = env.uninit_session.found
      ∧ (loader_session env w args).num_blocks = block_count image.length
      ∧ (loader_session env w args).size = image.length
      ∧ (loader_session env w args).from_hex = false
      ∧ (loader_session env w args).actual_filepath = args.firmware_path
      ∧ (∀ v, dev.lookup "type" = some v →
          (loader_session env w args).dev_addr.lookup "type" = some v)
      ∧ octoclock_image_loader env w args =
          if (!env.uninit_session.found || !args.load_firmware) = true then
            ⟨loader_world env w args, .ok false⟩
          else run_stages env (loader_world env w args) (loader_session env w args) := by
  have hM : OCTOCLOCK_FIRMWARE_MAX_SIZE_BYTES = 122880 := rfl
  have hlen : image.length % 2 ^ 32 = image.length := Nat.mod_eq_of_lt (by omega)
  have hbc : block_count image.length % 2 ^ 16 = block_count image.length := by
    have := block_count_le image.length
    exact Nat.mod_eq_of_lt (by omega)
  have hs := setup_bin env w args dev image hone hpath hext hfile hmax
  have hl := loader_of_setup_ok env w args _ (by rw [hs]; rfl)
  refine ⟨by rw [loader_world, hs]; rfl, by rw [loader_world, hs]; rfl,
    by rw [loader_session, hs]; rfl, ?_, ?_, by rw [loader_session, hs]; rfl,
    by rw [loader_session, hs]; rfl, ?_, hl⟩
  · rw [loader_session, hs]
    show block_count (image.length % 2 ^ 32) % 2 ^ 16 = _
    rw [hlen, hbc]
  · rw [loader_session, hs]
    exact hlen
  · intro v hv
    rw [loader_session, hs]
    exact lookup_dict_index _ _ _ _ (lookup_dict_index _ _ _ _ (lookup_dict_index _ _ _ _ hv))

theorem run_stages_in_bootloader (env : Env) (w : World) (session : octoclock_session_t)
    (h : session.dev_addr.lookup "type" = some "octoclock-bootloader") :
    run_stages env w session = stages_after_reset env w session := by
  have hr := reset_in_bootloader env w session h
  rw [run_stages_of_reset_ok env w session session (by rw [hr]), hr]

/-- C6, amended: for every `.bin` image of at most 122880 bytes given by an explicit
path, when exactly one device is found and it is in bootloader mode, `load_firmware` is
requested, the `found` flag of the session record reads true, and the device matches
every acknowledgment of the run and returns the image bytes on every read,
`octoclock_image_loader` returns `true` after exactly one prepare-burn, `n`
file transfers at addresses `0, 256, ..., 256 * (n - 1)`, `n` read-firmware commands at
the same addresses and one finalize, `n` being the ceiling of `size / 256`. -/
theorem C6_complete_run (env : Env) (w : World) (args : image_loader_args_t)
    (dev : device_addr_t) (image : List uint8_t)
    (hone : env.octoclock_find args.args = [dev])
    (hboot : dev.lookup "type" = some "octoclock-bootloader")
    (hpath : args.firmware_path ≠ "")
    (hext : env.fs_extension args.firmware_path = ".bin")
    (hfile : w.files args.firmware_path = some image)
    (hmax : image.length ≤ OCTOCLOCK_FIRMWARE_MAX_SIZE_BYTES)
    (hload : args.load_firmware = true)
    (hfound : env.uninit_session.found = true)
    (hprep : prepare_acked env (loader_world env w args) (loader_session env w args) = true)
    (hack : ∀ j < (loader_session env w args).num_blocks,
      transfer_acked env
        (prepared_world env (loader_world env w args) (loader_session env w args))
        (prepare_request env (loader_world env w args) (loader_session env w args))
        image 0 j = true)
    (hver : ∀ j < (loader_session env w args).num_blocks,
      verify_passed env
        (after_rand (transferred_world env (loader_world env w args)
          (loader_session env w args) image))
        (verify_start env (transferred_world env (loader_world env w args)
          (loader_session env w args) image))
        image 0 j = true)
    (hfin : finalize_acked env
      (verified_world env
        (transferred_world env (loader_world env w args) (loader_session env w args) image)
        (loader_session env w args)) = true) :
    (octoclock_image_loader env w args).result = .ok true
      ∧ (loader_session env w args).num_blocks = ⌈(image.length : ℚ) / 256⌉₊
      ∧ codes_of (sent_between w (octoclock_image_loader env w args).world)
          = packet_code.PREPARE_FW_BURN_CMD
            :: (List.replicate ⌈(image.length : ℚ) / 256⌉₊ packet_code.FILE_TRANSFER_CMD
              ++ (List.replicate ⌈(image.length : ℚ) / 256⌉₊ packet_code.READ_FW_CMD
                ++ [packet_code.FINALIZE_BURNING_CMD]))
      ∧ (with_code .FILE_TRANSFER_CMD
            (sent_between w (octoclock_image_loader env w args).world)).map (fun p => p.addr)
          = (List.range ⌈(image.length : ℚ) / 256⌉₊).map (fun i => i * 256)
      ∧ (with_code .READ_FW_CMD
            (sent_between w (octoclock_image_loader env w args).world)).map (fun p => p.addr)
          = (List.range ⌈(image.length : ℚ) / 256⌉₊).map (fun i => i * 256) := by
  obtain ⟨hWf, hWs, hSf, hSn, _, _, hSp, hSt, hl⟩ :=
    loader_bin env w args dev image hone hpath hext hfile hmax
  have hM : OCTOCLOCK_FIRMWARE_MAX_SIZE_BYTES = 122880 := rfl
  have hn16 : (loader_session env w args).num_blocks ≤ 2 ^ 16 := by
    have := block_count_le image.length
    omega
  have himg : image_of (loader_world env w args) (loader_session env w args).actual_filepath
      = image := by
    rw [image_of, hWf, hSp, hfile]
    rfl
  have hrun : octoclock_image_loader env w args
      = ⟨finalized_world env (verified_world env (transferred_world env (loader_world env w args)
          (loader_session env w args) image) (loader_session env w args)), .ok true⟩ := by
    rw [hl, hfound, hload, if_neg (by simp),
      run_stages_in_bootloader env _ _ (hSt _ hboot),
      stages_all_verified env _ _ image himg hprep hack hver, hfin, if_pos rfl]
  have hsent : sent_between w (octoclock_image_loader env w args).world
      = complete_requests env (loader_world env w args) (loader_session env w args) image := by
    rw [hrun, sent_between, complete_sent, hWs, List.drop_left]
  rw [hsent, codes_of_complete, with_code_transfer_complete, with_code_verify_complete,
    List.map_map, List.map_map, ← block_count_eq_ceil, ← hSn]
  refine ⟨by rw [hrun], rfl, rfl, ?_, ?_⟩
  · exact transfer_requests_addr _ image _ hn16
  · exact verify_requests_addr _ _ hn16

/-! ## The complete run on the simulated device -/

set_option maxRecDepth 1000000 in
theorem demo_prepare_acked :
    prepare_acked (sim_env sim_bootloader never)
      (loader_world (sim_env sim_bootloader never) (sim_world "fw.bin" demo_image) demo_args)
      (loader_session (sim_env sim_bootloader never) (sim_world "fw.bin" demo_image) demo_args)
      = true := by
  decide

set_option maxRecDepth 1000000 in
theorem demo_transfer_acked :
    ∀ j < (loader_session (sim_env sim_bootloader never) (sim_world "fw.bin" demo_image)
        demo_args).num_blocks,
      transfer_acked (sim_env sim_bootloader never)
        (prepared_world (sim_env sim_bootloader never)
          (loader_world (sim_env sim_bootloader never) (sim_world "fw.bin" demo_image)
            demo_args)
          (loader_session (sim_env sim_bootloader never) (sim_world "fw.bin" demo_image)
            demo_args))
        (prepare_request (sim_env sim_bootloader never)
          (loader_world (sim_env sim_bootloader never) (sim_world "fw.bin" demo_image)
            demo_args)
          (loader_session (sim_env sim_bootloader never) (sim_world "fw.bin" demo_image)
            demo_args))
        demo_image 0 j = true := by
  decide

set_option maxRecDepth 1000000 in
theorem demo_verify_passed :
    ∀ j < (loader_session (sim_env sim_bootloader never) (sim_world "fw.bin" demo_image)
        demo_args).num_blocks,
      verify_passed (sim_env sim_bootloader never)
        (after_rand (transferred_world (sim_env sim_bootloader never)
          (loader_world (sim_env sim_bootloader never) (sim_world "fw.bin" demo_image)
            demo_args)
          (loader_session (sim_env sim_bootloader never) (sim_world "fw.bin" demo_image)
            demo_args) demo_image))
        (verify_start (sim_env sim_bootloader never)
          (transferred_world (sim_env sim_bootloader never)
            (loader_world (sim_env sim_bootloader never) (sim_world "fw.bin" demo_image)
              demo_args)
            (loader_session (sim_env sim_bootloader never) (sim_world "fw.bin" demo_image)
              demo_args) demo_image))
        demo_image 0 j = true := by
  decide

set_option maxRecDepth 1000000 in
theorem demo_finalize_acked :
    finalize_acked (sim_env sim_bootloader never)
      (verified_world (sim_env sim_bootloader never)
        (transferred_world (sim_env sim_bootloader never)
          (loader_world (sim_env sim_bootloader never) (sim_world "fw.bin" demo_image)
            demo_args)
          (loader_session (sim_env sim_bootloader never) (sim_world "fw.bin" demo_image)
            demo_args) demo_image)
        (loader_session (sim_env sim_bootloader never) (sim_world "fw.bin" demo_image)
          demo_args)) = true := by
  decide

theorem demo_image_blocks : ⌈(demo_image.length : ℚ) / 256⌉₊ = 2 := by
  rw [← block_count_eq_ceil, demo_image_length]
  rfl

/-- Witness of C6: the 300-byte image on the simulated device takes two file transfers
and two read-firmware commands, at addresses 0 then 256. -/
theorem C6_complete_run_witness :
    (octoclock_image_loader (sim_env sim_bootloader never) (sim_world "fw.bin" demo_image)
        demo_args).result = .ok true
      ∧ codes_of (sent_between (sim_world "fw.bin" demo_image)
          (octoclock_image_loader (sim_env sim_bootloader never)
            (sim_world "fw.bin" demo_image) demo_args).world)
          = [.PREPARE_FW_BURN_CMD, .FILE_TRANSFER_CMD, .FILE_TRANSFER_CMD, .READ_FW_CMD,
              .READ_FW_CMD, .FINALIZE_BURNING_CMD]
      ∧ (with_code .FILE_TRANSFER_CMD (sent_between (sim_world "fw.bin" demo_image)
          (octoclock_image_loader (sim_env sim_bootloader never)
            (sim_world "fw.bin" demo_image) demo_args).world)).map (fun p => p.addr)
          = [0, 256]
      ∧ (with_code .READ_FW_CMD (sent_between (sim_world "fw.bin" demo_image)
          (octoclock_image_loader (sim_env sim_bootloader never)
            (sim_world "fw.bin" demo_image) demo_args).world)).map (fun p => p.addr)
          = [0, 256] := by
  have h := C6_complete_run (sim_env sim_bootloader never) (sim_world "fw.bin" demo_image)
    demo_args sim_bootloader demo_image rfl (by decide) (by decide) sim_extension_bin
    (by simp [sim_world, demo_args]) (by rw [demo_image_length]; decide) rfl rfl
    demo_prepare_acked demo_transfer_acked demo_verify_passed demo_finalize_acked
  rw [demo_image_blocks] at h
  exact ⟨h.1, h.2.2.1, h.2.2.2.1, h.2.2.2.2⟩

/-- C6, counterexample: with the same image and the same device, but `load_firmware`
not requested, `octoclock_image_loader` returns `false` and sends nothing. -/
theorem C6_load_firmware_not_requested :
    (octoclock_image_loader (sim_env sim_bootloader never) (sim_world "fw.bin" demo_image)
        { demo_args with load_firmware := false }).result = .ok false
      ∧ sent_between (sim_world "fw.bin" demo_image)
          (octoclock_image_loader (sim_env sim_bootloader never)
            (sim_world "fw.bin" demo_image)
            { demo_args with load_firmware := false }).world = [] := by
  obtain ⟨_, hsent, _, _, _, _, _, _, hl⟩ :=
    loader_bin (sim_env sim_bootloader never) (sim_world "fw.bin" demo_image)
      { demo_args with load_firmware := false } sim_bootloader demo_image rfl (by decide)
      sim_extension_bin (by simp [sim_world, demo_args]) (by rw [demo_image_length]; decide)
  rw [hl, if_pos (by decide)]
  exact ⟨rfl, by rw [sent_between, hsent, List.drop_length]⟩

/-! ## The transfer abort -/

theorem reset_sent (env : Env) (w : World) (session : octoclock_session_t) :
    (octoclock_reset_into_bootloader env w session).world.sent
      = w.sent ++ reset_requests env w session := by
  rw [reset_world, reset_requests]
  split
  · simp
  · rfl

theorem reset_files (env : Env) (w : World) (session : octoclock_session_t) :
    (octoclock_reset_into_bootloader env w session).world.files = w.files
      ∧ (octoclock_reset_into_bootloader env w session).world.removed = w.removed := by
  rw [reset_world]
  split <;> exact ⟨rfl, rfl⟩

theorem reset_requests_code (env : Env) (w : World) (session : octoclock_session_t) :
    ∀ q ∈ reset_requests env w session, q.2.code = packet_code.RESET_CMD := by
  intro q hq
  unfold reset_requests at hq
  split at hq
  · cases hq
  · simp only [List.mem_singleton] at hq
    rw [hq]
    rfl

theorem remove_if_from_hex_files (w : World) (session : octoclock_session_t)
    (h : session.from_hex = true) :
    (remove_if_from_hex w session).files session.actual_filepath = none
      ∧ (remove_if_from_hex w session).removed = w.removed ++ [session.actual_filepath] := by
  simp [remove_if_from_hex, h, fs_remove]

/-- The outcome of `octoclock_burn` when the bootloader transition and the prepare-burn
exchange succeed and block `k` is the first whose file transfer is not acknowledged. -/
theorem burn_first_nack (env : Env) (w : World) (session s1 : octoclock_session_t)
    (image : List uint8_t) (k : Nat)
    (hfile : w.files session.actual_filepath = some image)
    (hreset : (octoclock_reset_into_bootloader env w session).result = .ok s1)
    (hprep : prepare_acked env (octoclock_reset_into_bootloader env w session).world session
      = true)
    (hk : k < session.num_blocks)
    (hack : ∀ j < k, transfer_acked env
      (prepared_world env (octoclock_reset_into_bootloader env w session).world session)
      (prepare_request env (octoclock_reset_into_bootloader env w session).world session)
      image 0 j = true)
    (hnack : transfer_acked env
      (prepared_world env (octoclock_reset_into_bootloader env w session).world session)
      (prepare_request env (octoclock_reset_into_bootloader env w session).world session)
      image 0 k = false) :
    octoclock_burn env w session
      = ⟨remove_if_from_hex
          ((prepared_world env (octoclock_reset_into_bootloader env w session).world
            session).send
            (transfer_requests
              (prepare_request env (octoclock_reset_into_bootloader env w session).world
                session) image 0 (k + 1))) session,
          .error transfer_failed⟩ := by
  obtain ⟨dev, d, hs1⟩ := reset_session env w session s1 hreset
  rw [burn_of_reset_ok env w session s1 hreset]
  subst hs1
  have himg : image_of (octoclock_reset_into_bootloader env w session).world
      session.actual_filepath = image := by
    rw [image_of, (reset_files env w session).1, hfile]
    rfl
  exact burn_after_reset_first_nack env _ { session with dev_addr := dev, data_in := d }
    image k himg hprep hk hack hnack

/-- C7: when the bootloader transition and the prepare-burn exchange succeed and block
`k` is the first whose file transfer is not acknowledged, `octoclock_burn` throws the
transfer error after file transfers for exactly the blocks `0, ..., k`; it sends no
read-firmware and no finalize command, the stages of the loader end there with the same
error, and a temporary file converted from a `.hex` image is removed. -/
theorem C7_transfer_abort (env : Env) (w : World) (session s1 : octoclock_session_t)
    (image : List uint8_t) (k : Nat)
    (hfile : w.files session.actual_filepath = some image)
    (hnb : session.num_blocks ≤ 2 ^ 16)
    (hreset : (octoclock_reset_into_bootloader env w session).result = .ok s1)
    (hprep : prepare_acked env (octoclock_reset_into_bootloader env w session).world session
      = true)
    (hk : k < session.num_blocks)
    (hack : ∀ j < k, transfer_acked env
      (prepared_world env (octoclock_reset_into_bootloader env w session).world session)
      (prepare_request env (octoclock_reset_into_bootloader env w session).world session)
      image 0 j = true)
    (hnack : transfer_acked env
      (prepared_world env (octoclock_reset_into_bootloader env w session).world session)
      (prepare_request env (octoclock_reset_into_bootloader env w session).world session)
      image 0 k = false) :
    (octoclock_burn env w session).result = .error transfer_failed
      ∧ (with_code .FILE_TRANSFER_CMD
            (sent_between w (octoclock_burn env w session).world)).map (fun p => p.addr)
          = (List.range (k + 1)).map (fun i => i * 256)
      ∧ with_code .READ_FW_CMD (sent_between w (octoclock_burn env w session).world) = []
      ∧ with_code .FINALIZE_BURNING_CMD
          (sent_between w (octoclock_burn env w session).world) = []
      ∧ run_stages env w session
          = ⟨(octoclock_burn env w session).world, .error transfer_failed⟩
      ∧ (session.from_hex = true →
          (octoclock_burn env w session).world.files session.actual_filepath = none
            ∧ (octoclock_burn env w session).world.removed
                = w.removed ++ [session.actual_filepath]) := by
  have hb := burn_first_nack env w session s1 image k hfile hreset hprep hk hack hnack
  have hsent : sent_between w (octoclock_burn env w session).world
      = (reset_requests env w session
          ++ [(xport_id.fw, prepare_request env
                (octoclock_reset_into_bootloader env w session).world session)])
        ++ transfer_requests (prepare_request env
            (octoclock_reset_into_bootloader env w session).world session) image 0 (k + 1) := by
    rw [hb, sent_between, remove_if_from_hex_sent]
    show List.drop _ ((_ ++ [_]) ++ _) = _
    rw [show (after_rand (octoclock_reset_into_bootloader env w session).world).sent
      = (octoclock_reset_into_bootloader env w session).world.sent from rfl, reset_sent,
      List.append_assoc, List.append_assoc, List.drop_left, List.append_assoc]
  have hpre : ∀ c, c ≠ packet_code.RESET_CMD → c ≠ packet_code.PREPARE_FW_BURN_CMD →
      ∀ q ∈ reset_requests env w session
          ++ [(xport_id.fw, prepare_request env
                (octoclock_reset_into_bootloader env w session).world session)],
        q.2.code ≠ c := by
    intro c hc1 hc2 q hq
    rcases List.mem_append.mp hq with h | h
    · rw [reset_requests_code env w session q h]
      exact fun h2 => hc1 h2.symm
    · simp only [List.mem_singleton] at h
      rw [h]
      exact fun h2 => hc2 h2.symm
  refine ⟨by rw [hb], ?_, ?_, ?_, ?_, ?_⟩
  · rw [hsent, with_code_append, with_code_none _ _ (hpre _ (by decide) (by decide)),
      List.nil_append, with_code_all _ _ (transfer_requests_code _ _ _ _), List.map_map]
    exact transfer_requests_addr _ image (k + 1) (by omega)
  · rw [hsent, with_code_append, with_code_none _ _ (hpre _ (by decide) (by decide)),
      List.nil_append]
    exact with_code_none _ _
      (fun q hq => by rw [transfer_requests_code _ _ _ _ q hq]; decide)
  · rw [hsent, with_code_append, with_code_none _ _ (hpre _ (by decide) (by decide)),
      List.nil_append]
    exact with_code_none _ _
      (fun q hq => by rw [transfer_requests_code _ _ _ _ q hq]; decide)
  · unfold run_stages
    rw [hb]
  · intro hhex
    rw [hb]
    refine ⟨(remove_if_from_hex_files _ session hhex).1, ?_⟩
    rw [(remove_if_from_hex_files _ session hhex).2]
    show (octoclock_reset_into_bootloader env w session).world.removed ++ _ = _
    rw [(reset_files env w session).2]

/-! ## Responses and their checks -/

theorem all_pass_nil (env : Env) (image : List uint8_t)
    (hist : List (xport_id × octoclock_packet_t)) : all_pass env image hist [] := by
  intro k q h
  simp at h

theorem all_pass_singleton (env : Env) (image : List uint8_t)
    (hist : List (xport_id × octoclock_packet_t)) (q : xport_id × octoclock_packet_t)
    (h : response_passes env image hist q = true) : all_pass env image hist [q] := by
  intro k q2 hk
  cases k with
  | zero =>
    simp only [List.getElem?_cons_zero, Option.some.injEq] at hk
    subst hk
    simpa using h
  | succ k => simp at hk

theorem all_pass_append (env : Env) (image : List uint8_t)
    (hist a b : List (xport_id × octoclock_packet_t))
    (ha : all_pass env image hist a) (hb : all_pass env image (hist ++ a) b) :
    all_pass env image hist (a ++ b) := by
  intro k q hk
  by_cases hlt : k < a.length
  · rw [List.getElem?_append_left hlt] at hk
    rw [List.take_append_of_le_length (le_of_lt hlt)]
    exact ha k q hk
  · have hge : a.length ≤ k := Nat.le_of_not_lt hlt
    rw [List.getElem?_append_right hge] at hk
    have := hb (k - a.length) q hk
    rw [List.take_append_eq_append_take, List.take_of_length_le hge, ← List.append_assoc]
    exact this

/-- Each request of `reqs` that is followed by another one got a response that passed
its check. -/
theorem all_but_last_of_all_pass (env : Env) (image : List uint8_t)
    (hist a : List (xport_id × octoclock_packet_t)) (x : xport_id × octoclock_packet_t)
    (ha : all_pass env image hist a) :
    ∀ (k : Nat) (q : xport_id × octoclock_packet_t), k + 1 < (a ++ [x]).length →
      (a ++ [x])[k]? = some q →
      response_passes env image (hist ++ (a ++ [x]).take k) q = true := by
  intro k q hk hq
  have hlt : k < a.length := by simpa using hk
  rw [List.getElem?_append_left hlt] at hq
  rw [List.take_append_of_le_length (le_of_lt hlt)]
  exact ha k q hq

theorem transfer_requests_snoc (p : octoclock_packet_t) (image : List uint8_t) (i m : Nat) :
    transfer_requests p image i (m + 1)
      = transfer_requests p image i m ++ [(xport_id.fw, transfer_request p image i m)] := by
  simp [transfer_requests, List.range_succ]

theorem transfer_requests_take (p : octoclock_packet_t) (image : List uint8_t) (i m k : Nat)
    (h : k ≤ m) :
    (transfer_requests p image i m).take k = transfer_requests p image i k := by
  simp [transfer_requests, ← List.map_take, List.take_range, Nat.min_eq_left h]

theorem transfer_requests_get (p : octoclock_packet_t) (image : List uint8_t) (i m k : Nat)
    (q : xport_id × octoclock_packet_t) (h : (transfer_requests p image i m)[k]? = some q) :
    k < m ∧ q = (xport_id.fw, transfer_request p image i k) := by
  unfold transfer_requests at h
  rw [List.getElem?_map] at h
  have hk : k < m := by
    by_contra hcon
    rw [List.getElem?_eq_none (by simpa using hcon)] at h
    cases h
  rw [List.getElem?_range hk] at h
  simp only [Option.map_some', Option.some.injEq] at h
  exact ⟨hk, h.symm⟩

theorem all_pass_transfers (env : Env) (w : World) (p : octoclock_packet_t)
    (image : List uint8_t) (i m : Nat)
    (h : ∀ j < m, transfer_acked env w p image i j = true) :
    all_pass env image w.sent (transfer_requests p image i m) := by
  intro k q hq
  obtain ⟨hk, rfl⟩ := transfer_requests_get p image i m k q hq
  have := h k hk
  rw [transfer_acked, transfer_requests_snoc, ← List.append_assoc] at this
  rw [transfer_requests_take p image i m k (le_of_lt hk)]
  exact this

theorem verify_requests_snoc (p : octoclock_packet_t) (i m : Nat) :
    verify_requests p i (m + 1)
      = verify_requests p i m ++ [(xport_id.fw, verify_request p i m)] := by
  simp [verify_requests, List.range_succ]

theorem verify_requests_take (p : octoclock_packet_t) (i m k : Nat) (h : k ≤ m) :
    (verify_requests p i m).take k = verify_requests p i k := by
  simp [verify_requests, ← List.map_take, List.take_range, Nat.min_eq_left h]

theorem verify_requests_get (p : octoclock_packet_t) (i m k : Nat)
    (q : xport_id × octoclock_packet_t) (h : (verify_requests p i m)[k]? = some q) :
    k < m ∧ q = (xport_id.fw, verify_request p i k) := by
  unfold verify_requests at h
  rw [List.getElem?_map] at h
  have hk : k < m := by
    by_contra hcon
    rw [List.getElem?_eq_none (by simpa using hcon)] at h
    cases h
  rw [List.getElem?_range hk] at h
  simp only [Option.map_some', Option.some.injEq] at h
  exact ⟨hk, h.symm⟩

theorem all_pass_verifies (env : Env) (w : World) (p : octoclock_packet_t)
    (image : List uint8_t) (m : Nat) (hm : m ≤ 2 ^ 16)
    (h : ∀ j < m, verify_passed env w p image 0 j = true) :
    all_pass env image w.sent (verify_requests p 0 m) := by
  intro k q hq
  obtain ⟨hk, rfl⟩ := verify_requests_get p 0 m k q hq
  have := h k hk
  rw [verify_passed, verify_reply, verify_requests_snoc, ← List.append_assoc, Nat.zero_add]
    at this
  rw [verify_requests_take p 0 m k (le_of_lt hk)]
  have haddr : (verify_request p 0 k).addr / 256 = k := by
    simp only [verify_request]
    omega
  unfold response_passes
  simp only [haddr]
  exact this

/-! ## Orderly runs -/

theorem replicate_split {α : Type} (a : α) (k n : Nat) (h : k ≤ n) :
    List.replicate k a ++ List.replicate (n - k) a = List.replicate n a := by
  rw [← List.replicate_add, Nat.add_sub_cancel' h]

theorem replicate_split_rest {α : Type} (a : α) (k n : Nat) (rest : List α) (h : k ≤ n) :
    List.replicate k a ++ (List.replicate (n - k) a ++ rest) = List.replicate n a ++ rest := by
  rw [← List.append_assoc, replicate_split a k n h]

theorem all_pass_prepare (env : Env) (w : World) (session : octoclock_session_t)
    (image : List uint8_t) (h : prepare_acked env w session = true) :
    all_pass env image w.sent [(xport_id.fw, prepare_request env w session)] :=
  all_pass_singleton env image _ _ h

theorem stages_orderly (env : Env) (w : World) (session : octoclock_session_t)
    (hnb : session.num_blocks ≤ 2 ^ 16) :
    ∃ reqs, (stages_after_reset env w session).world.sent = w.sent ++ reqs
      ∧ orderly env (image_of w session.actual_filepath) w.sent reqs false
          session.num_blocks (stages_after_reset env w session).result := by
  generalize himg : image_of w session.actual_filepath = image
  cases hprep : prepare_acked env w session with
  | false =>
    rw [stages_prepare_nack env w session hprep]
    refine ⟨[(xport_id.fw, prepare_request env w session)], ?_, ?_, [], _, rfl,
      all_pass_nil _ _ _, fun h => by cases h⟩
    · rw [remove_if_from_hex_sent, prepared_sent]
    · exact ⟨_, rfl⟩
  | true =>
    have hp := all_pass_prepare env w session image hprep
    rcases all_or_first_failure (fun j => transfer_acked env (prepared_world env w session)
      (prepare_request env w session) image 0 j) session.num_blocks
      with hack | ⟨k, hk, hack, hnack⟩
    · have ht := all_pass_transfers env (prepared_world env w session)
        (prepare_request env w session) image 0 session.num_blocks hack
      rw [prepared_sent] at ht
      have hpt := all_pass_append env image w.sent _ _ hp ht
      rcases all_or_first_failure (fun j => verify_passed env
        (after_rand (transferred_world env w session image))
        (verify_start env (transferred_world env w session image)) image 0 j)
        session.num_blocks with hall | ⟨k, hk, hall, hfail⟩
      · have hv := all_pass_verifies env (after_rand (transferred_world env w session image))
          (verify_start env (transferred_world env w session image)) image
          session.num_blocks hnb hall
        rw [show (after_rand (transferred_world env w session image)).sent
          = (transferred_world env w session image).sent from rfl, transferred_sent,
          ← List.singleton_append] at hv
        have hptv := all_pass_append env image w.sent _ _ hpt hv
        rw [stages_all_verified env w session image himg hprep hack hall]
        refine ⟨complete_requests env w session image, complete_sent env w session image,
          by rw [codes_of_complete],
          ([(xport_id.fw, prepare_request env w session)]
            ++ transfer_requests (prepare_request env w session) image 0 session.num_blocks)
            ++ verify_requests (verify_start env (transferred_world env w session image)) 0
              session.num_blocks,
          (xport_id.fw, finalize_request env
            (verified_world env (transferred_world env w session image) session)),
          ?_, hptv, ?_⟩
        · rw [complete_requests, ← List.singleton_append, ← List.append_assoc,
            ← List.append_assoc]
        · intro hres
          refine ⟨rfl, ?_⟩
          cases hfa : finalize_acked env
              (verified_world env (transferred_world env w session image) session) with
          | false =>
            rw [hfa] at hres
            simp at hres
          | true =>
            rw [finalize_acked, verified_sent, transferred_sent, ← List.singleton_append]
              at hfa
            show env.PACKET_MATCHES _ _ _ _ = true
            simpa only [List.append_assoc] using hfa
      · rw [stages_verify_failure env w session image k himg hprep hack hk hall hfail]
        have hv := all_pass_verifies env (after_rand (transferred_world env w session image))
          (verify_start env (transferred_world env w session image)) image k (by omega) hall
        rw [show (after_rand (transferred_world env w session image)).sent
          = (transferred_world env w session image).sent from rfl, transferred_sent,
          ← List.singleton_append] at hv
        have hptv := all_pass_append env image w.sent _ _ hpt hv
        refine ⟨([(xport_id.fw, prepare_request env w session)]
            ++ transfer_requests (prepare_request env w session) image 0 session.num_blocks)
            ++ verify_requests (verify_start env (transferred_world env w session image)) 0
              (k + 1), ?_, ?_,
            ([(xport_id.fw, prepare_request env w session)]
              ++ transfer_requests (prepare_request env w session) image 0 session.num_blocks)
              ++ verify_requests (verify_start env (transferred_world env w session image)) 0 k,
            (xport_id.fw, verify_request (verify_start env
              (transferred_world env w session image)) 0 k),
            ?_, hptv, fun h => by cases h⟩
        · rw [remove_if_from_hex_sent]
          show (transferred_world env w session image).sent ++ _ = _
          rw [transferred_sent]
          simp only [List.append_assoc, List.singleton_append]
        · rw [codes_of_append, codes_of_append, codes_of_transfer_requests,
            codes_of_verify_requests, expected_codes]
          refine ⟨List.replicate (session.num_blocks - (k + 1)) packet_code.READ_FW_CMD
            ++ [packet_code.FINALIZE_BURNING_CMD], ?_⟩
          simp only [codes_of, prepare_request, List.map_cons, List.map_nil,
            List.singleton_append, List.cons_append, List.append_assoc, List.cons.injEq,
            true_and, List.nil_append, Bool.false_eq_true, if_false]
          rw [replicate_split_rest _ (k + 1) _ _ hk]
        · rw [verify_requests_snoc, ← List.append_assoc]
    · rw [stages_transfer_nack env w session image k himg hprep hk hack hnack]
      have ht := all_pass_transfers env (prepared_world env w session)
        (prepare_request env w session) image 0 k hack
      rw [prepared_sent] at ht
      have hpt := all_pass_append env image w.sent _ _ hp ht
      refine ⟨[(xport_id.fw, prepare_request env w session)]
          ++ transfer_requests (prepare_request env w session) image 0 (k + 1), ?_, ?_,
          [(xport_id.fw, prepare_request env w session)]
            ++ transfer_requests (prepare_request env w session) image 0 k,
          (xport_id.fw, transfer_request (prepare_request env w session) image 0 k),
          ?_, hpt, fun h => by cases h⟩
      · rw [remove_if_from_hex_sent]
        show (w.sent ++ [_]) ++ _ = _
        rw [List.append_assoc]
      · rw [codes_of_append, codes_of_transfer_requests, expected_codes]
        refine ⟨List.replicate (session.num_blocks - (k + 1)) packet_code.FILE_TRANSFER_CMD
          ++ (List.replicate session.num_blocks packet_code.READ_FW_CMD
            ++ [packet_code.FINALIZE_BURNING_CMD]), ?_⟩
        simp only [codes_of, prepare_request, List.map_cons, List.map_nil,
          List.singleton_append, List.cons_append, List.append_assoc, List.cons.injEq,
          true_and, List.nil_append, Bool.false_eq_true, if_false]
        rw [replicate_split_rest _ (k + 1) _ _ hk]
      · rw [transfer_requests_snoc, ← List.append_assoc]

theorem reset_ok_passes (env : Env) (w : World) (session s1 : octoclock_session_t)
    (image : List uint8_t)
    (h : (octoclock_reset_into_bootloader env w session).result = .ok s1) :
    all_pass env image w.sent (reset_requests env w session) := by
  unfold reset_requests
  cases hb : in_bootloader session with
  | true => exact all_pass_nil _ _ _
  | false =>
    simp only [Bool.false_eq_true, if_false]
    apply all_pass_singleton
    unfold octoclock_reset_into_bootloader at h
    have hb2 : ¬ (dict_index session.dev_addr "type").1 = "octoclock-bootloader" := by
      simpa [in_bootloader] using hb
    simp only [hb2, if_false] at h
    split at h
    · rename_i hm
      exact hm
    · cases h

theorem reset_error_requests (env : Env) (w : World) (session : octoclock_session_t)
    (e : exception)
    (h : (octoclock_reset_into_bootloader env w session).result = .error e) :
    in_bootloader session = false := by
  cases hb : in_bootloader session with
  | false => rfl
  | true =>
    unfold octoclock_reset_into_bootloader at h
    have hb2 : (dict_index session.dev_addr "type").1 = "octoclock-bootloader" := by
      simpa [in_bootloader] using hb
    simp only [hb2, if_true] at h
    cases h

theorem codes_of_reset_requests (env : Env) (w : World) (session : octoclock_session_t) :
    codes_of (reset_requests env w session)
      = if (!in_bootloader session) = true then [packet_code.RESET_CMD] else [] := by
  unfold reset_requests
  cases in_bootloader session <;> rfl

theorem run_stages_orderly (env : Env) (w : World) (session : octoclock_session_t)
    (hnb : session.num_blocks ≤ 2 ^ 16) :
    ∃ reqs, (run_stages env w session).world.sent = w.sent ++ reqs
      ∧ orderly env (image_of w session.actual_filepath) w.sent reqs
          (!in_bootloader session) session.num_blocks (run_stages env w session).result := by
  cases hr : (octoclock_reset_into_bootloader env w session).result with
  | error e =>
    have hb := reset_error_requests env w session e hr
    rw [run_stages_of_reset_error env w session e hr]
    refine ⟨reset_requests env w session, reset_sent env w session, ?_,
      [], (xport_id.ctrl, reset_request env w), ?_, all_pass_nil _ _ _, fun h => by cases h⟩
    · rw [codes_of_reset_requests, expected_codes]
      exact List.prefix_append _ _
    · rw [reset_requests, hb]
      rfl
  | ok s1 =>
    obtain ⟨dev, d, hs1⟩ := reset_session env w session s1 hr
    have hR := reset_ok_passes env w session s1 (image_of w session.actual_filepath) hr
    rw [run_stages_of_reset_ok env w session s1 hr]
    have hnb1 : s1.num_blocks ≤ 2 ^ 16 := by rw [hs1]; exact hnb
    obtain ⟨reqs, hsent, hcodes, init, x, hreqs, hinit, hres⟩ :=
      stages_orderly env (octoclock_reset_into_bootloader env w session).world s1 hnb1
    have himg : image_of (octoclock_reset_into_bootloader env w session).world
        s1.actual_filepath = image_of w session.actual_filepath := by
      rw [image_of, (reset_files env w session).1, hs1]
      rfl
    have hn : s1.num_blocks = session.num_blocks := by rw [hs1]
    rw [himg, reset_sent] at hinit hres
    rw [hn] at hcodes
    refine ⟨reset_requests env w session ++ reqs, ?_, ?_,
      reset_requests env w session ++ init, x, ?_, all_pass_append _ _ _ _ _ hR hinit, ?_⟩
    · rw [hsent, reset_sent, List.append_assoc]
    · rw [codes_of_append, codes_of_reset_requests, expected_codes]
      exact (List.prefix_append_right_inj _).mpr hcodes
    · rw [hreqs, List.append_assoc]
    · intro h
      rw [← List.append_assoc]
      exact hres h

/-! ## The order of commands -/

theorem sent_between_same (w w1 : World) (h : w1.sent = w.sent) : sent_between w w1 = [] := by
  rw [sent_between, h, List.drop_length]

theorem loader_session_of_ok (env : Env) (w : World) (args : image_loader_args_t)
    (s : octoclock_session_t)
    (h : (octoclock_setup_session env w env.uninit_session args.args
      args.firmware_path).result = .ok s) :
    loader_session env w args = { s with dev_addr := (dict_index s.dev_addr "addr").2 } := by
  rw [loader_session, h]

/-- C9: for every device behaviour, the command codes sent by one run of
`octoclock_image_loader` are a beginning of: a reset (exactly when the session
descriptor does not say bootloader), the prepare-burn command, `num_blocks` file
transfers, `num_blocks` read-firmware commands, the finalize command; every request
that is followed by another one got a response that passed its check; and the loader
returns `true` only if its last request was the finalize command and the response
matched the finalize acknowledgment. -/
theorem C9_commands_in_order (env : Env) (w : World) (args : image_loader_args_t) :
    codes_of (sent_between w (octoclock_image_loader env w args).world)
        <+: expected_codes (!in_bootloader (loader_session env w args))
          (loader_session env w args).num_blocks
      ∧ (∀ (k : Nat) (q : xport_id × octoclock_packet_t),
          k + 1 < (sent_between w (octoclock_image_loader env w args).world).length →
          (sent_between w (octoclock_image_loader env w args).world)[k]? = some q →
          response_passes env
            (image_of (loader_world env w args) (loader_session env w args).actual_filepath)
            (w.sent ++ (sent_between w (octoclock_image_loader env w args).world).take k) q
            = true)
      ∧ ((octoclock_image_loader env w args).result = .ok true →
          ∃ pre q, sent_between w (octoclock_image_loader env w args).world = pre ++ [q]
            ∧ q.2.code = .FINALIZE_BURNING_CMD
            ∧ response_passes env
                (image_of (loader_world env w args) (loader_session env w args).actual_filepath)
                (w.sent ++ pre) q = true) := by
  have hWs : (loader_world env w args).sent = w.sent := (setup_world env w _ _ _).1
  have hnothing : ∀ r : Except exception Bool, r ≠ .ok true →
      octoclock_image_loader env w args = ⟨loader_world env w args, r⟩ →
      codes_of (sent_between w (octoclock_image_loader env w args).world)
          <+: expected_codes (!in_bootloader (loader_session env w args))
            (loader_session env w args).num_blocks
        ∧ (∀ (k : Nat) (q : xport_id × octoclock_packet_t),
            k + 1 < (sent_between w (octoclock_image_loader env w args).world).length →
            (sent_between w (octoclock_image_loader env w args).world)[k]? = some q →
            response_passes env
              (image_of (loader_world env w args) (loader_session env w args).actual_filepath)
              (w.sent ++ (sent_between w (octoclock_image_loader env w args).world).take k) q
              = true)
        ∧ ((octoclock_image_loader env w args).result = .ok true →
            ∃ pre q, sent_between w (octoclock_image_loader env w args).world = pre ++ [q]
              ∧ q.2.code = .FINALIZE_BURNING_CMD
              ∧ response_passes env
                  (image_of (loader_world env w args)
                    (loader_session env w args).actual_filepath)
                  (w.sent ++ pre) q = true) := by
    intro r hr hl
    rw [hl, sent_between_same w _ hWs]
    exact ⟨List.nil_prefix, fun k q hk => absurd hk (by simp), fun h => absurd h hr⟩
  cases hs : (octoclock_setup_session env w env.uninit_session args.args
      args.firmware_path).result with
  | error e =>
    exact hnothing (.error e) (fun h => by cases h) (loader_of_setup_error env w args e hs)
  | ok s =>
    have hl := loader_of_setup_ok env w args s hs
    by_cases hgo : (!s.found || !args.load_firmware) = true
    · rw [if_pos hgo] at hl
      exact hnothing (.ok false) (fun h => by cases h) hl
    · rw [if_neg hgo] at hl
      have hfound : s.found = true := by
        cases hf : s.found with
        | true => rfl
        | false => simp [hf] at hgo
      have hnb : (loader_session env w args).num_blocks ≤ 2 ^ 16 := by
        rw [loader_session_of_ok env w args s hs]
        exact le_of_lt (setup_found env w _ s _ _ hs hfound)
      obtain ⟨reqs, hsent, hcodes, init, x, hreqs, hinit, hres⟩ :=
        run_stages_orderly env (loader_world env w args) (loader_session env w args) hnb
      have hbetween : sent_between w (octoclock_image_loader env w args).world = reqs := by
        rw [hl, sent_between, hsent, hWs, List.drop_left]
      rw [hbetween]
      rw [← hl] at hres
      rw [hWs] at hinit hres
      refine ⟨hcodes, ?_, ?_⟩
      · rw [hreqs]
        exact all_but_last_of_all_pass env _ w.sent init x hinit
      · intro h
        exact ⟨init, x, hreqs, (hres h).1, (hres h).2⟩

/-! ## Concrete runs: aborts -/

set_option maxRecDepth 1000000 in
/-- Witness of C7: three blocks, a wrong code in answer to block 1; the transfers stop
after the addresses 0 and 256 and the temporary file is gone. -/
theorem C7_transfer_abort_witness :
    (octoclock_burn (sim_env sim_bootloader faulty_block1) (sim_world demo_tmp demo_image3)
        demo_hex_session).result = .error transfer_failed
      ∧ (with_code .FILE_TRANSFER_CMD
          (sent_between (sim_world demo_tmp demo_image3)
            (octoclock_burn (sim_env sim_bootloader faulty_block1)
              (sim_world demo_tmp demo_image3) demo_hex_session).world)).map (fun p => p.addr)
          = [0, 256]
      ∧ (octoclock_burn (sim_env sim_bootloader faulty_block1) (sim_world demo_tmp demo_image3)
          demo_hex_session).world.files demo_tmp = none := by
  have h := C7_transfer_abort (sim_env sim_bootloader faulty_block1)
    (sim_world demo_tmp demo_image3) demo_hex_session demo_hex_session demo_image3 1
    (by simp [sim_world, demo_hex_session]) (by decide)
    (by rw [reset_in_bootloader _ _ _ (by decide)]) (by decide) (by decide) (by decide)
    (by decide)
  exact ⟨h.1, h.2.1, (h.2.2.2.2.2 rfl).1⟩

set_option maxRecDepth 1000000 in
/-- C8, the code at failing inputs: for a `.hex` image and a device in application
mode that answers the reset command with a wrong code, `octoclock_image_loader` throws
the reset error while the converted temporary file, absent before the run, still exists
and `fs::remove` was never called; the same file is left behind when `load_firmware`
is not requested. -/
theorem C8_reset_failure_keeps_temporary_file :
    (sim_world "fw.hex" demo_image).files demo_tmp = none
      ∧ (octoclock_image_loader (sim_env sim_application faulty_reset)
          (sim_world "fw.hex" demo_image) demo_hex_args).result = .error reset_failed
      ∧ (octoclock_image_loader (sim_env sim_application faulty_reset)
          (sim_world "fw.hex" demo_image) demo_hex_args).world.files demo_tmp
          = some demo_image
      ∧ (octoclock_image_loader (sim_env sim_application faulty_reset)
          (sim_world "fw.hex" demo_image) demo_hex_args).world.removed = []
      ∧ (octoclock_image_loader (sim_env sim_bootloader never)
          (sim_world "fw.hex" demo_image)
          { demo_hex_args with load_firmware := false }).result = .ok false
      ∧ (octoclock_image_loader (sim_env sim_bootloader never)
          (sim_world "fw.hex" demo_image)
          { demo_hex_args with load_firmware := false }).world.files demo_tmp
          = some demo_image :=
  ⟨by decide, by rfl, by decide, by decide, by rfl, by decide⟩

set_option maxRecDepth 1000000 in
/-- Witness of C5: on a device to which nothing was written, the verification of the
300-byte image throws the verify error. -/
theorem C5_verify_succeeds_iff_witness :
    (octoclock_verify (sim_env sim_bootloader never) (sim_world "fw.bin" demo_image)
        demo_session).result = .error verify_failed :=
  (C5_verify_succeeds_iff (sim_env sim_bootloader never) (sim_world "fw.bin" demo_image)
    demo_session demo_image (by simp [sim_world, demo_session])
    (by rw [demo_image_length]; rfl) (by decide)).2.1 (by decide)

/-! ## The residue of the checksum -/

/-- C14: when `octoclock_find` returns no device, `octoclock_setup_session` returns
normally with the world as it was and the session unchanged but for `found = false`, and
`octoclock_image_loader` returns `false` with the world as it was: no channel was opened,
no packet was sent, no file was written, and no image was validated. -/
theorem C14_no_device_found (env : Env) (w : World) (args : image_loader_args_t)
    (session : octoclock_session_t)
    (hnone : env.octoclock_find args.args = []) :
    octoclock_setup_session env w session args.args args.firmware_path
        = ⟨w, .ok { session with found := false }⟩
      ∧ octoclock_image_loader env w args = ⟨w, .ok false⟩
      ∧ sent_between w (octoclock_image_loader env w args).world = [] := by
  have hs : ∀ s : octoclock_session_t,
      octoclock_setup_session env w s args.args args.firmware_path
        = ⟨w, .ok { s with found := false }⟩ := by
    intro s
    unfold octoclock_setup_session
    simp [hnone]
  have hl : octoclock_image_loader env w args = ⟨w, .ok false⟩ := by
    rw [loader_of_setup_ok env w args { env.uninit_session with found := false }
      (by rw [hs]), loader_world, hs]
    rfl
  exact ⟨hs session, hl, by rw [hl]; exact sent_between_same w w rfl⟩

/-- Witness of C14: with no device found, the run for the image `fw.hex` returns
`false` and leaves the world, its files included, as it was. -/
theorem C14_no_device_found_witness :
    octoclock_image_loader
        { sim_env sim_bootloader never with octoclock_find := fun _ => [] }
        (sim_world "fw.hex" demo_image) demo_hex_args
      = ⟨sim_world "fw.hex" demo_image, .ok false⟩ :=
  (C14_no_device_found { sim_env sim_bootloader never with octoclock_find := fun _ => [] }
    (sim_world "fw.hex" demo_image) demo_hex_args sim_session rfl).2.1

/-- C17: for a session whose image came from a `.hex` file, `octoclock_verify` ends
either normally or with the verify error, and on each of these exits `fs::remove` was
called exactly once, on `actual_filepath`: the file is gone and every other file is as
before. -/
theorem C17_verify_removes_once (env : Env) (w : World) (session : octoclock_session_t)
    (hhex : session.from_hex = true) :
    (octoclock_verify env w session).world.removed = w.removed ++ [session.actual_filepath]
      ∧ (octoclock_verify env w session).world.files session.actual_filepath = none
      ∧ (∀ path, path ≠ session.actual_filepath →
          (octoclock_verify env w session).world.files path = w.files path)
      ∧ ((octoclock_verify env w session).result.isOk = true
          ∨ (octoclock_verify env w session).result = .error verify_failed) := by
  have hrem : ∀ X : World, X.removed = w.removed → X.files = w.files →
      (remove_if_from_hex X session).removed = w.removed ++ [session.actual_filepath]
        ∧ (remove_if_from_hex X session).files session.actual_filepath = none
        ∧ (∀ path, path ≠ session.actual_filepath →
            (remove_if_from_hex X session).files path = w.files path) := by
    intro X hr hf
    refine ⟨by rw [(remove_if_from_hex_files X session hhex).2, hr],
      (remove_if_from_hex_files X session hhex).1, ?_⟩
    intro path hp
    simp [remove_if_from_hex, hhex, fs_remove, hp, hf]
  rcases all_or_first_failure
    (fun j => verify_passed env (after_rand w) (verify_start env w)
      (image_of w session.actual_filepath) 0 j)
    session.num_blocks with hall | ⟨k, hk, hpre, hfail⟩
  · obtain ⟨d, hd⟩ := verify_all_passed env w session _ rfl hall
    rw [hd]
    obtain ⟨h1, h2, h3⟩ := hrem
      ((after_rand w).send (verify_requests (verify_start env w) 0 session.num_blocks))
      rfl rfl
    exact ⟨h1, h2, h3, Or.inl rfl⟩
  · rw [verify_first_failure env w session _ k rfl hk hpre hfail]
    obtain ⟨h1, h2, h3⟩ := hrem
      ((after_rand w).send (verify_requests (verify_start env w) 0 (k + 1))) rfl rfl
    exact ⟨h1, h2, h3, Or.inr rfl⟩

set_option maxRecDepth 1000000 in
/-- Witness of C17: the verification of the converted three-block image on the
simulated device calls `fs::remove` once, on the temporary file, which is gone
afterwards. -/
theorem C17_verify_removes_once_witness :
    (octoclock_verify (sim_env sim_bootloader never) (sim_world demo_tmp demo_image3)
        demo_hex_session).world.removed = [demo_tmp]
      ∧ (octoclock_verify (sim_env sim_bootloader never) (sim_world demo_tmp demo_image3)
        demo_hex_session).world.files demo_tmp = none :=
  ⟨(C17_verify_removes_once (sim_env sim_bootloader never) (sim_world demo_tmp demo_image3)
      demo_hex_session rfl).1,
    (C17_verify_removes_once (sim_env sim_bootloader never) (sim_world demo_tmp demo_image3)
      demo_hex_session rfl).2.1⟩

/-! ## The temporary file is removed at most once -/

theorem validate_from_hex (env : Env) (w : World) (session s : octoclock_session_t)
    (h : (octoclock_validate_firmware_image env w session).result = .ok s)
    (hhex : s.from_hex = true) :
    s.actual_filepath = tmp_image_path env
      ∧ env.fs_extension session.given_filepath = ".hex"
      ∧ s.given_filepath = session.given_filepath := by
  unfold octoclock_validate_firmware_image at h
  split at h
  · cases h
  · simp only at h
    split at h
    · cases h
    · rename_i w1 s1 hprep
      have hs1 : s1.from_hex = true →
          s1.actual_filepath = tmp_image_path env
            ∧ env.fs_extension session.given_filepath = ".hex"
            ∧ s1.given_filepath = session.given_filepath := by
        split at hprep
        · simp only [Option.some.injEq, Prod.mk.injEq] at hprep
          rw [← hprep.2]
          intro hc
          cases hc
        · split at hprep
          · rename_i hext
            simp only [Option.some.injEq, Prod.mk.injEq] at hprep
            rw [← hprep.2]
            intro _
            exact ⟨rfl, hext, rfl⟩
          · cases hprep
      split at h
      · cases h
      · split at h
        · cases h
        · simp only [Except.ok.injEq] at h
          rw [← h] at hhex ⊢
          exact hs1 hhex

theorem setup_from_hex (env : Env) (w : World) (session s : octoclock_session_t)
    (args : device_addr_t) (filepath : String)
    (h : (octoclock_setup_session env w session args filepath).result = .ok s)
    (hfound : s.found = true) (hhex : s.from_hex = true) :
    s.actual_filepath = tmp_image_path env ∧ env.fs_extension s.given_filepath = ".hex" := by
  unfold octoclock_setup_session at h
  simp only at h
  split at h
  · simp only [Except.ok.injEq] at h
    rw [← h] at hfound
    cases hfound
  · split at h
    · split at h <;> cases h
    · split at h
      · cases h
      · rename_i given hgiven
        split at h
        · cases h
        · rename_i w1 s1 hv
          have h2 : s = { s1 with
              dev_addr := (dict_index (dict_index s1.dev_addr "addr").2 "addr").2
              ctrl_xport := some (dict_index s1.dev_addr "addr").1
              fw_xport := some (dict_index (dict_index s1.dev_addr "addr").2 "addr").1 } :=
            (Except.ok.inj h).symm
          rw [h2] at hhex ⊢
          obtain ⟨ha, he, hg⟩ := validate_from_hex env w _ s1 (by rw [hv]) hhex
          exact ⟨ha, by rw [show ({ s1 with
              dev_addr := (dict_index (dict_index s1.dev_addr "addr").2 "addr").2
              ctrl_xport := some (dict_index s1.dev_addr "addr").1
              fw_xport := some (dict_index (dict_index s1.dev_addr "addr").2 "addr").1 }
              : octoclock_session_t).given_filepath = s1.given_filepath from rfl, hg]; exact he⟩

theorem remove_if_from_hex_removed (w : World) (session : octoclock_session_t) :
    (remove_if_from_hex w session).removed
      = if session.from_hex then w.removed ++ [session.actual_filepath] else w.removed := by
  unfold remove_if_from_hex
  split <;> rfl

/-- After a successful bootloader transition the stages call `fs::remove` exactly when
the image came from a `.hex` file, and then exactly once. -/
theorem stages_removed (env : Env) (w : World) (session : octoclock_session_t) :
    (stages_after_reset env w session).world.removed
      = if session.from_hex then w.removed ++ [session.actual_filepath] else w.removed := by
  cases hprep : prepare_acked env w session with
  | false =>
    rw [stages_prepare_nack env w session hprep, remove_if_from_hex_removed]
    rfl
  | true =>
    rcases all_or_first_failure (fun j => transfer_acked env (prepared_world env w session)
      (prepare_request env w session) (image_of w session.actual_filepath) 0 j)
      session.num_blocks with hack | ⟨k, hk, hack, hnack⟩
    · rcases all_or_first_failure (fun j => verify_passed env
        (after_rand (transferred_world env w session (image_of w session.actual_filepath)))
        (verify_start env (transferred_world env w session
          (image_of w session.actual_filepath)))
        (image_of w session.actual_filepath) 0 j)
        session.num_blocks with hall | ⟨k, hk, hall, hfail⟩
      · rw [stages_all_verified env w session _ rfl hprep hack hall]
        show (verified_world env _ session).removed = _
        rw [verified_world, remove_if_from_hex_removed]
        rfl
      · rw [stages_verify_failure env w session _ k rfl hprep hack hk hall hfail,
          remove_if_from_hex_removed]
        rfl
    · rw [stages_transfer_nack env w session _ k rfl hprep hk hack hnack,
        remove_if_from_hex_removed]
      rfl

theorem run_stages_removed (env : Env) (w : World) (session : octoclock_session_t) :
    (run_stages env w session).world.removed = w.removed
      ∨ (session.from_hex = true
        ∧ (run_stages env w session).world.removed
            = w.removed ++ [session.actual_filepath]) := by
  cases hr : (octoclock_reset_into_bootloader env w session).result with
  | error e =>
    rw [run_stages_of_reset_error env w session e hr]
    exact Or.inl (reset_files env w session).2
  | ok s1 =>
    obtain ⟨dev, d, hs1⟩ := reset_session env w session s1 hr
    rw [run_stages_of_reset_ok env w session s1 hr, stages_removed,
      (reset_files env w session).2, hs1]
    cases hh : session.from_hex with
    | false => exact Or.inl (by simp [hh])
    | true => exact Or.inr ⟨rfl, by simp [hh]⟩

theorem loader_removed (env : Env) (w : World) (args : image_loader_args_t) :
    (octoclock_image_loader env w args).world.removed = w.removed
      ∨ ((octoclock_image_loader env w args).world.removed
            = w.removed ++ [(loader_session env w args).actual_filepath]
          ∧ (loader_session env w args).from_hex = true
          ∧ (loader_session env w args).actual_filepath = tmp_image_path env
          ∧ env.fs_extension (loader_session env w args).given_filepath = ".hex") := by
  have hWr : (loader_world env w args).removed = w.removed := (setup_world env w _ _ _).2.1
  cases hs : (octoclock_setup_session env w env.uninit_session args.args
      args.firmware_path).result with
  | error e =>
    rw [loader_of_setup_error env w args e hs]
    exact Or.inl hWr
  | ok s =>
    rw [loader_of_setup_ok env w args s hs]
    by_cases hgo : (!s.found || !args.load_firmware) = true
    · rw [if_pos hgo]
      exact Or.inl hWr
    · rw [if_neg hgo]
      have hfound : s.found = true := by
        cases hf : s.found with
        | true => rfl
        | false => simp [hf] at hgo
      rcases run_stages_removed env (loader_world env w args) (loader_session env w args)
        with h | ⟨hhex, h⟩
      · exact Or.inl (h.trans hWr)
      · refine Or.inr ⟨by rw [h, hWr], hhex, ?_⟩
        rw [loader_session_of_ok env w args s hs] at hhex ⊢
        exact setup_from_hex env w _ s _ _ hs hfound hhex

/-- C18: on every run of `octoclock_image_loader`, whatever the device answers,
`fs::remove` is called either not at all or exactly once, and then on the temporary file
a `.hex` image was converted into; when the image came from a `.bin` file nothing is
removed. -/
theorem C18_removed_at_most_once (env : Env) (w : World) (args : image_loader_args_t) :
    ((octoclock_image_loader env w args).world.removed = w.removed
      ∨ ((octoclock_image_loader env w args).world.removed
            = w.removed ++ [(loader_session env w args).actual_filepath]
          ∧ (loader_session env w args).from_hex = true
          ∧ (loader_session env w args).actual_filepath = tmp_image_path env
          ∧ env.fs_extension (loader_session env w args).given_filepath = ".hex"))
      ∧ ((loader_session env w args).from_hex = false →
          (octoclock_image_loader env w args).world.removed = w.removed)
      ∧ (env.fs_extension (loader_session env w args).given_filepath = ".bin" →
          (octoclock_image_loader env w args).world.removed = w.removed) := by
  have h := loader_removed env w args
  refine ⟨h, ?_, ?_⟩
  · intro hbin
    rcases h with h | ⟨_, hhex, _, _⟩
    · exact h
    · rw [hbin] at hhex
      cases hhex
  · intro hbin
    rcases h with h | ⟨_, _, _, hext⟩
    · exact h
    · rw [hbin] at hext
      exact absurd hext (by decide)

/-! ## The found flag, the extension error and the packet fields -/

theorem demo_image_64k_length : demo_image_64k.length = 65536 :=
  List.length_replicate _ _

set_option maxRecDepth 1000000 in
/-- C19, the code at a failing input: exactly one device is found, the validation of
the image succeeds and `load_firmware` is requested, but the session record held
`found = false` before `octoclock_setup_session`; the flag is still false after the
setup (the function never assigns it), `octoclock_image_loader` returns `false` and no
packet is sent, so the burn stage is never reached. -/
theorem C19_found_flag_stays_clear :
    sim_env_found_clear.octoclock_find demo_args.args = [sim_bootloader]
      ∧ (octoclock_validate_firmware_image sim_env_found_clear
          (sim_world "fw.bin" demo_image)
          { sim_env_found_clear.uninit_session with
            dev_addr := sim_bootloader, given_filepath := "fw.bin" }).result.isOk = true
      ∧ demo_args.load_firmware = true
      ∧ (loader_session sim_env_found_clear (sim_world "fw.bin" demo_image)
          demo_args).found = false
      ∧ (octoclock_image_loader sim_env_found_clear (sim_world "fw.bin" demo_image)
          demo_args).result = .ok false
      ∧ sent_between (sim_world "fw.bin" demo_image)
          (octoclock_image_loader sim_env_found_clear (sim_world "fw.bin" demo_image)
            demo_args).world = [] :=
  ⟨by rfl, by decide, by rfl, by decide, by rfl, by decide⟩

set_option maxRecDepth 1000000 in
/-- C11, the code at a failing input: for the existing file `fw.txt`, whose extension
is neither `.bin` nor `.hex`, `octoclock_validate_firmware_image` throws
`boost::io::too_few_args`, raised by `boost::format` because the `%s` of the message is
never fed, and therefore no `uhd::runtime_error`, whatever its message. -/
theorem C11_other_extension_throws_format_error :
    (sim_world "fw.txt" demo_image).files "fw.txt" = some demo_image
      ∧ (sim_env sim_bootloader never).fs_extension "fw.txt" = ".txt"
      ∧ (octoclock_validate_firmware_image (sim_env sim_bootloader never)
          (sim_world "fw.txt" demo_image)
          { sim_session with given_filepath := "fw.txt" }).result = .error .too_few_args
      ∧ ∀ what : String,
          (octoclock_validate_firmware_image (sim_env sim_bootloader never)
            (sim_world "fw.txt" demo_image)
            { sim_session with given_filepath := "fw.txt" }).result
            ≠ .error (.runtime_error what) := by
  have h : (octoclock_validate_firmware_image (sim_env sim_bootloader never)
      (sim_world "fw.txt" demo_image)
      { sim_session with given_filepath := "fw.txt" }).result = .error .too_few_args := by
    rfl
  refine ⟨by decide, by decide, h, ?_⟩
  intro what hc
  rw [h] at hc
  cases hc

/-- The packets `octoclock_burn` sends when the descriptor already says bootloader: the
prepare-burn request, then file-transfer requests. -/
theorem burn_in_bootloader_sent (env : Env) (w : World) (session : octoclock_session_t)
    (hboot : session.dev_addr.lookup "type" = some "octoclock-bootloader") :
    ∃ m, sent_between w (octoclock_burn env w session).world
      = (xport_id.fw, prepare_request env w session)
        :: transfer_requests (prepare_request env w session)
            (image_of w session.actual_filepath) 0 m := by
  have hr := reset_in_bootloader env w session hboot
  rw [burn_of_reset_ok env w session session (by rw [hr]), hr]
  simp only
  cases hprep : prepare_acked env w session with
  | false =>
    refine ⟨0, ?_⟩
    rw [burn_after_reset_nack env w session hprep, sent_between, remove_if_from_hex_sent,
      prepared_sent, List.drop_left]
    rfl
  | true =>
    rcases all_or_first_failure (fun j => transfer_acked env (prepared_world env w session)
      (prepare_request env w session) (image_of w session.actual_filepath) 0 j)
      session.num_blocks with hack | ⟨k, hk, hack, hnack⟩
    · obtain ⟨d, hd⟩ := burn_after_reset_all_acked env w session _ rfl hprep hack
      refine ⟨session.num_blocks, ?_⟩
      rw [hd, sent_between]
      show List.drop _ ((w.sent ++ [_]) ++ _) = _
      rw [List.append_assoc, List.drop_left, List.singleton_append]
    · refine ⟨k + 1, ?_⟩
      rw [burn_after_reset_first_nack env w session _ k rfl hprep hk hack hnack,
        sent_between, remove_if_from_hex_sent]
      show List.drop _ ((w.sent ++ [_]) ++ _) = _
      rw [List.append_assoc, List.drop_left, List.singleton_append]

theorem prepare_request_len (env : Env) (w : World) (session : octoclock_session_t) :
    (prepare_request env w session).len = session.size % 2 ^ 16 := rfl

theorem prepare_request_crc (env : Env) (w : World) (session : octoclock_session_t) :
    (prepare_request env w session).crc = session.crc % 2 ^ 16 := rfl

theorem bin_session_size (session : octoclock_session_t) (image : List uint8_t) :
    (bin_session session image).size = image.length % 2 ^ 32 := rfl

/-- Of a prepare-burn request followed by file-transfer requests, the prepare-burn
request is the only packet with the prepare-burn code. -/
theorem with_code_prepare_then_transfers (env : Env) (w : World)
    (session : octoclock_session_t) (p : octoclock_packet_t) (image : List uint8_t)
    (m : Nat) :
    with_code .PREPARE_FW_BURN_CMD
        ((xport_id.fw, prepare_request env w session) :: transfer_requests p image 0 m)
      = [prepare_request env w session] := by
  rw [← List.singleton_append, with_code_append,
    with_code_all _ [_] (by simp [prepare_request]),
    with_code_none _ _ (fun q hq => by rw [transfer_requests_code _ _ _ _ q hq]; decide),
    List.append_nil]
  rfl

/-- C12, the code at a failing input: a `.bin` image of 65536 bytes is below the maximum
of 122880 and validates with `session.size = 65536`, but the prepare-burn packet sent by
`octoclock_burn` carries 0 in its 16-bit length field; its checksum field does equal
`session.crc`. -/
theorem C12_length_field_wraps_at_64KiB :
    demo_image_64k.length ≤ OCTOCLOCK_FIRMWARE_MAX_SIZE_BYTES
      ∧ ∃ validated,
        (octoclock_validate_firmware_image (sim_env sim_bootloader never)
          (sim_world "fw.bin" demo_image_64k)
          demo_session_64k).result
          = .ok validated
        ∧ validated.size = 65536
        ∧ (with_code .PREPARE_FW_BURN_CMD
            (sent_between (sim_world "fw.bin" demo_image_64k)
              (octoclock_burn (sim_env sim_bootloader never)
                (sim_world "fw.bin" demo_image_64k) validated).world)).map (fun p => p.len)
            = [0]
        ∧ (with_code .PREPARE_FW_BURN_CMD
            (sent_between (sim_world "fw.bin" demo_image_64k)
              (octoclock_burn (sim_env sim_bootloader never)
                (sim_world "fw.bin" demo_image_64k) validated).world)).map (fun p => p.crc)
            = [validated.crc] := by
  have hfile : (sim_world "fw.bin" demo_image_64k).files
      demo_session_64k.given_filepath = some demo_image_64k := by
    show (if "fw.bin" = "fw.bin" then some demo_image_64k else none) = some demo_image_64k
    rw [if_pos rfl]
  refine ⟨by rw [demo_image_64k_length]; decide, ?_⟩
  rw [validate_bin (sim_env sim_bootloader never) _ _ demo_image_64k hfile sim_extension_bin,
    demo_image_64k_length, if_neg (by decide)]
  have hsent := burn_in_bootloader_sent (sim_env sim_bootloader never)
    (sim_world "fw.bin" demo_image_64k)
    (octoclock_calculate_crc (sim_env sim_bootloader never)
      (sim_world "fw.bin" demo_image_64k)
      (bin_session demo_session_64k demo_image_64k))
    (by
      rw [(calculate_crc_fields _ _ _).2.2.2.2.2]
      decide)
  refine ⟨_, rfl, ?_, ?_, ?_⟩
  · rw [(calculate_crc_fields _ _ _).1, bin_session_size, demo_image_64k_length]
    decide
  · obtain ⟨m, hm⟩ := hsent
    rw [hm, with_code_prepare_then_transfers]
    simp only [List.map_cons, List.map_nil]
    rw [prepare_request_len, (calculate_crc_fields _ _ _).1,
      bin_session_size, demo_image_64k_length]
    decide
  · obtain ⟨m, hm⟩ := hsent
    rw [hm, with_code_prepare_then_transfers]
    simp only [List.map_cons, List.map_nil]
    rw [prepare_request_crc, Nat.mod_eq_of_lt (calculate_crc_lt _ _ _)]

theorem foldl_replicate_iterate {α β : Type} (f : α → β → α) (b : β) (n : Nat) (a : α) :
    (List.replicate n b).foldl f a = (fun c => f c b)^[n] a := by
  induction n generalizing a with
  | zero => rfl
  | succ n ih => rw [List.replicate_succ, List.foldl_cons, ih, Function.iterate_succ_apply]

set_option maxRecDepth 1000000 in
/-- The checksum of the 300-byte image of the demonstration runs, evaluated 20 bytes
at a time. -/
theorem demo_image_crc : spec_crc demo_image = 0x18F9 := by
  have h0 : (fun r => spec_crc_byte r (0x5A : uint8_t))^[20] 65535 = 49930 := by decide
  have h1 : (fun r => spec_crc_byte r (0x5A : uint8_t))^[20] 49930 = 9934 := by decide
  have h2 : (fun r => spec_crc_byte r (0x5A : uint8_t))^[20] 9934 = 43349 := by decide
  have h3 : (fun r => spec_crc_byte r (0x5A : uint8_t))^[20] 43349 = 21843 := by decide
  have h4 : (fun r => spec_crc_byte r (0x5A : uint8_t))^[20] 21843 = 30651 := by decide
  have h5 : (fun r => spec_crc_byte r (0x5A : uint8_t))^[20] 30651 = 14142 := by decide
  have h6 : (fun r => spec_crc_byte r (0x5A : uint8_t))^[20] 14142 = 29688 := by decide
  have h7 : (fun r => spec_crc_byte r (0x5A : uint8_t))^[20] 29688 = 64389 := by decide
  have h8 : (fun r => spec_crc_byte r (0x5A : uint8_t))^[20] 64389 = 25384 := by decide
  have h9 : (fun r => spec_crc_byte r (0x5A : uint8_t))^[20] 25384 = 47762 := by decide
  have h10 : (fun r => spec_crc_byte r (0x5A : uint8_t))^[20] 47762 = 29815 := by decide
  have h11 : (fun r => spec_crc_byte r (0x5A : uint8_t))^[20] 29815 = 44923 := by decide
  have h12 : (fun r => spec_crc_byte r (0x5A : uint8_t))^[20] 44923 = 38197 := by decide
  have h13 : (fun r => spec_crc_byte r (0x5A : uint8_t))^[20] 38197 = 43142 := by decide
  have h14 : (fun r => spec_crc_byte r (0x5A : uint8_t))^[20] 43142 = 6393 := by decide
  unfold spec_crc demo_image
  rw [foldl_replicate_iterate,
    show (300 : Nat) = 20 + (20 + (20 + (20 + (20 + (20 + (20 + (20 + (20 + (20 + (20
      + (20 + (20 + (20 + 20))))))))))))) from rfl,
    Function.iterate_add_apply, Function.iterate_add_apply, Function.iterate_add_apply,
    Function.iterate_add_apply, Function.iterate_add_apply, Function.iterate_add_apply,
    Function.iterate_add_apply, Function.iterate_add_apply, Function.iterate_add_apply,
    Function.iterate_add_apply, Function.iterate_add_apply, Function.iterate_add_apply,
    Function.iterate_add_apply, Function.iterate_add_apply,
    h0, h1, h2, h3, h4, h5, h6, h7, h8, h9, h10, h11, h12, h13, h14]

/-- The checksum in the session with which the loader starts its stages, for a `.bin`
image given by an explicit path when exactly one device is found. -/
theorem loader_bin_crc (env : Env) (w : World) (args : image_loader_args_t)
    (dev : device_addr_t) (image : List uint8_t)
    (hone : env.octoclock_find args.args = [dev])
    (hpath : args.firmware_path ≠ "")
    (hext : env.fs_extension args.firmware_path = ".bin")
    (hfile : w.files args.firmware_path = some image)
    (hmax : image.length ≤ OCTOCLOCK_FIRMWARE_MAX_SIZE_BYTES) :
    (loader_session env w args).crc = spec_crc image := by
  have hM : OCTOCLOCK_FIRMWARE_MAX_SIZE_BYTES = 122880 := rfl
  have hs := setup_bin env w args dev image hone hpath hext hfile hmax
  rw [loader_session, hs]
  show (octoclock_calculate_crc env w _).crc = _
  exact calculate_crc_eq_spec_crc env w _ image hfile
    (by rw [bin_session_size]; exact Nat.mod_eq_of_lt (by omega))

/-- The packets of a complete run, for a `.bin` image given by an explicit path. -/
theorem loader_complete_sent (env : Env) (w : World) (args : image_loader_args_t)
    (dev : device_addr_t) (image : List uint8_t)
    (hone : env.octoclock_find args.args = [dev])
    (hboot : dev.lookup "type" = some "octoclock-bootloader")
    (hpath : args.firmware_path ≠ "")
    (hext : env.fs_extension args.firmware_path = ".bin")
    (hfile : w.files args.firmware_path = some image)
    (hmax : image.length ≤ OCTOCLOCK_FIRMWARE_MAX_SIZE_BYTES)
    (hload : args.load_firmware = true)
    (hfound : env.uninit_session.found = true)
    (hprep : prepare_acked env (loader_world env w args) (loader_session env w args) = true)
    (hack : ∀ j < (loader_session env w args).num_blocks,
      transfer_acked env
        (prepared_world env (loader_world env w args) (loader_session env w args))
        (prepare_request env (loader_world env w args) (loader_session env w args))
        image 0 j = true)
    (hver : ∀ j < (loader_session env w args).num_blocks,
      verify_passed env
        (after_rand (transferred_world env (loader_world env w args)
          (loader_session env w args) image))
        (verify_start env (transferred_world env (loader_world env w args)
          (loader_session env w args) image))
        image 0 j = true) :
    sent_between w (octoclock_image_loader env w args).world
      = complete_requests env (loader_world env w args) (loader_session env w args) image := by
  obtain ⟨hWf, hWs, _, _, _, _, hSp, hSt, hl⟩ :=
    loader_bin env w args dev image hone hpath hext hfile hmax
  have himg : image_of (loader_world env w args) (loader_session env w args).actual_filepath
      = image := by
    rw [image_of, hWf, hSp, hfile]
    rfl
  rw [hl, hfound, hload, if_neg (by simp),
    run_stages_in_bootloader env _ _ (hSt _ hboot),
    stages_all_verified env _ _ image himg hprep hack hver, sent_between, complete_sent, hWs,
    List.drop_left]

theorem with_code_prepare_complete (env : Env) (w : World) (session : octoclock_session_t)
    (image : List uint8_t) :
    with_code .PREPARE_FW_BURN_CMD (complete_requests env w session image)
      = [prepare_request env w session] := by
  unfold complete_requests
  rw [← List.singleton_append, with_code_append, with_code_append, with_code_append,
    with_code_all _ [_] (by simp [prepare_request]),
    with_code_none _ (transfer_requests _ _ _ _)
      (fun q hq => by rw [transfer_requests_code _ _ _ _ q hq]; decide),
    with_code_none _ (verify_requests _ _ _)
      (fun q hq => by rw [verify_requests_code _ _ _ q hq]; decide),
    with_code_none _ [_] (by simp [finalize_request])]
  simp

set_option maxRecDepth 1000000 in
/-- C16, the code at a failing input: on a little-endian host, in the run that loads
the 300-byte image, the prepare-burn packet holds the length 300 as the bytes `2C 01`
and the checksum `0x18F9` as the bytes `F9 18`, and the second file-transfer and
read-firmware packets hold the address 256 as the bytes `00 01 00 00`, where network byte
order has `01 2C`, `18 F9` and `00 00 01 00`. -/
theorem C16_fields_in_host_byte_order :
    (sim_env sim_bootloader never).little_endian = true
      ∧ (with_code .PREPARE_FW_BURN_CMD
          (sent_between (sim_world "fw.bin" demo_image)
            (octoclock_image_loader (sim_env sim_bootloader never)
              (sim_world "fw.bin" demo_image) demo_args).world)).map
          (fun p => (p.len, field_bytes (sim_env sim_bootloader never) 2 p.len))
          = [(300, [0x2C, 0x01])]
      ∧ network_bytes 2 300 = [0x01, 0x2C]
      ∧ (with_code .PREPARE_FW_BURN_CMD
          (sent_between (sim_world "fw.bin" demo_image)
            (octoclock_image_loader (sim_env sim_bootloader never)
              (sim_world "fw.bin" demo_image) demo_args).world)).map
          (fun p => (p.crc, field_bytes (sim_env sim_bootloader never) 2 p.crc))
          = [(0x18F9, [0xF9, 0x18])]
      ∧ network_bytes 2 0x18F9 = [0x18, 0xF9]
      ∧ (with_code .FILE_TRANSFER_CMD
          (sent_between (sim_world "fw.bin" demo_image)
            (octoclock_image_loader (sim_env sim_bootloader never)
              (sim_world "fw.bin" demo_image) demo_args).world)).map
          (fun p => (p.addr, field_bytes (sim_env sim_bootloader never) 4 p.addr))
          = [(0, [0, 0, 0, 0]), (256, [0, 1, 0, 0])]
      ∧ (with_code .READ_FW_CMD
          (sent_between (sim_world "fw.bin" demo_image)
            (octoclock_image_loader (sim_env sim_bootloader never)
              (sim_world "fw.bin" demo_image) demo_args).world)).map
          (fun p => (p.addr, field_bytes (sim_env sim_bootloader never) 4 p.addr))
          = [(0, [0, 0, 0, 0]), (256, [0, 1, 0, 0])]
      ∧ network_bytes 4 256 = [0, 0, 1, 0] := by
  refine ⟨by rfl, by decide, by decide, ?_, by decide, by decide, by decide, by decide⟩
  have hfile : (sim_world "fw.bin" demo_image).files demo_args.firmware_path
      = some demo_image := by simp [sim_world, demo_args]
  have hmax : demo_image.length ≤ OCTOCLOCK_FIRMWARE_MAX_SIZE_BYTES := by
    rw [demo_image_length]; decide
  rw [loader_complete_sent (sim_env sim_bootloader never) (sim_world "fw.bin" demo_image)
      demo_args sim_bootloader demo_image rfl (by decide) (by decide) sim_extension_bin
      hfile hmax rfl rfl demo_prepare_acked demo_transfer_acked demo_verify_passed,
    with_code_prepare_complete, List.map_cons, List.map_nil, prepare_request_crc,
    loader_bin_crc (sim_env sim_bootloader never) (sim_world "fw.bin" demo_image)
      demo_args sim_bootloader demo_image rfl (by decide) sim_extension_bin hfile hmax,
    demo_image_crc]
  decide

/-! ## More than one device found -/

theorem session_after_validate_of_ok (env : Env) (w : World)
    (session validated : octoclock_session_t)
    (h : (octoclock_validate_firmware_image env w session).result = .ok validated) :
    session_after_validate env w session = validated := by
  unfold octoclock_validate_firmware_image at h
  unfold session_after_validate
  by_cases hex : ¬ fs_exists w session.given_filepath
  · rw [if_pos hex] at h
    cases h
  · rw [if_neg hex] at h
    rw [if_neg hex]
    simp only at h ⊢
    by_cases hbin : env.fs_extension session.given_filepath = ".bin"
    · simp only [hbin, if_true] at h ⊢
      split at h
      · cases h
      · next image hfile =>
        try rw [hfile]
        try simp only
        split at h
        · cases h
        · next hsize =>
          rw [if_neg hsize]
          exact Except.ok.inj h
    · by_cases hhex : env.fs_extension session.given_filepath = ".hex"
      · have hne : ¬ ((".hex" : String) = ".bin") := by decide
        simp only [hhex, hne, if_true, if_false] at h ⊢
        split at h
        · cases h
        · next image hfile =>
          try rw [hfile]
          try simp only
          split at h
          · cases h
          · next hsize =>
            rw [if_neg hsize]
            exact Except.ok.inj h
      · simp only [hbin, hhex, if_false] at h
        cases h

theorem session_after_setup_of_ok (env : Env) (w : World)
    (session connected : octoclock_session_t) (args : device_addr_t) (filepath : String)
    (h : (octoclock_setup_session env w session args filepath).result = .ok connected) :
    session_after_setup env w session args filepath = connected := by
  unfold octoclock_setup_session at h
  unfold session_after_setup
  simp only at h ⊢
  split at h
  · rename_i h0
    rw [if_pos h0]
    exact Except.ok.inj h
  · rename_i h0
    rw [if_neg h0]
    split at h
    · split at h <;> cases h
    · rename_i h1
      rw [if_neg h1]
      split at h
      · cases h
      · rename_i given hgiven
        try simp only [hgiven]
        split at h
        · cases h
        · rename_i w2 validated hval
          try simp only [hval]
          exact Except.ok.inj h

theorem applicable_device_line_eq (dev : device_addr_t)
    (hkeys : (dev.lookup "type").isSome = true ∧ (dev.lookup "addr").isSome = true) :
    applicable_device_line dev = .ok (spec_candidate_entry dev) := by
  obtain ⟨ht, ha⟩ := hkeys
  obtain ⟨t, ht⟩ := Option.isSome_iff_exists.mp ht
  obtain ⟨a, ha⟩ := Option.isSome_iff_exists.mp ha
  unfold applicable_device_line spec_candidate_entry spec_display_name dict_const_index
    dict_get_or
  simp only [ht, ha, Option.some.injEq, Option.getD_some]

theorem foldl_append_eq_join (l : List String) (acc : String) :
    l.foldl (fun r s => r ++ s) acc = acc ++ String.join l := by
  induction l generalizing acc with
  | nil => simp [String.join]
  | cons s l ih =>
    have hj : String.join (s :: l) = s ++ String.join l := by
      show List.foldl (fun r s => r ++ s) ("" ++ s) l = _
      rw [ih, String.empty_append]
    rw [List.foldl_cons, ih, hj, String.append_assoc]

theorem string_join_cons (s : String) (l : List String) :
    String.join (s :: l) = s ++ String.join l := by
  show List.foldl (fun r s => r ++ s) ("" ++ s) l = _
  rw [foldl_append_eq_join, String.empty_append]

theorem applicable_devices_eq (devs : device_addrs_t) (err_msg : String)
    (hkeys : ∀ dev ∈ devs,
      (dev.lookup "type").isSome = true ∧ (dev.lookup "addr").isSome = true) :
    applicable_devices err_msg devs
      = .ok (err_msg ++ String.join (devs.map spec_candidate_entry)) := by
  induction devs generalizing err_msg with
  | nil => simp [applicable_devices, String.join]
  | cons dev devs ih =>
    rw [applicable_devices, applicable_device_line_eq dev (hkeys dev (List.mem_cons_self _ _))]
    simp only
    rw [ih _ (fun d hd => hkeys d (List.mem_cons_of_mem _ hd)), List.map_cons,
      string_join_cons, String.append_assoc]

/-- C13: when `octoclock_find` returns two or more candidates, each with its `type` and
`addr` fields, `octoclock_setup_session` throws the ambiguous-device error, whose message
holds one entry per candidate (display name derived from `type` and `revision`, and
address); the world is as before, so that no channel was opened and no file written, and
the session record is as before, so that no image was validated and the device
descriptor was not assigned. -/
theorem C13_ambiguous_devices (env : Env) (w : World) (session : octoclock_session_t)
    (args : device_addr_t) (filepath : String)
    (hmany : 2 ≤ (env.octoclock_find args).length)
    (hkeys : ∀ dev ∈ env.octoclock_find args,
      (dev.lookup "type").isSome = true ∧ (dev.lookup "addr").isSome = true) :
    octoclock_setup_session env w session args filepath
        = ⟨w, .error (spec_ambiguous_device (env.octoclock_find args))⟩
      ∧ (octoclock_setup_session env w session args filepath).world.opened = w.opened
      ∧ session_after_setup env w session args filepath = session := by
  have h0 : ¬ (env.octoclock_find args).length = 0 := by omega
  have h1 : (env.octoclock_find args).length > 1 := by omega
  have hs : octoclock_setup_session env w session args filepath
      = ⟨w, .error (spec_ambiguous_device (env.octoclock_find args))⟩ := by
    unfold octoclock_setup_session
    simp only [h0, h1, if_true, if_false]
    rw [applicable_devices_eq _ _ hkeys]
    rfl
  refine ⟨hs, by rw [hs], ?_⟩
  unfold session_after_setup
  simp only [h0, h1, if_true, if_false]

set_option maxRecDepth 100000 in
/-- Witness of C13: with an application-mode unit and a bootloader-mode unit found at
once, the setup throws the error listing both and leaves world and session as they
were. -/
theorem C13_ambiguous_devices_witness :
    octoclock_setup_session sim_env_two_devices (sim_world "fw.bin" demo_image) sim_session
        [] "fw.bin"
      = ⟨sim_world "fw.bin" demo_image,
          .error (spec_ambiguous_device [sim_application, sim_bootloader])⟩
      ∧ spec_ambiguous_device [sim_application, sim_bootloader]
        = .runtime_error
            ("Could not resolve given args to a single OctoClock device.\n"
              ++ "Applicable devices:\n"
              ++ " * OctoClock r4 (addr=192.168.10.3)\n"
              ++ " * OctoClock Bootloader (addr=192.168.10.3)\n"
              ++ "\nSpecify one of these devices with the given args to load an image onto it.")
      ∧ session_after_setup sim_env_two_devices (sim_world "fw.bin" demo_image) sim_session
          [] "fw.bin" = sim_session :=
  have h := C13_ambiguous_devices sim_env_two_devices (sim_world "fw.bin" demo_image)
    sim_session [] "fw.bin" (by decide) (by decide)
  ⟨h.1, by decide, h.2.2⟩

/-! ## The bootloader transition -/

/-- The outcome of `octoclock_reset_into_bootloader` for a descriptor that holds an
address and a type other than the bootloader. -/
theorem reset_of_application (env : Env) (w : World) (session : octoclock_session_t)
    (ty addr : String)
    (htype : session.dev_addr.lookup "type" = some ty)
    (haddr : session.dev_addr.lookup "addr" = some addr)
    (hne : ty ≠ "octoclock-bootloader") :
    octoclock_reset_into_bootloader env w session
      = if reset_acked env w = true then
          match rediscovered env w addr with
          | [] => ⟨reset_world_sent env w, .error reset_failed⟩
          | first :: _ =>
            if first.lookup "type" = some "octoclock-bootloader" then
              ⟨reset_world_sent env w, .ok { session with
                data_in := (env.device (w.sent ++ [(xport_id.ctrl, reset_request env w)])).2
                dev_addr := first }⟩
            else ⟨reset_world_sent env w, .error reset_failed⟩
        else ⟨reset_world_sent env w, .error reset_failed⟩ := by
  have hx : UHD_OCTOCLOCK_SEND_AND_RECV env (after_rand w) .ctrl .RESET_CMD
      { env.uninit_pkt_out .reset with sequence := fresh_sequence env w }
      = { world := reset_world_sent env w
          pkt_out := reset_request env w
          len := (env.device (w.sent ++ [(xport_id.ctrl, reset_request env w)])).1
          data_in := (env.device (w.sent ++ [(xport_id.ctrl, reset_request env w)])).2 } := rfl
  have hs : (reset_world_sent env w).sent = w.sent ++ [(xport_id.ctrl, reset_request env w)] :=
    rfl
  have hf : env.device_find (w.sent ++ [(xport_id.ctrl, reset_request env w)]) ("addr=" ++ addr)
      = rediscovered env w addr := rfl
  have ha : env.PACKET_MATCHES .RESET_ACK (reset_request env w)
      (env.device (w.sent ++ [(xport_id.ctrl, reset_request env w)])).2
      (env.device (w.sent ++ [(xport_id.ctrl, reset_request env w)])).1
      = reset_acked env w := rfl
  unfold octoclock_reset_into_bootloader
  simp only [dict_index_of_lookup _ _ _ htype, dict_index_of_lookup _ _ _ haddr, hne, if_false,
    hx, hs, hf, ha]
  cases reset_acked env w with
  | false => rfl
  | true =>
    simp only [if_true]
    cases rediscovered env w addr with
    | nil => rfl
    | cons first rest =>
      simp only
      cases hl : first.lookup "type" with
      | none =>
        have hd : dict_index first "type" = ("", first ++ [("type", "")]) := by
          simp [dict_index, hl]
        rw [hd, if_pos (show ("" : String) ≠ "octoclock-bootloader" by decide),
          if_neg (by simp)]
      | some v =>
        rw [dict_index_of_lookup _ _ _ hl]
        by_cases hv : v = "octoclock-bootloader"
        · rw [if_neg (by simpa using hv), if_pos (by rw [hv])]
        · rw [if_pos hv, if_neg (by simpa using hv)]

/-- The session record `octoclock_reset_into_bootloader` leaves for a descriptor that
holds an address and a type other than the bootloader. -/
theorem session_after_reset_of_application (env : Env) (w : World)
    (session : octoclock_session_t) (ty addr : String)
    (htype : session.dev_addr.lookup "type" = some ty)
    (haddr : session.dev_addr.lookup "addr" = some addr)
    (hne : ty ≠ "octoclock-bootloader") :
    session_after_reset env w session
      = if reset_acked env w = true then
          match rediscovered env w addr with
          | [] => { session with
              data_in := (env.device (w.sent ++ [(xport_id.ctrl, reset_request env w)])).2 }
          | first :: _ =>
            if first.lookup "type" = some "octoclock-bootloader" then
              { session with
                data_in := (env.device (w.sent ++ [(xport_id.ctrl, reset_request env w)])).2
                dev_addr := first }
            else { session with
              data_in := (env.device (w.sent ++ [(xport_id.ctrl, reset_request env w)])).2 }
        else { session with
          data_in := (env.device (w.sent ++ [(xport_id.ctrl, reset_request env w)])).2 } := by
  have hx : UHD_OCTOCLOCK_SEND_AND_RECV env (after_rand w) .ctrl .RESET_CMD
      { env.uninit_pkt_out .reset with sequence := fresh_sequence env w }
      = { world := reset_world_sent env w
          pkt_out := reset_request env w
          len := (env.device (w.sent ++ [(xport_id.ctrl, reset_request env w)])).1
          data_in := (env.device (w.sent ++ [(xport_id.ctrl, reset_request env w)])).2 } := rfl
  have hs : (reset_world_sent env w).sent = w.sent ++ [(xport_id.ctrl, reset_request env w)] :=
    rfl
  have hf : env.device_find (w.sent ++ [(xport_id.ctrl, reset_request env w)]) ("addr=" ++ addr)
      = rediscovered env w addr := rfl
  have ha : env.PACKET_MATCHES .RESET_ACK (reset_request env w)
      (env.device (w.sent ++ [(xport_id.ctrl, reset_request env w)])).2
      (env.device (w.sent ++ [(xport_id.ctrl, reset_request env w)])).1
      = reset_acked env w := rfl
  unfold session_after_reset
  simp only [dict_index_of_lookup _ _ _ htype, dict_index_of_lookup _ _ _ haddr, hne, if_false,
    hx, hs, hf, ha]
  cases reset_acked env w with
  | false => rfl
  | true =>
    simp only [if_true]
    cases rediscovered env w addr with
    | nil => rfl
    | cons first rest =>
      simp only
      cases hl : first.lookup "type" with
      | none =>
        have hd : dict_index first "type" = ("", first ++ [("type", "")]) := by
          simp [dict_index, hl]
        rw [hd, if_pos (show ("" : String) ≠ "octoclock-bootloader" by decide),
          if_neg (by simp)]
      | some v =>
        rw [dict_index_of_lookup _ _ _ hl]
        by_cases hv : v = "octoclock-bootloader"
        · rw [if_neg (by simpa using hv), if_pos (by rw [hv])]
        · rw [if_pos hv, if_neg (by simpa using hv)]

theorem session_after_reset_of_ok (env : Env) (w : World)
    (session validated : octoclock_session_t)
    (h : (octoclock_reset_into_bootloader env w session).result = .ok validated) :
    session_after_reset env w session = validated := by
  unfold octoclock_reset_into_bootloader at h
  unfold session_after_reset
  simp only at h ⊢
  split at h
  · next hb =>
    rw [if_pos hb]
    exact Except.ok.inj h
  · next hb =>
    rw [if_neg hb]
    split at h
    · next hm =>
      rw [if_pos hm]
      split at h
      · cases h
      · next first rest hfind =>
        try simp only [hfind]
        split at h
        · cases h
        · next hty =>
          rw [if_neg hty]
          exact Except.ok.inj h
    · cases h

/-- C15: for a session descriptor that holds a `type` and an `addr` field. If the type
is `octoclock-bootloader`, `octoclock_reset_into_bootloader` returns with the world and
the session as they were, whatever the rediscovery routine would find, and sends nothing.
Otherwise it sends exactly one packet, a reset command on the control channel; it returns
normally if and only if the response matches the reset acknowledgment and the
rediscovery at the same address yields a first device whose type is
`octoclock-bootloader`; on success the descriptor is that first device; on failure the
reset error is thrown and the descriptor is as before. -/
theorem C15_reset_into_bootloader (env : Env) (w : World) (session : octoclock_session_t)
    (ty addr : String)
    (htype : session.dev_addr.lookup "type" = some ty)
    (haddr : session.dev_addr.lookup "addr" = some addr) :
    (ty = "octoclock-bootloader" →
        (∀ find, octoclock_reset_into_bootloader { env with device_find := find } w session
          = ⟨w, .ok session⟩)
        ∧ sent_between w (octoclock_reset_into_bootloader env w session).world = []
        ∧ session_after_reset env w session = session)
      ∧ (ty ≠ "octoclock-bootloader" →
        sent_between w (octoclock_reset_into_bootloader env w session).world
            = [(xport_id.ctrl, reset_request env w)]
          ∧ (reset_request env w).code = .RESET_CMD
          ∧ ((octoclock_reset_into_bootloader env w session).result.isOk = true ↔
              reset_acked env w = true
                ∧ ∃ first rest, rediscovered env w addr = first :: rest
                  ∧ first.lookup "type" = some "octoclock-bootloader")
          ∧ (∀ validated,
              (octoclock_reset_into_bootloader env w session).result = .ok validated →
                session_after_reset env w session = validated
                  ∧ ∃ rest, rediscovered env w addr = validated.dev_addr :: rest)
          ∧ ((octoclock_reset_into_bootloader env w session).result.isOk = false →
              (octoclock_reset_into_bootloader env w session).result = .error reset_failed
                ∧ (session_after_reset env w session).dev_addr = session.dev_addr)) := by
  constructor
  · intro hb
    rw [hb] at htype
    refine ⟨fun find => reset_in_bootloader _ w session htype, ?_, ?_⟩
    · rw [reset_in_bootloader env w session htype]
      exact sent_between_same w w rfl
    · exact session_after_reset_of_ok env w session session
        (by rw [reset_in_bootloader env w session htype])
  · intro hne
    have hr := reset_of_application env w session ty addr htype haddr hne
    have hx := session_after_reset_of_application env w session ty addr htype haddr hne
    have hsent : sent_between w (reset_world_sent env w)
        = [(xport_id.ctrl, reset_request env w)] := by
      show List.drop w.sent.length (w.sent ++ [_]) = _
      rw [List.drop_left]
    cases hack : reset_acked env w with
    | false =>
      rw [hack, if_neg Bool.false_ne_true] at hr hx
      rw [hr, hx]
      refine ⟨hsent, rfl, ⟨fun h => ?_, fun h => ?_⟩, fun v h => ?_, fun _ => ⟨rfl, rfl⟩⟩
      · cases h
      · exact absurd h.1 Bool.false_ne_true
      · cases h
    | true =>
      rw [hack, if_pos rfl] at hr hx
      cases hfind : rediscovered env w addr with
      | nil =>
        rw [hfind] at hr hx
        rw [hr, hx]
        refine ⟨hsent, rfl, ⟨fun h => ?_, fun h => ?_⟩, fun v h => ?_, fun _ => ⟨rfl, rfl⟩⟩
        · cases h
        · obtain ⟨_, f, r, h, _⟩ := h
          cases h
        · cases h
      | cons first rest =>
        rw [hfind] at hr hx
        by_cases hty : first.lookup "type" = some "octoclock-bootloader"
        · simp only [hty, if_true] at hr hx
          rw [hr, hx]
          refine ⟨hsent, rfl, ⟨fun _ => ⟨rfl, first, rest, rfl, hty⟩, fun _ => rfl⟩, ?_, ?_⟩
          · intro v h
            have hv := Except.ok.inj h
            subst hv
            exact ⟨rfl, rest, rfl⟩
          · intro h
            cases h
        · simp only [hty, if_false] at hr hx
          rw [hr, hx]
          refine ⟨hsent, rfl, ⟨fun h => ?_, fun h => ?_⟩, fun v h => ?_, fun _ => ⟨rfl, rfl⟩⟩
          · cases h
          · obtain ⟨_, f, r, h, hf⟩ := h
            rw [List.cons.injEq] at h
            rw [← h.1] at hf
            exact absurd hf hty
          · cases h

set_option maxRecDepth 100000 in
/-- Witness of C15: a session already in its bootloader sends nothing; for a unit running
its application the simulated device acknowledges the one reset command and is then
found in its bootloader. -/
theorem C15_reset_into_bootloader_witness :
    sent_between (sim_world "fw.bin" demo_image)
        (octoclock_reset_into_bootloader (sim_env sim_bootloader never)
          (sim_world "fw.bin" demo_image) demo_session).world = []
      ∧ sent_between (sim_world "fw.bin" demo_image)
          (octoclock_reset_into_bootloader (sim_env sim_application never)
            (sim_world "fw.bin" demo_image)
            { sim_session with dev_addr := sim_application }).world
          = [(xport_id.ctrl, reset_request (sim_env sim_application never)
              (sim_world "fw.bin" demo_image))]
      ∧ (octoclock_reset_into_bootloader (sim_env sim_application never)
          (sim_world "fw.bin" demo_image)
          { sim_session with dev_addr := sim_application }).result.isOk = true :=
  have hb := (C15_reset_into_bootloader (sim_env sim_bootloader never)
    (sim_world "fw.bin" demo_image) demo_session "octoclock-bootloader" "192.168.10.3"
    rfl rfl).1 rfl
  have ha := (C15_reset_into_bootloader (sim_env sim_application never)
    (sim_world "fw.bin" demo_image) { sim_session with dev_addr := sim_application }
    "octoclock" "192.168.10.3" rfl rfl).2 (by decide)
  ⟨hb.2.1, ha.1, ha.2.2.1.mpr ⟨by decide, sim_bootloader, [], rfl, rfl⟩⟩

/-! ## The file-transfer packets -/

/-- The file-transfer packets of `octoclock_burn` once the bootloader transition and the
prepare-burn exchange succeeded: the requests of the blocks `0, ..., m - 1`, where block
`i` is reached whenever the blocks before it were acknowledged, and the function returns
when all blocks were. -/
theorem burn_transfers (env : Env) (w : World) (session s1 : octoclock_session_t)
    (image : List uint8_t)
    (hfile : w.files session.actual_filepath = some image)
    (hreset : (octoclock_reset_into_bootloader env w session).result = .ok s1)
    (hprep : prepare_acked env (octoclock_reset_into_bootloader env w session).world session
      = true) :
    ∃ m, m ≤ session.num_blocks
      ∧ with_code .FILE_TRANSFER_CMD (sent_between w (octoclock_burn env w session).world)
          = (List.range m).map (fun j => transfer_request
              (prepare_request env (octoclock_reset_into_bootloader env w session).world session)
              image 0 j)
      ∧ (∀ i < session.num_blocks,
          (∀ j < i, transfer_acked env
            (prepared_world env (octoclock_reset_into_bootloader env w session).world session)
            (prepare_request env (octoclock_reset_into_bootloader env w session).world session)
            image 0 j = true) → i < m)
      ∧ ((∀ j < session.num_blocks, transfer_acked env
            (prepared_world env (octoclock_reset_into_bootloader env w session).world session)
            (prepare_request env (octoclock_reset_into_bootloader env w session).world session)
            image 0 j = true) → (octoclock_burn env w session).result.isOk = true) := by
  obtain ⟨dev, d, hs1⟩ := reset_session env w session s1 hreset
  have hburn := burn_of_reset_ok env w session s1 hreset
  subst hs1
  have himg : image_of (octoclock_reset_into_bootloader env w session).world
      session.actual_filepath = image := by
    rw [image_of, (reset_files env w session).1, hfile]
    rfl
  have hpre : ∀ q ∈ reset_requests env w session
      ++ [(xport_id.fw, prepare_request env
          (octoclock_reset_into_bootloader env w session).world session)],
      q.2.code ≠ packet_code.FILE_TRANSFER_CMD := by
    intro q hq
    rcases List.mem_append.mp hq with hq | hq
    · rw [reset_requests_code env w session q hq]
      decide
    · rw [List.mem_singleton] at hq
      rw [hq]
      simp [prepare_request]
  have hbetween : ∀ (X : World) (m : Nat),
      X.sent = ((prepared_world env (octoclock_reset_into_bootloader env w session).world
          session).send (transfer_requests (prepare_request env
            (octoclock_reset_into_bootloader env w session).world session) image 0 m)).sent →
      with_code .FILE_TRANSFER_CMD (sent_between w X)
        = (List.range m).map (fun j => transfer_request
            (prepare_request env (octoclock_reset_into_bootloader env w session).world session)
            image 0 j) := by
    intro X m hX
    rw [sent_between, hX]
    show with_code _ (List.drop _
      (((octoclock_reset_into_bootloader env w session).world.sent ++ [_]) ++ _)) = _
    rw [reset_sent, List.append_assoc, List.append_assoc, List.drop_left,
      ← List.append_assoc, with_code_transfer_requests _ _ _ _ _ hpre]
  rcases all_or_first_failure (fun j => transfer_acked env
      (prepared_world env (octoclock_reset_into_bootloader env w session).world session)
      (prepare_request env (octoclock_reset_into_bootloader env w session).world session)
      image 0 j) session.num_blocks with hall | ⟨k, hk, hack, hnack⟩
  · obtain ⟨d2, hd⟩ := burn_after_reset_all_acked env _
      { session with dev_addr := dev, data_in := d } image himg hprep hall
    refine ⟨session.num_blocks, le_refl _, ?_, fun i hi _ => hi, fun _ => ?_⟩
    · rw [hburn, hd]
      exact hbetween _ _ rfl
    · rw [hburn, hd]
      rfl
  · have hd := burn_after_reset_first_nack env _
      { session with dev_addr := dev, data_in := d } image k himg hprep hk hack hnack
    refine ⟨k + 1, hk, ?_, fun i _ hacki => ?_, fun hall => ?_⟩
    · rw [hburn, hd]
      exact hbetween _ _ (remove_if_from_hex_sent _ _)
    · by_contra hcon
      have hki : k < i := by omega
      rw [hacki k hki] at hnack
      cases hnack
    · rw [hall k hk] at hnack
      cases hnack

/-- C4: in `octoclock_burn`, whatever the device answers, the file-transfer packets go
out for the blocks `0, 1, ...` in order, at most `num_blocks` of them and exactly
`num_blocks` when the function returns; the `i`-th one has address `i * 256` and a
256-byte payload whose first `min 256 (size - 256 * i)` bytes are the image bytes from
offset `256 * i` and whose remaining bytes are zero. When `size % 256` is not zero, the
payload of the last block is zero beyond its first `size % 256` bytes. The packets are
sent: once the bootloader transition and the prepare-burn exchange succeeded, the packet
of every block `i < num_blocks` goes out, with that address and payload, as soon as the
blocks before it were acknowledged, and when all blocks are acknowledged the function
returns after exactly `num_blocks` file transfers. -/
theorem C4_transfer_packets (env : Env) (w : World) (session : octoclock_session_t)
    (image : List uint8_t)
    (hfile : w.files session.actual_filepath = some image)
    (hsize : session.size = image.length)
    (hmax : session.size ≤ OCTOCLOCK_FIRMWARE_MAX_SIZE_BYTES)
    (hblocks : session.num_blocks = block_count session.size) :
    (with_code .FILE_TRANSFER_CMD
        (sent_between w (octoclock_burn env w session).world)).length ≤ session.num_blocks
      ∧ ((octoclock_burn env w session).result.isOk = true →
          (with_code .FILE_TRANSFER_CMD
            (sent_between w (octoclock_burn env w session).world)).length = session.num_blocks)
      ∧ (∀ (i : Nat) (pkt : octoclock_packet_t),
          (with_code .FILE_TRANSFER_CMD
            (sent_between w (octoclock_burn env w session).world))[i]? = some pkt →
          i < session.num_blocks
            ∧ pkt.addr = i * 256
            ∧ pkt.data.length = 256
            ∧ pkt.data.take (min 256 (session.size - 256 * i))
                = (image.drop (256 * i)).take (min 256 (session.size - 256 * i))
            ∧ pkt.data.drop (min 256 (session.size - 256 * i))
                = List.replicate (256 - min 256 (session.size - 256 * i)) 0
            ∧ (session.size % 256 ≠ 0 → i + 1 = session.num_blocks →
                pkt.data.drop (session.size % 256)
                  = List.replicate (256 - session.size % 256) 0))
      ∧ (∀ s1, (octoclock_reset_into_bootloader env w session).result = .ok s1 →
          prepare_acked env (octoclock_reset_into_bootloader env w session).world session
            = true →
          (∀ i < session.num_blocks,
            (∀ j < i, transfer_acked env
              (prepared_world env (octoclock_reset_into_bootloader env w session).world
                session)
              (prepare_request env (octoclock_reset_into_bootloader env w session).world
                session)
              image 0 j = true) →
            ∃ pkt, (with_code .FILE_TRANSFER_CMD
                (sent_between w (octoclock_burn env w session).world))[i]? = some pkt
              ∧ pkt.addr = i * 256
              ∧ pkt.data.length = 256
              ∧ pkt.data.take (min 256 (session.size - 256 * i))
                  = (image.drop (256 * i)).take (min 256 (session.size - 256 * i))
              ∧ pkt.data.drop (min 256 (session.size - 256 * i))
                  = List.replicate (256 - min 256 (session.size - 256 * i)) 0)
          ∧ ((∀ j < session.num_blocks, transfer_acked env
              (prepared_world env (octoclock_reset_into_bootloader env w session).world
                session)
              (prepare_request env (octoclock_reset_into_bootloader env w session).world
                session)
              image 0 j = true) →
            (octoclock_burn env w session).result.isOk = true
              ∧ (with_code .FILE_TRANSFER_CMD
                  (sent_between w (octoclock_burn env w session).world)).length
                  = session.num_blocks)) := by
  obtain ⟨pre, p, m, hm, hsent, hcodes, hok⟩ := burn_sent env w session image (image_of_eq hfile)
  have hbetween : sent_between w (octoclock_burn env w session).world
      = pre ++ transfer_requests p image 0 m := by
    rw [sent_between, hsent, List.drop_left]
  have hM : OCTOCLOCK_FIRMWARE_MAX_SIZE_BYTES = 122880 := rfl
  have hbc := block_count_le session.size
  have hfields : ∀ (i : Nat) (pkt : octoclock_packet_t),
      (with_code .FILE_TRANSFER_CMD
        (sent_between w (octoclock_burn env w session).world))[i]? = some pkt →
      i < session.num_blocks
        ∧ pkt.addr = i * 256
        ∧ pkt.data.length = 256
        ∧ pkt.data.take (min 256 (session.size - 256 * i))
            = (image.drop (256 * i)).take (min 256 (session.size - 256 * i))
        ∧ pkt.data.drop (min 256 (session.size - 256 * i))
            = List.replicate (256 - min 256 (session.size - 256 * i)) 0
        ∧ (session.size % 256 ≠ 0 → i + 1 = session.num_blocks →
            pkt.data.drop (session.size % 256)
              = List.replicate (256 - session.size % 256) 0) := by
    rw [hbetween, with_code_transfer_requests p image 0 m pre hcodes]
    intro i pkt hget
    rw [List.getElem?_map] at hget
    have hi : i < m := by
      by_contra hcon
      rw [List.getElem?_eq_none (by simpa using hcon)] at hget
      cases hget
    rw [List.getElem?_range hi] at hget
    simp only [Option.map_some', Option.some.injEq] at hget
    subst hget
    have hin : i < session.num_blocks := lt_of_lt_of_le hi hm
    have haddr : (0 + i) * 256 % 2 ^ 32 = i * 256 := by omega
    refine ⟨hin, ?_, ?_, ?_, ?_, ?_⟩
    · simp only [transfer_request, haddr]
    · simp only [transfer_request, block_payload_length]
    · simp only [transfer_request, hsize, Nat.zero_add, block_payload_take]
    · simp only [transfer_request, hsize, Nat.zero_add, block_payload_drop]
    · intro hrem hlast
      have hmin : min 256 (image.length - 256 * i) = session.size % 256 := by
        rw [hblocks, block_count, OCTOCLOCK_BLOCK_SIZE, if_pos hrem] at hlast
        omega
      simp only [transfer_request, Nat.zero_add, ← hmin, block_payload_drop]
  refine ⟨?_, ?_, hfields, ?_⟩
  · rw [hbetween, with_code_transfer_requests p image 0 m pre hcodes]
    simpa using hm
  · intro h
    rw [hbetween, with_code_transfer_requests p image 0 m pre hcodes]
    simpa using hok h
  · intro s1 hreset hprep
    obtain ⟨n, _, htrace, hreach, hall⟩ := burn_transfers env w session s1 image hfile hreset hprep
    refine ⟨fun i hi hacks => ?_, fun hacks => ?_⟩
    · have hin : i < n := hreach i hi hacks
      have hget : (with_code .FILE_TRANSFER_CMD
          (sent_between w (octoclock_burn env w session).world))[i]?
          = some (transfer_request (prepare_request env
              (octoclock_reset_into_bootloader env w session).world session) image 0 i) := by
        rw [htrace, List.getElem?_map, List.getElem?_range hin]
        rfl
      obtain ⟨_, h1, h2, h3, h4, _⟩ := hfields i _ hget
      exact ⟨_, hget, h1, h2, h3, h4⟩
    · have hisok := hall hacks
      refine ⟨hisok, ?_⟩
      rw [hbetween, with_code_transfer_requests p image 0 m pre hcodes]
      simpa using hok hisok

set_option maxRecDepth 1000000 in
/-- Witness of C4: the burn of the 300-byte image on the simulated device sends two
file-transfer packets; the second one has the address 256 and a payload of the 44 image
bytes from offset 256 followed by 212 zero bytes. -/
theorem C4_transfer_packets_witness :
    (∃ pkt, (with_code .FILE_TRANSFER_CMD
          (sent_between (sim_world "fw.bin" demo_image)
            (octoclock_burn (sim_env sim_bootloader never) (sim_world "fw.bin" demo_image)
              demo_session).world))[1]? = some pkt
        ∧ pkt.addr = 1 * 256
        ∧ pkt.data.length = 256
        ∧ pkt.data.take (min 256 (demo_session.size - 256 * 1))
            = (demo_image.drop (256 * 1)).take (min 256 (demo_session.size - 256 * 1))
        ∧ pkt.data.drop (min 256 (demo_session.size - 256 * 1))
            = List.replicate (256 - min 256 (demo_session.size - 256 * 1)) 0)
      ∧ (with_code .FILE_TRANSFER_CMD
          (sent_between (sim_world "fw.bin" demo_image)
            (octoclock_burn (sim_env sim_bootloader never) (sim_world "fw.bin" demo_image)
              demo_session).world)).map (fun p => (p.addr, p.data))
          = [(0, List.replicate 256 0x5A),
             (256, List.replicate 44 0x5A ++ List.replicate 212 0)] :=
  ⟨((C4_transfer_packets (sim_env sim_bootloader never) (sim_world "fw.bin" demo_image)
      demo_session demo_image (by simp [sim_world, demo_session])
      (by rw [demo_image_length]; rfl) (by decide) (by decide)).2.2.2 demo_session
      (by rw [reset_in_bootloader _ _ _ (by decide)]) (by decide)).1 1 (by decide)
      (by decide),
    by decide⟩

end OctoClock
